import Mathlib

/-!
# Sisyphus simulation engine: embedding of `simulation/simulation.go`

The Go code is stateful: attribute bags are Go maps (reference values that are
mutated in place and may be aliased), entity sets are heap objects with a
counter, randomness comes from the process-wide source, and every step hands
follow-up work to the executor through `addJob`.  The embedding threads an
explicit `World` through every function:

* `heap`      the allocated Go maps; a bag is addressed by its index,
* `sets`      the allocated `entitySet` objects,
* `pos`       the cursor into the random source,
* `cancelled` / `errors`  the effect of `Simulation.error`,
* `jobs`      the calls made to `addJob`, in order,
* `calls`     the calls made to the call backend, in order,
* `entities`  the invocations of `createEntity`, in order.

A Go panic is the `Except.error` outcome.  The executor itself is not in this
file of the package: `addJob` records the calls made to it, and
`executor.begins` states when a job it was handed may begin.

The `float64` values of the code are computed here in exact rational
arithmetic: rounding, underflow, infinities and the conversion of values
outside the `int` range are not modelled.  The theorems below that involve
such values concern the control flow around them, or hold whatever the
rounding.
-/

set_option linter.dupNamespace false

namespace Sisyphus

/-! ## Values and maps -/

/-- Dynamically typed attribute value, the Go empty interface as the code uses it. -/
inductive Val where
  | nil
  | int (n : Int)
  | float (q : ℚ)
  | str (s : String)
  | list (xs : List Val)
  | map (kvs : List (String × Val))

/-- Contents of a Go map from string to value, as an association list in
which the first binding of a key is the live one. -/
abbrev Bag := List (String × Val)

/-- Map read `m[k]` with the comma-ok result. -/
def Bag.get : Bag → String → Option Val
  | [], _ => none
  | (k', v) :: rest, k => if k' = k then some v else Bag.get rest k

/-- Map write `m[k] = v`: overwrite the binding of `k`, or add one. -/
def Bag.set : Bag → String → Val → Bag
  | [], k, v => [(k, v)]
  | (k', v') :: rest, k, v =>
    if k' = k then (k, v) :: rest else (k', v') :: Bag.set rest k v

/-- A value of type `call.Attributes`: `none` is the nil map, `some r` the map
stored at address `r` of the heap. -/
abbrev Attributes := Option Nat

/-! ## Configuration (package `config`, consumed by the engine) -/

/-- Modelled from the spec: the timer kinds of `config.Timer` (the package
`config` is not among the sources; the code switches on `FixedTimer`,
`RandomTimer` and the empty string, anything else falls through). -/
inductive config.TimerType where
  | FixedTimer
  | RandomTimer
  | empty
  | other (name : String)
deriving DecidableEq

/-- Modelled from the spec: `config.Timer`, a spawn or dwell delay
specification; durations are `time.Duration` values, that is, signed 64-bit
nanosecond counts. -/
structure config.Timer where
  Kind : config.TimerType
  Interval : Int
  Min : Int
  Max : Int
deriving DecidableEq

/-- Modelled from the spec: the distribution kinds of `config.Attribute`, one
per case of the switch in `Sample`, and `other` for an unrecognised kind. -/
inductive config.AttributeType where
  | ConstantInt
  | Map
  | MapList
  | RandomInt
  | PowerInt
  | NormalInt
  | RandomFloat
  | PowerFloat
  | NormalFloat
  | ConstantString
  | RandomString
  | RandomValue
  | RandomSubset
  | other (name : String)
deriving DecidableEq

/-- Modelled from the spec: `config.Attribute`, a distribution specification
with the fields `Sample` reads. -/
structure config.Attribute where
  Kind : config.AttributeType
  Value : Val
  MapValue : Val
  MapValues : Val
  Min : ℚ
  Max : ℚ
  N : ℚ
  StdDev : ℚ
  StringValue : String
  Values : List Val

/-- Modelled from the spec: `config.Call`, the external call specification;
the engine only looks at whether its four parts are empty. -/
structure config.Call where
  Method : String
  URL : String
  Parameters : List String
  Results : List String
deriving DecidableEq

/-- Modelled from the spec: `config.Transition`, a weighted edge with an
optional call and an optional fallback state. -/
structure config.Transition where
  Probability : ℚ
  State : String
  Call : config.Call
  OnFailure : String
deriving DecidableEq

/-- Modelled from the spec: `config.State`; `Attributes` lists the entries of
the Go map in the order the `range` loop visits them. -/
structure config.State where
  Attributes : List (String × config.Attribute)
  Timer : config.Timer
  Transitions : List config.Transition

/-- Modelled from the spec: `config.EntitySet`, an entity-set descriptor. -/
structure config.EntitySet where
  Entity : String
  Cardinality : String
  Timer : config.Timer
deriving DecidableEq

/-- Modelled from the spec: `config.Entity`; `Attributes` lists the entries
of the Go map in the order the `range` loop visits them. -/
structure config.Entity where
  Attributes : List (String × config.Attribute)
  Subordinates : List config.EntitySet
  InitialState : String

/-- Modelled from the spec: `config.Config`, the named entity and state
definitions, the root entity sets and the global constants. -/
structure config.Config where
  Constants : Bag
  RootEntities : List config.EntitySet
  Entities : List (String × config.Entity)
  States : List (String × config.State)

/-- Lookup in a configuration map (`sim.Entities[name]`, `sim.States[name]`). -/
def config.find {α : Type} : List (String × α) → String → Option α
  | [], _ => none
  | (k, v) :: rest, name => if k = name then some v else config.find rest name

/-! ## Errors -/

/-- The errors the engine creates or passes on. -/
inductive Err where
  | notFound (what : String) (name : String)
  | negativeProbability (p : ℚ)
  | zeroProbabilitySum
  | emptyValues
  | uuid (msg : String)
  | atoiSyntax (s : String)
  | atoiRange (s : String)
  | unknownType
  | backend (msg : String)
deriving DecidableEq

/-- Text recorded under the `error` key (`errors.Details`). -/
def Err.details : Err → String
  | .notFound what name => what ++ " " ++ name ++ " not found"
  | .negativeProbability _ => "negative transition probability"
  | .zeroProbabilitySum => "sum of transition probabilities is 0"
  | .emptyValues => "empty list of values"
  | .uuid msg => msg
  | .atoiSyntax s => "strconv.Atoi: parsing " ++ s ++ ": invalid syntax"
  | .atoiRange s => "strconv.Atoi: parsing " ++ s ++ ": value out of range"
  | .unknownType => "unknown type: expected int or string"
  | .backend msg => msg

/-! ## Runtime facilities outside the package -/

/-- The Go runtime facilities the code draws on: the global `math/rand`
source (one stream per primitive, all read at the shared cursor), the UUID
generator, and `math.Pow`. -/
structure Runtime where
  ints : Nat → Nat
  floats : Nat → ℚ
  norms : Nat → ℚ
  uuids : Nat → Except String String
  pow : ℚ → ℚ → ℚ

/-- The draw `rand.Float64()` at cursor `pos`: a value in `[0,1)`. -/
def Runtime.Float64 (rt : Runtime) (pos : Nat) : ℚ := Int.fract (rt.floats pos)

/-- The draw `rand.Intn(n)` (also `rand.Int63n(n)`) at cursor `pos`, for `0 < n`:
a value in `[0,n)`. -/
def Runtime.Intn (rt : Runtime) (pos : Nat) (n : Nat) : Nat := rt.ints pos % n

/-- Two's-complement wrap of an integer to the `int64` range. -/
def wrap64 (x : Int) : Int := (x + 2 ^ 63) % 2 ^ 64 - 2 ^ 63

/-- The `int` range of a 64-bit platform. -/
def inInt64 (x : Int) : Prop := -(2 ^ 63) ≤ x ∧ x < 2 ^ 63

instance (x : Int) : Decidable (inInt64 x) := by
  unfold inInt64; exact inferInstance

/-- The function `strconv.Atoi` of the Go standard library: an optional sign,
then one or more decimal digits, the value within the `int` range.  Returns
the value and the error, as the Go function does. -/
def atoi (s : String) : Int × Option Err :=
  let cs := s.toList
  let neg := cs.head? = some '-'
  let ds := if cs.head? = some '-' ∨ cs.head? = some '+' then cs.tail else cs
  if ds = [] ∨ ¬ ds.all Char.isDigit then (0, some (Err.atoiSyntax s))
  else
    let n : Int := ds.foldl (fun acc c => 10 * acc + (c.toNat - '0'.toNat : Nat)) (0 : Int)
    let v : Int := if neg then -n else n
    if v < -(2 ^ 63) then (-(2 ^ 63), some (Err.atoiRange s))
    else if 2 ^ 63 ≤ v then (2 ^ 63 - 1, some (Err.atoiRange s))
    else (v, none)

/-! ## The call backend -/

/-- Which map a call backend hands back. -/
inductive Returned where
  | nilMap
  | sameMap
  | freshMap (b : Bag)

/-- What one call to `CallBackend.Do` does, seen from the engine: the
contents of the argument map when the call returns (a backend may write to the
map it is given), the map it returns (nil, the argument map itself, or a map
of its own) and the error. -/
structure CallResult where
  argAfter : Bag
  ret : Returned
  err : Option Err

/-- The simulation's static parts: the configuration and the call backend.
A backend may keep state, so `Do` also sees the calls made before. -/
structure Simulation where
  Config : config.Config
  Do : List (config.Call × Bag) → config.Call → Bag → CallResult

/-! ## Runtime objects -/

/-- The struct `State`: a state definition paired with one actor's bag. -/
structure State where
  State : config.State
  Attributes : Attributes

/-- The struct `entitySet` (the mutex guards the counter; jobs are run one at
a time here). -/
structure entitySet where
  EntitySet : config.EntitySet
  attributes : Attributes
  cfg : config.Entity
  numberOfEntities : Int
  numberOfCreatedEntities : Int

/-- The closures handed to `addJob`. -/
inductive Job where
  | create (e : Nat)
  | createEntity (e : Nat)
  | run (s : State)
  | runTransition (s : State)

/-- The mutable state of a simulation run, with the record of its effects. -/
structure World where
  heap : List Bag
  sets : List entitySet
  pos : Nat
  cancelled : Bool
  errors : List Err
  jobs : List (Int × Job)
  calls : List (config.Call × Bag)
  entities : List (config.Entity × Attributes × Bag)

/-- The state a run starts from: nothing allocated, nothing scheduled. -/
def World.init : World :=
  { heap := [], sets := [], pos := 0, cancelled := false, errors := [],
    jobs := [], calls := [], entities := [] }

/-- Contents of the map `a`; reading the nil map sees no entry. -/
def World.read (w : World) (a : Attributes) : Bag :=
  match a with
  | none => []
  | some r => w.heap.getD r []

/-- Allocation of a new map with contents `b` (`make(map...)`). -/
def World.alloc (w : World) (b : Bag) : Attributes × World :=
  (some w.heap.length, { w with heap := w.heap ++ [b] })

/-- The assignment `a[k] = v`; it panics on the nil map. -/
def World.write (w : World) (a : Attributes) (k : String) (v : Val) : Except String World :=
  match a with
  | none => Except.error "assignment to entry in nil map"
  | some r => Except.ok { w with heap := w.heap.set r ((w.heap.getD r []).set k v) }

/-- The method `Simulation.error`: report the error and cancel the context. -/
def Simulation.error (w : World) (err : Err) : World :=
  { w with cancelled := true, errors := w.errors ++ [err] }

/-- The call `sim.e.addJob(ctx, delay, job)` as the functions of this file
make it: the call is recorded, with its delay, in the order the calls are
made.  What the executor does with a recorded job is not decided here: see
`executor.begins`. -/
def addJob (w : World) (delay : Int) (job : Job) : World :=
  { w with jobs := w.jobs ++ [(delay, job)] }

/-! ## Leaf functions -/

/-- The loop of `copyAttributes`: every entry of the bag is written, in
turn, into a map that starts empty. -/
def Bag.copy (b : Bag) : Bag := b.foldl (fun m kv => Bag.set m kv.1 kv.2) []

/-- The function `copyAttributes`: a new map that receives every entry of `a`. -/
def copyAttributes (w : World) (a : Attributes) : Attributes × World :=
  w.alloc (w.read a).copy

/-- The function `isEmptyCall`. -/
def isEmptyCall (call : config.Call) : Bool :=
  call.Method == "" && call.URL == "" && call.Parameters.length == 0 && call.Results.length == 0

/-- The function `newDelay`: the delay and the advanced cursor, or a panic
(`rand.Int63n` panics on a non-positive argument). -/
def newDelay (rt : Runtime) (c : config.Timer) (pos : Nat) : Except String (Int × Nat) :=
  match c.Kind with
  | .FixedTimer => Except.ok (c.Interval, pos)
  | .RandomTimer =>
    if wrap64 (c.Max - c.Min) ≤ 0 then Except.error "invalid argument to Int63n"
    else Except.ok (wrap64 (c.Min + rt.Intn pos (wrap64 (c.Max - c.Min)).toNat), pos + 1)
  | .empty => Except.ok (0, pos)
  | .other _ => Except.ok (0, pos)

/-- The method `cardinality.Value`: the value and the error, as returned. -/
def cardinality.Value (c : String) (attributes : Bag) : Int × Option Err :=
  match attributes.get c with
  | none => if c = "" then (1, none) else atoi c
  | some (Val.int n) => (n, none)
  | some (Val.str s) => atoi s
  | some _ => (-1, some Err.unknownType)

/-- The loop of the random-subset case: while `i < rand.Intn(len)`, mark the
position `rand.Intn(len)`.  The bound is drawn anew at every test.  `fuel`
bounds the number of iterations; `none` means it ran out. -/
def AttributeDistribution.subsetLoop (rt : Runtime) (len : Nat) :
    Nat → Nat → Nat → List Nat → Option (List Nat × Nat)
  | fuel, i, pos, marked =>
    if i < rt.Intn pos len then
      match fuel with
      | 0 => none
      | fuel + 1 =>
        let k := rt.Intn (pos + 1) len
        AttributeDistribution.subsetLoop rt len fuel (i + 1) (pos + 2)
          (if k ∈ marked then marked else marked ++ [k])
    else some (marked, pos + 1)

/-- The integer `int(math.Floor(x))` for an exact value `x` (neither the
rounding of the `float64` operand nor the conversion of a value outside the
`int` range is modelled). -/
def floorInt (x : ℚ) : Int := ⌊x⌋

/-- The method `AttributeDistribution.Sample`: the value and the error, as
returned, and the advanced cursor of the random source.  The numeric kinds
are computed in exact arithmetic; the random-subset kind lists the marked
positions in the order they were marked, where the code ranges over a Go map
(in no fixed order). -/
def AttributeDistribution.Sample (rt : Runtime) (a : config.Attribute) (pos : Nat) :
    (Val × Option Err) × Nat :=
  match a.Kind with
  | .ConstantInt => ((a.Value, none), pos)
  | .Map => ((a.MapValue, none), pos)
  | .MapList => ((a.MapValues, none), pos)
  | .RandomInt => ((Val.int (floorInt (a.Min + (a.Max - a.Min) * rt.Float64 pos)), none), pos + 1)
  | .PowerInt =>
    let v := rt.Float64 pos
    let nn := a.N + 1
    let sample := rt.pow ((rt.pow a.Max nn - rt.pow a.Min nn) * v + rt.pow a.Min nn) (1 / nn)
    ((Val.int (floorInt sample), none), pos + 1)
  | .NormalInt => ((Val.int (floorInt |rt.norms pos * a.StdDev + a.N|), none), pos + 1)
  | .RandomFloat => ((Val.float (a.Min + (a.Max - a.Min) * rt.Float64 pos), none), pos + 1)
  | .PowerFloat =>
    let v := rt.Float64 pos
    let nn := a.N + 1
    ((Val.float (rt.pow ((rt.pow a.Max nn - rt.pow a.Min nn) * v + rt.pow a.Min nn) (1 / nn)), none),
      pos + 1)
  | .NormalFloat => ((Val.float |rt.norms pos * a.StdDev + a.N|, none), pos + 1)
  | .ConstantString => ((Val.str a.StringValue, none), pos)
  | .RandomString =>
    match rt.uuids pos with
    | .error msg => ((Val.nil, some (Err.uuid msg)), pos + 1)
    | .ok uuid =>
      if a.StringValue = "" then ((Val.str uuid, none), pos + 1)
      else if a.Min ≠ 0 ∨ a.Max ≠ 0 then
        ((Val.str (a.StringValue ++
            toString (floorInt (a.Min + (a.Max - a.Min) * rt.Float64 (pos + 1)))), none), pos + 2)
      else ((Val.str (a.StringValue ++ uuid), none), pos + 1)
  | .RandomValue =>
    if a.Values.length = 0 then ((Val.nil, some Err.emptyValues), pos)
    else ((a.Values.getD (rt.Intn pos a.Values.length) Val.nil, none), pos + 1)
  | .RandomSubset =>
    if a.Values.length = 0 then ((Val.nil, some Err.emptyValues), pos)
    else
      match AttributeDistribution.subsetLoop rt a.Values.length a.Values.length 0 pos [] with
      | none => ((Val.nil, none), pos)
      | some (marked, pos') => ((Val.list (marked.map (fun k => a.Values.getD k Val.nil)), none), pos')
  | .other _ => ((Val.int 0, none), pos)

/-! ## The entity/state tree builder -/

/-- The struct literal of `newEntitySet`: the two given fields, the others zero. -/
def entitySet.fresh (esConfig : config.EntitySet) (attributes : Attributes) : entitySet :=
  { EntitySet := esConfig, attributes := attributes,
    cfg := { Attributes := [], Subordinates := [], InitialState := "" },
    numberOfEntities := 0, numberOfCreatedEntities := 0 }

/-- The function `newEntitySet`: allocate the entity set and schedule its
activation at once.  The bag is stored as given, not copied. -/
def newEntitySet (w : World) (esConfig : config.EntitySet) (attributes : Attributes) : World :=
  addJob { w with sets := w.sets ++ [entitySet.fresh esConfig attributes] }
    0 (Job.create w.sets.length)

/-- The sampling loop shared by `createEntity` and `State.generateAttributes`:
sample each configured distribution in turn and store the value under its
key; stop at the first sampling error and return it. -/
def sampleInto (rt : Runtime) (attributes : Attributes) :
    List (String × config.Attribute) → World → Except String (Option Err × World)
  | [], w => Except.ok (none, w)
  | (key, attr) :: rest, w =>
    match AttributeDistribution.Sample rt attr w.pos with
    | ((_, some err), pos') => Except.ok (some err, { w with pos := pos' })
    | ((value, none), pos') =>
      match World.write { w with pos := pos' } attributes key value with
      | .error p => Except.error p
      | .ok w' => sampleInto rt attributes rest w'

/-- The record that `createEntity` is invoked on `cfg` with the bag
`attributes`, whose contents at that moment are noted. -/
def World.logEntity (w : World) (cfg : config.Entity) (attributes : Attributes) : World :=
  { w with entities := w.entities ++ [(cfg, attributes, w.read attributes)] }

/-- The function `createEntity`. -/
def createEntity (sim : Simulation) (rt : Runtime) (cfg : config.Entity)
    (attributes : Attributes) (w : World) : Except String World :=
  match sampleInto rt attributes cfg.Attributes (w.logEntity cfg attributes) with
  | .error p => Except.error p
  | .ok (some err, w1) => Except.ok (Simulation.error w1 err)
  | .ok (none, w1) =>
    let w2 := cfg.Subordinates.foldl (fun acc esConfig => newEntitySet acc esConfig attributes) w1
    if cfg.InitialState ≠ "" then
      match config.find sim.Config.States cfg.InitialState with
      | none => Except.ok (Simulation.error w2 (Err.notFound "state" cfg.InitialState))
      | some stateConfig =>
        let (copy, w3) := copyAttributes w2 attributes
        Except.ok (addJob w3 0 (Job.run { State := stateConfig, Attributes := copy }))
    else Except.ok w2

/-- The method `entitySet.create` of the entity set stored at index `e`. -/
def entitySet.create (sim : Simulation) (rt : Runtime) (e : Nat) (w : World) :
    Except String World :=
  match w.sets.get? e with
  | none => Except.error "nil pointer dereference"
  | some es =>
    match config.find sim.Config.Entities es.EntitySet.Entity with
    | none => Except.ok (Simulation.error w (Err.notFound "entity" es.EntitySet.Entity))
    | some cfg =>
      let w1 := { w with sets := w.sets.set e ({ es with cfg := cfg } : entitySet) }
      match cardinality.Value es.EntitySet.Cardinality (w1.read es.attributes) with
      | (_, some err) => Except.ok (Simulation.error w1 err)
      | (numberOfEntities, none) =>
        let es2 : entitySet :=
          { es with cfg := cfg, numberOfEntities := numberOfEntities, numberOfCreatedEntities := 0 }
        let w2 := { w1 with sets := w1.sets.set e es2 }
        match newDelay rt es.EntitySet.Timer w2.pos with
        | .error p => Except.error p
        | .ok (delay, pos') => Except.ok (addJob { w2 with pos := pos' } delay (Job.createEntity e))

/-- The method `entitySet.createEntity` of the entity set stored at index `e`. -/
def entitySet.createEntity (sim : Simulation) (rt : Runtime) (e : Nat) (w : World) :
    Except String World :=
  match w.sets.get? e with
  | none => Except.error "nil pointer dereference"
  | some es =>
    if es.numberOfCreatedEntities ≥ es.numberOfEntities then Except.ok w
    else
      let es1 : entitySet :=
        { es with numberOfCreatedEntities := es.numberOfCreatedEntities + 1 }
      let w1 := { w with sets := w.sets.set e es1 }
      let (copy, w2) := copyAttributes w1 es.attributes
      match Sisyphus.createEntity sim rt es.cfg copy w2 with
      | .error p => Except.error p
      | .ok w3 =>
        match newDelay rt es.EntitySet.Timer w3.pos with
        | .error p => Except.error p
        | .ok (delay, pos') => Except.ok (addJob { w3 with pos := pos' } delay (Job.createEntity e))

/-- The method `State.generateAttributes`: the error it returns, if any. -/
def State.generateAttributes (rt : Runtime) (s : Sisyphus.State) (w : World) :
    Except String (Option Err × World) :=
  sampleInto rt s.Attributes s.State.Attributes w

/-- The method `State.run`. -/
def State.run (rt : Runtime) (s : Sisyphus.State) (w : World) : Except String World :=
  if s.State.Transitions.length = 0 then Except.ok w
  else
    match newDelay rt s.State.Timer w.pos with
    | .error p => Except.error p
    | .ok (delay, pos') => Except.ok (addJob { w with pos := pos' } delay (Job.runTransition s))

/-- The first loop of `runTransition`: add up the weights, stopping with the
error at the first negative one. -/
def State.sumLoop : List config.Transition → ℚ → Except Err ℚ
  | [], sum => Except.ok sum
  | transition :: rest, sum =>
    if transition.Probability < 0 then Except.error (Err.negativeProbability transition.Probability)
    else State.sumLoop rest (sum + transition.Probability)

/-- The world when `sim.Do` returns: the call is on record and the argument
map holds what the backend left in it. -/
def State.called (s : Sisyphus.State) (call : config.Call) (arg : Bag) (res : CallResult)
    (w : World) : World :=
  match s.Attributes with
  | none => { w with calls := w.calls ++ [(call, arg)] }
  | some r => { w with calls := w.calls ++ [(call, arg)], heap := w.heap.set r res.argAfter }

/-- The bag `sim.Do` returns: nil, the argument map, or a map of the backend's
own, which then is a new map on the heap. -/
def State.returned (s : Sisyphus.State) (res : CallResult) (w : World) :
    Sisyphus.Attributes × World :=
  match res.ret with
  | .nilMap => (none, w)
  | .sameMap => (s.Attributes, w)
  | .freshMap b => w.alloc b

/-- The call of a selected transition with a non-empty call: `sim.Do` on the
state's bag, then, on an error, the write of the `error` key into the returned
bag and the redirection to the on-failure state.  Yields the bag and the name
of the next state. -/
def State.doCall (sim : Simulation) (s : Sisyphus.State) (transition : config.Transition)
    (w : World) : Except String (Sisyphus.Attributes × String × World) :=
  let arg := w.read s.Attributes
  let res := sim.Do w.calls transition.Call arg
  let ret := State.returned s res (State.called s transition.Call arg res w)
  match res.err with
  | none => Except.ok (ret.1, transition.State, ret.2)
  | some err =>
    match World.write ret.2 ret.1 "error" (Val.str err.details) with
    | .error p => Except.error p
    | .ok w4 =>
      Except.ok (ret.1, if transition.OnFailure ≠ "" then transition.OnFailure
                        else transition.State, w4)

/-- The first part of a taken transition: the bag and the name of the next
state, from the call when there is one, else the state's bag and the
configured target. -/
def State.resolve (sim : Simulation) (s : Sisyphus.State) (transition : config.Transition)
    (w : World) : Except String (Sisyphus.Attributes × String × World) :=
  if isEmptyCall transition.Call then Except.ok (s.Attributes, transition.State, w)
  else State.doCall sim s transition w

/-- The second loop of `runTransition`: subtract each weight from the random
number in turn; whenever the running value is at most 0, perform the
transition (call, lookup of the next state, scheduling of its entry).  The
loop body has no `break`: after a transition is taken the loop goes on to the
next one; only a missing next state ends it (`return`). -/
def State.selectLoop (sim : Simulation) (s : Sisyphus.State) :
    List config.Transition → ℚ → World → Except String World
  | [], _, w => Except.ok w
  | transition :: rest, randomNumber, w =>
    if randomNumber - transition.Probability ≤ 0 then
      match State.resolve sim s transition w with
      | .error p => Except.error p
      | .ok (attributes, nextStateName, w1) =>
        match config.find sim.Config.States nextStateName with
        | none => Except.ok (Simulation.error w1 (Err.notFound "state" nextStateName))
        | some nextStateConfig =>
          let (copy, w2) := copyAttributes w1 attributes
          State.selectLoop sim s rest (randomNumber - transition.Probability)
            (addJob w2 0 (Job.run { State := nextStateConfig, Attributes := copy }))
    else State.selectLoop sim s rest (randomNumber - transition.Probability) w

/-- The method `State.runTransition`. -/
def State.runTransition (sim : Simulation) (rt : Runtime) (s : Sisyphus.State) (w : World) :
    Except String World :=
  match State.generateAttributes rt s w with
  | .error p => Except.error p
  | .ok (some err, w1) => Except.ok (Simulation.error w1 err)
  | .ok (none, w1) =>
    match State.sumLoop s.State.Transitions 0 with
    | .error err => Except.ok (Simulation.error w1 err)
    | .ok sum =>
      if sum = 0 then Except.ok (Simulation.error w1 Err.zeroProbabilitySum)
      else
        State.selectLoop sim s s.State.Transitions (sum * rt.Float64 w1.pos)
          { w1 with pos := w1.pos + 1 }

/-- Execution of one scheduled job. -/
def Job.exec (sim : Simulation) (rt : Runtime) : Job → World → Except String World
  | .create e, w => entitySet.create sim rt e w
  | .createEntity e, w => entitySet.createEntity sim rt e w
  | .run s, w => State.run rt s w
  | .runTransition s, w => State.runTransition sim rt s w

/-- The function `New`: every root entity set is created with its own copy
of the constants. -/
def New (sim : Simulation) : World :=
  let w0 : World := { World.init with heap := [sim.Config.Constants] }
  sim.Config.RootEntities.foldl
    (fun w esConfig =>
      let (copy, w1) := copyAttributes w (some 0)
      newEntitySet w1 esConfig copy) w0

/-! ## Observations on runs -/

/-- The jobs scheduled on the way from `w` to `w'`. -/
def World.newJobs (w w' : World) : List (Int × Job) := w'.jobs.drop w.jobs.length

/-- The errors signalled on the way from `w` to `w'`. -/
def World.newErrors (w w' : World) : List Err := w'.errors.drop w.errors.length

/-- The backend calls made on the way from `w` to `w'`. -/
def World.newCalls (w w' : World) : List (config.Call × Bag) := w'.calls.drop w.calls.length

/-- The entities created on the way from `w` to `w'`. -/
def World.newEntities (w w' : World) : List (config.Entity × Attributes × Bag) :=
  w'.entities.drop w.entities.length

/-- Whether a job is the create-one-entity job of entity set `e`. -/
def Job.isCreateEntity (e : Nat) : Job → Bool
  | .createEntity e' => e' == e
  | _ => false

/-- Whether a job is a state entry. -/
def Job.isRun : Job → Bool
  | .run _ => true
  | _ => false

/-- Whether a job is the activation of an entity set. -/
def Job.isCreate : Job → Bool
  | .create _ => true
  | _ => false

/-- The created-count of entity set `e`. -/
def World.created (w : World) (e : Nat) : Int :=
  match w.sets.get? e with
  | none => 0
  | some es => es.numberOfCreatedEntities

/-- The number of successors (create-one-entity jobs of set `e`) scheduled on
the way from `w` to `w'`. -/
def entitySet.successors (e : Nat) (w w' : World) : Nat :=
  ((w.newJobs w').filter (fun j => j.2.isCreateEntity e)).length

/-- Modelled from the spec: the executor, whose code is not in this file of
the package, lets a job begin only while the cancellation signal is not
triggered.  A job handed to `addJob` when the signal is already triggered is
dropped silently, and once the signal is triggered no job begins its work
(spec 4.1 and 5).  `Simulation.error` triggers the signal; it is never reset. -/
def executor.begins (w : World) : Bool :=
  !w.cancelled

/-- The create-one-entity job of set `e` run together with every successor
that the executor lets begin: the worlds reached after each run, in order.
A run happens only while the signal is not triggered, so a successor handed to
`addJob` by a run that cancelled the simulation is dropped and the chain ends
with that run.  `fuel` bounds the number of runs. -/
def entitySet.chain (sim : Simulation) (rt : Runtime) (e : Nat) :
    Nat → World → Except String (List World)
  | 0, w => if executor.begins w then Except.error "out of fuel" else Except.ok []
  | fuel + 1, w =>
    if executor.begins w then
      match entitySet.createEntity sim rt e w with
      | .error p => Except.error p
      | .ok w' =>
        if entitySet.successors e w w' = 0 then Except.ok [w']
        else
          match entitySet.chain sim rt e fuel w' with
          | .error p => Except.error p
          | .ok ws => Except.ok (w' :: ws)
    else Except.ok []

/-- A timer on which `newDelay` does not panic. -/
def config.Timer.wellFormed (c : config.Timer) : Prop :=
  c.Kind = config.TimerType.RandomTimer → 0 < wrap64 (c.Max - c.Min)

instance (c : config.Timer) : Decidable c.wellFormed := by
  unfold config.Timer.wellFormed; exact inferInstance

/-- Two worlds that differ at most in the contents of the bag at address `r`
and in the cursor of the random source. -/
def World.sameBut (r : Nat) (w w' : World) : Prop :=
  w'.sets = w.sets ∧ w'.jobs = w.jobs ∧ w'.calls = w.calls ∧ w'.entities = w.entities ∧
  w'.errors = w.errors ∧ w'.cancelled = w.cancelled ∧ w'.heap.length = w.heap.length ∧
  ∀ i, i ≠ r → w'.heap.getD i [] = w.heap.getD i []

/-- The position of the first transition at which the second loop of
`runTransition` finds its running value at most 0, if there is one. -/
def State.firstSelected : List config.Transition → ℚ → Option Nat
  | [], _ => none
  | transition :: rest, randomNumber =>
    if randomNumber - transition.Probability ≤ 0 then some 0
    else (State.firstSelected rest (randomNumber - transition.Probability)).map (· + 1)

/-- The sum of the first `k` weights: `psum ts (i + 1)` is the prefix sum
`P_i = w_0 + ... + w_i`, and `psum ts 0 = 0`. -/
def State.psum (ts : List config.Transition) (k : Nat) : ℚ :=
  ((ts.take k).map (fun t => t.Probability)).sum

/-- The weight of the transition at position `i` (0 past the end). -/
def State.weight (ts : List config.Transition) (i : Nat) : ℚ :=
  match ts.get? i with
  | none => 0
  | some t => t.Probability

/-- Two worlds that agree on everything but the heap and the calls on record. -/
def World.sameEffects (w w' : World) : Prop :=
  w'.sets = w.sets ∧ w'.jobs = w.jobs ∧ w'.entities = w.entities ∧ w'.errors = w.errors ∧
  w'.cancelled = w.cancelled ∧ w'.pos = w.pos

/-- What the second loop does at a taken transition once the call step has
yielded the bag and the name of the next state: `none` when the state is
missing (error signalled, the loop returns), else the world with the entry of
the next state scheduled. -/
def State.enter (sim : Simulation) (attributes : Sisyphus.Attributes) (nextStateName : String)
    (w : World) : World × Bool :=
  match config.find sim.Config.States nextStateName with
  | none => (Simulation.error w (Err.notFound "state" nextStateName), false)
  | some nextStateConfig =>
    (addJob (copyAttributes w attributes).2 0
      (Job.run { State := nextStateConfig, Attributes := (copyAttributes w attributes).1 }), true)

/-- A bag as a Go map holds it: no key occurs twice. -/
def Bag.wellFormed (b : Bag) : Prop := (b.map Prod.fst).Nodup

/-- The worlds a run can be in: every entity set holds an allocated,
well-formed bag; every scheduled state job holds an allocated bag that is not
the bag of an entity set. -/
def World.wellFormed (w : World) : Prop :=
  (∀ es ∈ w.sets, ∃ r, es.attributes = some r ∧ r < w.heap.length ∧
    Bag.wellFormed (w.heap.getD r [])) ∧
  (∀ x ∈ w.jobs, ∀ s : State, (x.2 = Job.run s ∨ x.2 = Job.runTransition s) →
    ∃ r, s.Attributes = some r ∧ r < w.heap.length ∧ ∀ es ∈ w.sets, es.attributes ≠ some r)

/-- The executor at work: the scheduled jobs with the given positions in the
record of `addJob` calls are run one after the other (a position that names no
job is passed over).  Any order, and any choice, of scheduled jobs is a
schedule: a job is run here whether or not the cancellation signal is
triggered, so the runs the executor lets begin are among these. -/
def runSchedule (sim : Simulation) (rt : Runtime) : List Nat → World → Except String World
  | [], w => Except.ok w
  | k :: ks, w =>
    match w.jobs.get? k with
    | none => runSchedule sim rt ks w
    | some (_, job) =>
      match job.exec sim rt w with
      | .error p => Except.error p
      | .ok w' => runSchedule sim rt ks w'

/-- The bag a job may write to: the bag of its state, for a state job. -/
def Job.own : Job → Attributes
  | .create _ => none
  | .createEntity _ => none
  | .run s => s.Attributes
  | .runTransition s => s.Attributes

/-- The footprint of a step from `w` to `w'` by a job whose own bag is `own`:
the heap only grows; allocated bags other than `own` keep their contents; the
entity sets keep their bags, and a new entity set holds a bag allocated in
this step, well-formed; the jobs only grow, and a new state job holds `own`
or a bag allocated in this step that no new entity set holds. -/
def World.stepOk (own : Attributes) (w w' : World) : Prop :=
  w.heap.length ≤ w'.heap.length ∧
  (∀ i, i < w.heap.length → some i ≠ own → w'.heap.getD i [] = w.heap.getD i []) ∧
  (∃ added, w'.sets.map (fun es => es.attributes) = w.sets.map (fun es => es.attributes) ++ added ∧
    ∀ a ∈ added, ∃ r, a = some r ∧ w.heap.length ≤ r ∧ r < w'.heap.length ∧
      Bag.wellFormed (w'.heap.getD r []) ∧
      ∀ x ∈ w'.jobs.drop w.jobs.length, ∀ s : State,
        (x.2 = Job.run s ∨ x.2 = Job.runTransition s) → s.Attributes ≠ some r) ∧
  (∃ j, w'.jobs = w.jobs ++ j ∧ ∀ x ∈ j, ∀ s : State,
    (x.2 = Job.run s ∨ x.2 = Job.runTransition s) →
      (∃ r, s.Attributes = some r ∧ own = some r) ∨
      (∃ r, s.Attributes = some r ∧ w.heap.length ≤ r ∧ r < w'.heap.length))

/-- The random-subset choice as the specification words it, for comparison
with the loop of `Sample`: the number of draws `k` is drawn once, then `k`
positions are drawn, and the elements at the distinct positions drawn are
returned. -/
def AttributeDistribution.subsetDrawnOnce (rt : Runtime) (values : List Val) (pos : Nat) :
    List Val :=
  let k := rt.Intn pos values.length
  let marked := (List.range k).foldl
    (fun marked i =>
      if rt.Intn (pos + 1 + i) values.length ∈ marked then marked
      else marked ++ [rt.Intn (pos + 1 + i) values.length]) []
  marked.map (fun p => values.getD p Val.nil)

/-! ## Sample inputs -/

/-- A random source that always draws zero. -/
def Examples.rt : Runtime :=
  { ints := fun _ => 0, floats := fun _ => 0, norms := fun _ => 0,
    uuids := fun _ => Except.ok "id", pow := fun _ _ => 0 }

/-- The absent timer. -/
def Examples.noTimer : config.Timer :=
  { Kind := config.TimerType.empty, Interval := 0, Min := 0, Max := 0 }

/-- The empty call. -/
def Examples.noCall : config.Call := { Method := "", URL := "", Parameters := [], Results := [] }

/-- An entity without attributes, subordinates or initial state. -/
def Examples.plainEntity : config.Entity :=
  { Attributes := [], Subordinates := [], InitialState := "" }

/-- A backend that succeeds and hands the bag back untouched. -/
def Examples.echo : List (config.Call × Bag) → config.Call → Bag → CallResult :=
  fun _ _ b => { argAfter := b, ret := Returned.sameMap, err := none }

/-- A simulation with one entity definition and no states. -/
def Examples.simPlain : Simulation :=
  { Config := { Constants := [], RootEntities := [],
                Entities := [("user", Examples.plainEntity)], States := [] },
    Do := Examples.echo }

/-- An activated entity set of cardinality 2 that has created nothing yet. -/
def Examples.setOfTwo : entitySet :=
  { EntitySet := { Entity := "user", Cardinality := "2", Timer := Examples.noTimer },
    attributes := some 0, cfg := Examples.plainEntity,
    numberOfEntities := 2, numberOfCreatedEntities := 0 }

/-- A world holding that entity set and its (empty) bag. -/
def Examples.worldOfTwo : World :=
  { World.init with heap := [[]], sets := [Examples.setOfTwo] }

/-- A random source whose uniform draws are all 1/4. -/
def Examples.rtQuarter : Runtime :=
  { ints := fun _ => 0, floats := fun _ => 1 / 4, norms := fun _ => 0,
    uuids := fun _ => Except.ok "id", pow := fun _ _ => 0 }

/-- A state without attributes or transitions. -/
def Examples.terminal : config.State :=
  { Attributes := [], Timer := Examples.noTimer, Transitions := [] }

/-- A state with two transitions of weight 1, to `left` and to `right`,
both without a call. -/
def Examples.fork : config.State :=
  { Attributes := [], Timer := Examples.noTimer,
    Transitions := [{ Probability := 1, State := "left", Call := Examples.noCall, OnFailure := "" },
                    { Probability := 1, State := "right", Call := Examples.noCall, OnFailure := "" }] }

/-- A simulation whose states are `fork`, `left` and `right`. -/
def Examples.simFork : Simulation :=
  { Config := { Constants := [], RootEntities := [], Entities := [],
                States := [("fork", Examples.fork), ("left", Examples.terminal),
                           ("right", Examples.terminal)] },
    Do := Examples.echo }

/-- A world with one allocated, empty bag. -/
def Examples.worldOneBag : World := { World.init with heap := [[]] }

/-- A backend that fails and returns the nil map with the error, as Go
functions usually do. -/
def Examples.failing : List (config.Call × Bag) → config.Call → Bag → CallResult :=
  fun _ _ b => { argAfter := b, ret := Returned.nilMap, err := some (Err.backend "refused") }

/-- A non-empty call. -/
def Examples.getCall : config.Call :=
  { Method := "GET", URL := "http://sut/", Parameters := [], Results := [] }

/-- A state whose only transition performs a call and names an on-failure state. -/
def Examples.calling : config.State :=
  { Attributes := [], Timer := Examples.noTimer,
    Transitions := [{ Probability := 1, State := "left", Call := Examples.getCall,
                      OnFailure := "right" }] }

/-- The states of `simFork` with the failing backend. -/
def Examples.simFailing : Simulation :=
  { Config := Examples.simFork.Config, Do := Examples.failing }

/-- Three weights 1, 0, 3 (total 4). -/
def Examples.threeWeights : List config.Transition :=
  [{ Probability := 1, State := "left", Call := Examples.noCall, OnFailure := "" },
   { Probability := 0, State := "never", Call := Examples.noCall, OnFailure := "" },
   { Probability := 3, State := "right", Call := Examples.noCall, OnFailure := "" }]

/-- A zero weight in front of a weight 1. -/
def Examples.zeroFirst : List config.Transition :=
  [{ Probability := 0, State := "never", Call := Examples.noCall, OnFailure := "" },
   { Probability := 1, State := "left", Call := Examples.noCall, OnFailure := "" }]

/-- A state whose only transition, of weight 1 and without a call, leads to a
state that is not configured. -/
def Examples.lost : config.State :=
  { Attributes := [], Timer := Examples.noTimer,
    Transitions := [{ Probability := 1, State := "gone", Call := Examples.noCall,
                      OnFailure := "" }] }

/-- A random-value distribution over the strings a, b, c. -/
def Examples.pickOne : config.Attribute :=
  { Kind := config.AttributeType.RandomValue, Value := Val.nil, MapValue := Val.nil,
    MapValues := Val.nil, Min := 0, Max := 0, N := 0, StdDev := 0, StringValue := "",
    Values := [Val.str "a", Val.str "b", Val.str "c"] }

/-- An entity with one subordinate entity set and an initial state that is
not configured. -/
def Examples.orphan : config.Entity :=
  { Attributes := [],
    Subordinates := [{ Entity := "user", Cardinality := "2", Timer := Examples.noTimer }],
    InitialState := "gone" }

/-- An entity set that refers to an entity that is not configured. -/
def Examples.setOfGhosts : entitySet :=
  entitySet.fresh { Entity := "ghost", Cardinality := "2", Timer := Examples.noTimer } (some 0)

/-- The jobs that activate `n` entity sets allocated from index `first` on. -/
def activations (first n : Nat) : List (Int × Job) :=
  (List.range' first n).map (fun i => ((0 : Int), Job.create i))

/-- A world holding the entity set of ghosts and its (empty) bag. -/
def Examples.worldOfGhosts : World :=
  { World.init with heap := [[]], sets := [Examples.setOfGhosts] }

/-- A constant-string distribution. -/
def Examples.constName : config.Attribute :=
  { Kind := config.AttributeType.ConstantString, Value := Val.nil, MapValue := Val.nil,
    MapValues := Val.nil, Min := 0, Max := 0, N := 0, StdDev := 0, StringValue := "ann",
    Values := [] }

/-- An entity that samples one attribute, `name`. -/
def Examples.named : config.Entity :=
  { Attributes := [("name", Examples.constName)], Subordinates := [], InitialState := "" }

/-- A simulation with one constant and one root entity set of two named
entities. -/
def Examples.simRoot : Simulation :=
  { Config := { Constants := [("region", Val.str "eu")],
                RootEntities := [{ Entity := "user", Cardinality := "2",
                                   Timer := Examples.noTimer }],
                Entities := [("user", Examples.named)], States := [] },
    Do := Examples.echo }

/-- The world of `simRoot` after the activation of its root entity set and the
creation of the first entity. -/
def Examples.afterFirst : World :=
  match runSchedule Examples.simRoot Examples.rt [0, 1] (New Examples.simRoot) with
  | .ok w => w
  | .error _ => World.init

/-- The world of `simRoot` after the creation of the second entity. -/
def Examples.afterSecond : World :=
  match entitySet.createEntity Examples.simRoot Examples.rt 0 Examples.afterFirst with
  | .ok w => w
  | .error _ => World.init

/-- A random-int distribution with the given bounds. -/
def Examples.randomInt (min max : ℚ) : config.Attribute :=
  { Kind := config.AttributeType.RandomInt, Value := Val.nil, MapValue := Val.nil,
    MapValues := Val.nil, Min := min, Max := max, N := 0, StdDev := 0, StringValue := "",
    Values := [] }

/-- A random source whose integer draws are 1, 0, 2, 1 and then 0. -/
def Examples.rtRedraw : Runtime :=
  { ints := fun p => match p with
      | 0 => 1
      | 1 => 0
      | 2 => 2
      | 3 => 1
      | _ => 0,
    floats := fun _ => 0, norms := fun _ => 0,
    uuids := fun _ => Except.ok "id", pow := fun _ _ => 0 }

/-- A random-subset distribution over the strings a, b, c. -/
def Examples.pickSome : config.Attribute :=
  { Kind := config.AttributeType.RandomSubset, Value := Val.nil, MapValue := Val.nil,
    MapValues := Val.nil, Min := 0, Max := 0, N := 0, StdDev := 0, StringValue := "",
    Values := [Val.str "a", Val.str "b", Val.str "c"] }

/-- A random-value distribution over the empty list. -/
def Examples.pickNone : config.Attribute :=
  { Kind := config.AttributeType.RandomValue, Value := Val.nil, MapValue := Val.nil,
    MapValues := Val.nil, Min := 0, Max := 0, N := 0, StdDev := 0, StringValue := "",
    Values := [] }

/-- The state `fork` with an attribute that cannot be sampled. -/
def Examples.forkUnsampled : config.State :=
  { Examples.fork with Attributes := [("colour", Examples.pickNone)] }

/-- A random timer with the given bounds. -/
def Examples.randomTimer (min max : Int) : config.Timer :=
  { Kind := config.TimerType.RandomTimer, Interval := 0, Min := min, Max := max }

/-- A world whose only bag holds two attributes. -/
def Examples.worldTwoKeys : World :=
  { World.init with heap := [[("region", Val.str "eu"), ("tier", Val.int 2)]] }

/-- A world holding a new entity set of users with the cardinality
expression `-3`, and its (empty) bag. -/
def Examples.worldOfMinusThree : World :=
  { World.init with
    heap := [[]],
    sets := [entitySet.fresh { Entity := "user", Cardinality := "-3",
                               Timer := Examples.noTimer } (some 0)] }

/-- An entity definition with an attribute that cannot be sampled. -/
def Examples.flawed : config.Entity :=
  { Attributes := [("colour", Examples.pickNone)], Subordinates := [], InitialState := "" }

/-- A simulation whose only entity definition is `flawed`. -/
def Examples.simFlawed : Simulation :=
  { Config := { Constants := [], RootEntities := [],
                Entities := [("flawed", Examples.flawed)], States := [] },
    Do := Examples.echo }

/-- An activated entity set of cardinality 3 over `flawed` that has created
nothing yet. -/
def Examples.setOfFlawed : entitySet :=
  { EntitySet := { Entity := "flawed", Cardinality := "3", Timer := Examples.noTimer },
    attributes := some 0, cfg := Examples.flawed,
    numberOfEntities := 3, numberOfCreatedEntities := 0 }

/-- A world holding that entity set and its (empty) bag. -/
def Examples.worldOfFlawed : World :=
  { World.init with heap := [[]], sets := [Examples.setOfFlawed] }

/-- The runs of the create-one-entity job of `setOfFlawed`. -/
def Examples.flawedTrace : List World :=
  match entitySet.chain Examples.simFlawed Examples.rt 0 4 Examples.worldOfFlawed with
  | .ok trace => trace
  | .error _ => []

/-- The value of `randomNumber` in the second loop of `runTransition` once
the weights of the first `k` transitions have been subtracted from it, one
after the other. -/
def State.runningValue : List config.Transition → ℚ → Nat → ℚ
  | _, randomNumber, 0 => randomNumber
  | [], randomNumber, _ + 1 => randomNumber
  | transition :: rest, randomNumber, k + 1 =>
    State.runningValue rest (randomNumber - transition.Probability) k

/-- A state without transitions that dwells for one unit of time. -/
def Examples.dormant : config.State :=
  { Attributes := [],
    Timer := { Kind := config.TimerType.FixedTimer, Interval := 1, Min := 0, Max := 0 },
    Transitions := [] }

/-- A state whose transitions have the weights 0 (to `never`) and 1 (to
`left`). -/
def Examples.zeroFork : config.State :=
  { Attributes := [], Timer := Examples.noTimer, Transitions := Examples.zeroFirst }

/-- A simulation with the states `never` and `left`. -/
def Examples.simNever : Simulation :=
  { Config := { Constants := [], RootEntities := [], Entities := [],
                States := [("never", Examples.dormant), ("left", Examples.terminal)] },
    Do := Examples.echo }

/-- A state with two transitions of weight 1: to `left` without a call, to
`right` with a call. -/
def Examples.forkCalling : config.State :=
  { Attributes := [], Timer := Examples.noTimer,
    Transitions := [{ Probability := 1, State := "left", Call := Examples.noCall,
                      OnFailure := "" },
                    { Probability := 1, State := "right", Call := Examples.getCall,
                      OnFailure := "" }] }

/-- The state `fork` with a random dwell timer whose bounds are both 5. -/
def Examples.forkStuck : config.State :=
  { Examples.fork with Timer := Examples.randomTimer 5 5 }

/-! ## Theorems -/

theorem World.sameBut_refl (r : Nat) (w : World) : World.sameBut r w w :=
  ⟨rfl, rfl, rfl, rfl, rfl, rfl, rfl, fun _ _ => rfl⟩

theorem World.sameBut_trans {r : Nat} {w1 w2 w3 : World}
    (h12 : World.sameBut r w1 w2) (h23 : World.sameBut r w2 w3) : World.sameBut r w1 w3 := by
  obtain ⟨a1, a2, a3, a4, a5, a6, a7, a8⟩ := h12
  obtain ⟨b1, b2, b3, b4, b5, b6, b7, b8⟩ := h23
  refine ⟨b1.trans a1, b2.trans a2, b3.trans a3, b4.trans a4, b5.trans a5, b6.trans a6,
    b7.trans a7, fun i hi => (b8 i hi).trans (a8 i hi)⟩

/-- Sampling into an allocated bag never panics and touches only that bag and
the cursor. -/
theorem sampleInto_some (rt : Runtime) (r : Nat) (attrs : List (String × config.Attribute)) :
    ∀ w : World, ∃ oe w', sampleInto rt (some r) attrs w = Except.ok (oe, w') ∧
      World.sameBut r w w' := by
  induction attrs with
  | nil => intro w; exact ⟨none, w, rfl, World.sameBut_refl r w⟩
  | cons kv rest ih =>
    intro w
    obtain ⟨key, attr⟩ := kv
    rcases hS : AttributeDistribution.Sample rt attr w.pos with ⟨⟨value, oerr⟩, pos'⟩
    cases oerr with
    | some err =>
      refine ⟨some err, { w with pos := pos' }, ?_, ⟨rfl, rfl, rfl, rfl, rfl, rfl, rfl, fun _ _ => rfl⟩⟩
      simp [sampleInto, hS]
    | none =>
      have h0 : World.sameBut r w
          { w with pos := pos', heap := w.heap.set r ((w.heap.getD r []).set key value) } := by
        refine ⟨rfl, rfl, rfl, rfl, rfl, rfl, ?_, ?_⟩
        · simp
        · intro i hi
          simp [List.getD_eq_getElem?_getD, List.getElem?_set_ne (Ne.symm hi)]
      obtain ⟨oe, w', h1, h2⟩ := ih
        { w with pos := pos', heap := w.heap.set r ((w.heap.getD r []).set key value) }
      refine ⟨oe, w', ?_, World.sameBut_trans h0 h2⟩
      simp only [sampleInto, hS, World.write]
      exact h1

/-- A well-formed timer yields a delay. -/
theorem newDelay_ok (rt : Runtime) (c : config.Timer) (hc : c.wellFormed) (pos : Nat) :
    ∃ d pos', newDelay rt c pos = Except.ok (d, pos') := by
  unfold newDelay
  cases hk : c.Kind with
  | FixedTimer => exact ⟨_, _, rfl⟩
  | RandomTimer =>
    have h := hc hk
    simp only [not_le.mpr h, if_false]
    exact ⟨_, _, rfl⟩
  | empty => exact ⟨_, _, rfl⟩
  | other n => exact ⟨_, _, rfl⟩

/-- Activating the subordinate entity sets allocates one set and schedules one
activation per descriptor, and changes nothing else. -/
theorem subordinates_fold (a : Attributes) (subs : List config.EntitySet) :
    ∀ w : World,
      (subs.foldl (fun acc esConfig => newEntitySet acc esConfig a) w) =
        { w with sets := w.sets ++ subs.map (fun c => entitySet.fresh c a),
                 jobs := w.jobs ++ (List.range' w.sets.length subs.length).map
                   (fun i => ((0 : Int), Job.create i)) } := by
  induction subs with
  | nil => intro w; simp
  | cons c rest ih =>
    intro w
    rw [List.foldl_cons, ih]
    simp [newEntitySet, addJob, List.range'_succ]

/-- Entity creation on an allocated bag never panics; it records one entity,
only adds entity sets, schedules only activations and state entries, makes no
call and leaves every other allocated bag as it was. -/
theorem createEntity_frame (sim : Simulation) (rt : Runtime) (cfg : config.Entity) (r : Nat)
    (w : World) :
    ∃ w', createEntity sim rt cfg (some r) w = Except.ok w' ∧
      (∃ s, w'.sets = w.sets ++ s) ∧
      (∃ j, w'.jobs = w.jobs ++ j ∧ ∀ x ∈ j, ∀ e, x.2.isCreateEntity e = false) ∧
      w'.entities = w.entities ++ [(cfg, some r, w.read (some r))] ∧
      w'.calls = w.calls ∧
      (∀ i, i ≠ r → i < w.heap.length → w'.heap.getD i [] = w.heap.getD i []) ∧
      w.heap.length ≤ w'.heap.length := by
  obtain ⟨oe, w1, h1, hs, hj, hc, he, -, -, hl, hh⟩ := sampleInto_some rt r cfg.Attributes
    (w.logEntity cfg (some r))
  simp only [World.logEntity] at hs hj hc he hl hh
  unfold createEntity
  simp only [h1]
  cases oe with
  | some err =>
    refine ⟨_, rfl, ⟨[], ?_⟩, ⟨[], ?_, ?_⟩, ?_, ?_, ?_, ?_⟩
    · simp [Simulation.error, hs]
    · simp [Simulation.error, hj]
    · simp
    · simp [Simulation.error, he]
    · simp [Simulation.error, hc]
    · intro i hi _; exact hh i hi
    · simp [Simulation.error, hl]
  | none =>
    simp only [subordinates_fold]
    have hmem : ∀ (k : Nat) (extra : List (Int × Job)),
        (∀ x ∈ extra, x.2.isRun = true) →
        ∀ x ∈ (List.range' w.sets.length k).map (fun i => ((0 : Int), Job.create i)) ++ extra,
          ∀ e, x.2.isCreateEntity e = false := by
      intro k extra hex x hx e
      simp only [List.mem_append, List.mem_map] at hx
      rcases hx with ⟨i, -, rfl⟩ | hx
      · rfl
      · have := hex x hx
        cases hj2 : x.2 <;> simp_all [Job.isRun, Job.isCreateEntity]
    by_cases hI : cfg.InitialState = ""
    · simp only [hI, ne_eq, not_true_eq_false, if_false]
      refine ⟨_, rfl, ⟨cfg.Subordinates.map (fun c => entitySet.fresh c (some r)), ?_⟩,
        ⟨(List.range' w.sets.length cfg.Subordinates.length).map
          (fun i => ((0 : Int), Job.create i)) ++ [], ?_, hmem _ [] (by simp)⟩, ?_, ?_, ?_, ?_⟩
      · simp only [hs]
      · simp only [hj, hs, List.append_nil]
      · simp [he]
      · simp [hc]
      · intro i hi _; exact hh i hi
      · simp [hl]
    · simp only [ne_eq, hI, not_false_eq_true, if_true]
      cases hf : config.find sim.Config.States cfg.InitialState with
      | none =>
        refine ⟨_, rfl, ⟨cfg.Subordinates.map (fun c => entitySet.fresh c (some r)), ?_⟩,
          ⟨(List.range' w.sets.length cfg.Subordinates.length).map
            (fun i => ((0 : Int), Job.create i)) ++ [], ?_, hmem _ [] (by simp)⟩, ?_, ?_, ?_, ?_⟩
        · simp only [Simulation.error, hs]
        · simp only [Simulation.error, hj, hs, List.append_nil]
        · simp [Simulation.error, he]
        · simp [Simulation.error, hc]
        · intro i hi _; exact hh i hi
        · simp [Simulation.error, hl]
      | some stateConfig =>
        refine ⟨_, rfl, ⟨cfg.Subordinates.map (fun c => entitySet.fresh c (some r)), ?_⟩,
          ⟨(List.range' w.sets.length cfg.Subordinates.length).map
            (fun i => ((0 : Int), Job.create i)) ++
              [((0 : Int), Job.run { State := stateConfig, Attributes := some w1.heap.length })],
            ?_, hmem _ _ (by simp [Job.isRun])⟩, ?_, ?_, ?_, ?_⟩
        · simp only [copyAttributes, World.alloc, addJob, hs]
        · simp only [copyAttributes, World.alloc, addJob, hj, hs, List.append_assoc]
        · simp [copyAttributes, World.alloc, addJob, he]
        · simp [copyAttributes, World.alloc, addJob, hc]
        · intro i hi hlt
          simp only [copyAttributes, World.alloc, addJob]
          rw [List.getD_eq_getElem?_getD, List.getElem?_append_left (by omega),
            ← List.getD_eq_getElem?_getD]
          exact hh i hi
        · simp [copyAttributes, World.alloc, addJob, hl]

/-- A run of the create-one-entity job that finds the limit reached does nothing. -/
theorem createEntity_run_done (sim : Simulation) (rt : Runtime) (e : Nat) (w : World)
    (es : entitySet) (hes : w.sets.get? e = some es)
    (hge : es.numberOfCreatedEntities ≥ es.numberOfEntities) :
    entitySet.createEntity sim rt e w = Except.ok w := by
  simp only [entitySet.createEntity, hes, hge, if_true]

/-- A run of the create-one-entity job below the limit: the count goes up by
one, one entity is created on a new copy of the set's bag, one successor is
scheduled, and every bag allocated before keeps its contents. -/
theorem createEntity_run_more (sim : Simulation) (rt : Runtime) (e : Nat) (w : World)
    (es : entitySet) (hes : w.sets.get? e = some es) (ht : es.EntitySet.Timer.wellFormed)
    (hlt : es.numberOfCreatedEntities < es.numberOfEntities) :
    ∃ w', entitySet.createEntity sim rt e w = Except.ok w' ∧
      w'.sets.get? e = some { es with numberOfCreatedEntities := es.numberOfCreatedEntities + 1 } ∧
      w'.entities = w.entities ++
        [(es.cfg, some w.heap.length, (w.read es.attributes).copy)] ∧
      entitySet.successors e w w' = 1 ∧
      (∀ i, i < w.heap.length → w'.heap.getD i [] = w.heap.getD i []) := by
  have hlen : e < w.sets.length := by
    rw [List.get?_eq_getElem?] at hes
    exact (List.getElem?_eq_some_iff.mp hes).1
  obtain ⟨w3, h3, ⟨s3, hs3⟩, ⟨j3, hj3, hj3'⟩, he3, -, hh3, -⟩ :=
    createEntity_frame sim rt es.cfg w.heap.length
      { w with sets := w.sets.set e
                 { es with numberOfCreatedEntities := es.numberOfCreatedEntities + 1 },
               heap := w.heap ++ [(w.read es.attributes).copy] }
  obtain ⟨d, pos', hd⟩ := newDelay_ok rt es.EntitySet.Timer ht w3.pos
  simp only at hs3 hj3 he3 hh3
  refine ⟨addJob { w3 with pos := pos' } d (Job.createEntity e), ?_, ?_, ?_, ?_, ?_⟩
  · simp only [entitySet.createEntity, hes, ge_iff_le, not_le.mpr hlt, if_false, copyAttributes,
      World.alloc, World.read]
    simp only [World.read] at h3
    rw [h3]
    simp only [hd]
  · simp only [addJob, hs3, List.get?_eq_getElem?]
    rw [List.getElem?_append_left (by simpa using hlen)]
    simp [hlen]
  · simp only [addJob, he3, World.read]
    congr 3
    simp [List.getD_eq_getElem?_getD]
  · simp only [entitySet.successors, World.newJobs, addJob, hj3, List.append_assoc,
      List.drop_left, List.filter_append]
    have : j3.filter (fun j => j.2.isCreateEntity e) = [] := by
      rw [List.filter_eq_nil_iff]
      intro x hx
      simp [hj3' x hx e]
    rw [this]
    simp [Job.isCreateEntity]
  · intro i hi
    simp only [addJob]
    rw [hh3 i (by omega) (by simp; omega)]
    rw [List.getD_eq_getElem?_getD, List.getElem?_append_left hi, ← List.getD_eq_getElem?_getD]

theorem World.newJobs_self (w : World) : w.newJobs w = [] := by
  simp [World.newJobs]

theorem World.newEntities_self (w : World) : w.newEntities w = [] := by
  simp [World.newEntities]

theorem World.created_eq {w : World} {e : Nat} {es : entitySet} (h : w.sets.get? e = some es) :
    w.created e = es.numberOfCreatedEntities := by
  unfold World.created
  rw [h]

/-- The chain of create-one-entity runs from a count that is `k` below the
limit, started while the signal is not triggered: at most `k` creating runs
and one final run, whatever fuel above `k` is given.  Every run but the last
leaves the signal untriggered; the chain is complete exactly when the last
run does so too, and otherwise it ends with the creating run that triggered
the signal. -/
theorem entitySet.chain_from (sim : Simulation) (rt : Runtime) (e : Nat) (k : Nat) :
    ∀ (w : World) (es : entitySet), w.cancelled = false → w.sets.get? e = some es →
      es.EntitySet.Timer.wellFormed →
      es.numberOfCreatedEntities + k = es.numberOfEntities →
      ∃ trace, (∀ fuel, k < fuel → entitySet.chain sim rt e fuel w = Except.ok trace) ∧
        1 ≤ trace.length ∧ trace.length ≤ k + 1 ∧
        (∀ i wi, trace.get? i = some wi →
          wi.created e = es.numberOfCreatedEntities + min (i + 1) k ∧
          wi.entities.length = w.entities.length + min (i + 1) k) ∧
        (∀ i wi, trace.get? i = some wi → i + 1 < trace.length → wi.cancelled = false) ∧
        (∀ wl, trace.getLast? = some wl → wl.cancelled = false → trace.length = k + 1) ∧
        (∀ wl, trace.getLast? = some wl → wl.cancelled = true → trace.length ≤ k) := by
  induction k with
  | zero =>
    intro w es hc hes _ hk
    have hrun := createEntity_run_done sim rt e w es hes (by omega)
    refine ⟨[w], ?_, by simp, by simp, ?_, ?_, ?_, ?_⟩
    · intro fuel hf
      obtain ⟨f, rfl⟩ : ∃ f, fuel = f + 1 := ⟨fuel - 1, by omega⟩
      simp [entitySet.chain, executor.begins, hc, hrun, entitySet.successors,
        World.newJobs_self]
    · intro i wi hi
      cases i with
      | zero =>
        simp only [List.get?_cons_zero, Option.some.injEq] at hi
        subst hi
        simp [World.created_eq hes]
      | succ j => simp at hi
    · intro i wi _ hi
      simp at hi
    · intro wl _ _
      simp
    · intro wl hwl hcl
      simp only [List.getLast?_singleton, Option.some.injEq] at hwl
      subst hwl
      rw [hc] at hcl
      cases hcl
  | succ k ih =>
    intro w es hc hes ht hk
    obtain ⟨w', hrun, hes', hent, hsucc, -⟩ :=
      createEntity_run_more sim rt e w es hes ht (by omega)
    cases hc' : w'.cancelled with
    | true =>
      refine ⟨[w'], ?_, by simp, by simp, ?_, ?_, ?_, ?_⟩
      · intro fuel hf
        obtain ⟨f, rfl⟩ : ∃ f, fuel = f + 1 := ⟨fuel - 1, by omega⟩
        cases f with
        | zero => simp [entitySet.chain, executor.begins, hc, hc', hrun, hsucc]
        | succ g => simp [entitySet.chain, executor.begins, hc, hc', hrun, hsucc]
      · intro i wi hi
        cases i with
        | zero =>
          simp only [List.get?_cons_zero, Option.some.injEq] at hi
          subst hi
          constructor
          · simp [World.created_eq hes']
          · simp [hent]
        | succ j => simp at hi
      · intro i wi _ hi
        simp at hi
      · intro wl hwl hcl
        simp only [List.getLast?_singleton, Option.some.injEq] at hwl
        subst hwl
        rw [hc'] at hcl
        cases hcl
      · intro wl _ _
        simp
    | false =>
      obtain ⟨trace, hchain, hlen1, hlen2, htr, hmid, hfull, hcut⟩ :=
        ih w' _ hc' hes' ht (by simp only; omega)
      have hne : trace ≠ [] := by
        intro h; rw [h] at hlen1; simp at hlen1
      refine ⟨w' :: trace, ?_, by simp, by simp [hlen2], ?_, ?_, ?_, ?_⟩
      · intro fuel hf
        obtain ⟨f, rfl⟩ : ∃ f, fuel = f + 1 := ⟨fuel - 1, by omega⟩
        simp [entitySet.chain, executor.begins, hc, hrun, hsucc, hchain f (by omega)]
      · intro i wi hi
        cases i with
        | zero =>
          simp only [List.get?_cons_zero, Option.some.injEq] at hi
          subst hi
          constructor
          · simp [World.created_eq hes']
          · simp [hent]
        | succ j =>
          simp only [List.get?_cons_succ] at hi
          obtain ⟨h1, h2⟩ := htr j wi hi
          simp only at h1
          constructor
          · rw [h1]; omega
          · rw [h2, hent]; simp; omega
      · intro i wi hi hlt
        cases i with
        | zero =>
          simp only [List.get?_cons_zero, Option.some.injEq] at hi
          subst hi
          exact hc'
        | succ j =>
          simp only [List.get?_cons_succ] at hi
          exact hmid j wi hi (by simpa using hlt)
      · intro wl hwl hcl
        have hwl' : trace.getLast? = some wl := by
          cases trace with
          | nil => exact absurd rfl hne
          | cons x xs => rwa [List.getLast?_cons_cons] at hwl
        simp [hfull wl hwl' hcl]
      · intro wl hwl hcl
        have hwl' : trace.getLast? = some wl := by
          cases trace with
          | nil => exact absurd rfl hne
          | cons x xs => rwa [List.getLast?_cons_cons] at hwl
        simpa using hcut wl hwl' hcl

/-- C1, amended: for an entity set with resolved cardinality `n ≥ 0` (and a
timer on which `newDelay` yields a delay, as it did when the set was
activated): every run of the create-one-entity job that finds the count below
the limit increments the count, invokes entity creation once and hands exactly
one successor to the executor; a run that finds the limit reached creates
nothing and schedules nothing.  The chain started at count 0 while the
cancellation signal is not triggered (the job and every successor the executor
lets begin) ends after at most `n + 1` runs, the count never exceeds `n` and
entity creation is invoked at most `n` times.  It is invoked exactly `n` times,
in `n + 1` runs, when the chain ends with the signal untriggered; otherwise
the chain ends with the creating run that triggered the signal, whose
successor is dropped. -/
theorem entitySet_createEntity_at_most_N (sim : Simulation) (rt : Runtime) (e : Nat)
    (w : World) (es : entitySet) (n : Nat)
    (hc : w.cancelled = false)
    (hes : w.sets.get? e = some es) (ht : es.EntitySet.Timer.wellFormed)
    (h0 : es.numberOfCreatedEntities = 0) (hN : es.numberOfEntities = n) :
    (∀ (v : World) (esv : entitySet), v.sets.get? e = some esv →
        esv.EntitySet.Timer.wellFormed →
        (esv.numberOfCreatedEntities < esv.numberOfEntities →
          ∃ v', entitySet.createEntity sim rt e v = Except.ok v' ∧
            v'.created e = v.created e + 1 ∧
            (v.newEntities v').length = 1 ∧
            entitySet.successors e v v' = 1) ∧
        (esv.numberOfCreatedEntities ≥ esv.numberOfEntities →
          ∃ v', entitySet.createEntity sim rt e v = Except.ok v' ∧
            v'.created e = v.created e ∧
            (v.newEntities v').length = 0 ∧
            (v.newJobs v').length = 0)) ∧
    ∃ trace, (∀ fuel, n < fuel → entitySet.chain sim rt e fuel w = Except.ok trace) ∧
      1 ≤ trace.length ∧ trace.length ≤ n + 1 ∧
      (∀ i wi, trace.get? i = some wi →
        wi.created e = min (i + 1) n ∧ (w.newEntities wi).length = min (i + 1) n) ∧
      (∀ wi ∈ trace, wi.created e ≤ n ∧ (w.newEntities wi).length ≤ n) ∧
      (∀ i wi, trace.get? i = some wi → i + 1 < trace.length → wi.cancelled = false) ∧
      (∀ wl, trace.getLast? = some wl → wl.cancelled = false →
        trace.length = n + 1 ∧ wl.created e = n ∧ (w.newEntities wl).length = n) ∧
      (∀ wl, trace.getLast? = some wl → wl.cancelled = true →
        trace.length ≤ n ∧ wl.created e = trace.length ∧
          (w.newEntities wl).length = trace.length) := by
  constructor
  · intro v esv hv htv
    constructor
    · intro hlt
      obtain ⟨v', hrun, hes', hent, hsucc, -⟩ := createEntity_run_more sim rt e v esv hv htv hlt
      refine ⟨v', hrun, ?_, ?_, hsucc⟩
      · rw [World.created_eq hes', World.created_eq hv]
      · simp [World.newEntities, hent]
    · intro hge
      exact ⟨v, createEntity_run_done sim rt e v esv hv hge, rfl,
        by simp [World.newEntities_self], by simp [World.newJobs_self]⟩
  · obtain ⟨trace, hchain, hlen1, hlen2, htr, hmid, hfull, hcut⟩ :=
      entitySet.chain_from sim rt e n w es hc hes ht (by rw [h0, hN]; simp)
    have hall : ∀ i wi, trace.get? i = some wi →
        wi.created e = min (i + 1) n ∧ (w.newEntities wi).length = min (i + 1) n := by
      intro i wi hi
      obtain ⟨h1, h2⟩ := htr i wi hi
      constructor
      · rw [h1, h0]; simp
      · simp [World.newEntities, h2]
    have hne : trace ≠ [] := by
      intro h; rw [h] at hlen1; simp at hlen1
    have hlast : ∀ wl, trace.getLast? = some wl → trace.get? (trace.length - 1) = some wl := by
      intro wl hwl
      rw [List.getLast?_eq_getLast _ hne, Option.some.injEq] at hwl
      rw [List.get?_eq_getElem?, ← hwl, List.getLast_eq_getElem]
      exact List.getElem?_eq_getElem _
    refine ⟨trace, hchain, hlen1, hlen2, hall, ?_, hmid, ?_, ?_⟩
    · intro wi hwi
      obtain ⟨i, hi⟩ := List.get?_of_mem hwi
      rw [(hall i wi hi).1, (hall i wi hi).2]
      exact ⟨by exact_mod_cast Nat.min_le_right (i + 1) n, Nat.min_le_right (i + 1) n⟩
    · intro wl hwl hcl
      have hfl := hfull wl hwl hcl
      obtain ⟨h1, h2⟩ := hall _ wl (hlast wl hwl)
      refine ⟨hfl, ?_, ?_⟩
      · rw [h1, hfl]; simp
      · rw [h2, hfl]; simp
    · intro wl hwl hcl
      have hct := hcut wl hwl hcl
      obtain ⟨h1, h2⟩ := hall _ wl (hlast wl hwl)
      refine ⟨hct, ?_, ?_⟩
      · rw [h1]; omega
      · rw [h2]; omega

/-- Witness for C1: an entity set of cardinality 2 whose entity definition has
no attributes, so that no run triggers the signal. -/
theorem entitySet_createEntity_at_most_N_witness :
    ∃ trace, entitySet.chain Examples.simPlain Examples.rt 0 3 Examples.worldOfTwo
        = Except.ok trace ∧ 1 ≤ trace.length ∧ trace.length ≤ 3 ∧
      ∀ wl, trace.getLast? = some wl → wl.cancelled = false →
        trace.length = 3 ∧ wl.created 0 = 2 ∧
          (Examples.worldOfTwo.newEntities wl).length = 2 := by
  obtain ⟨-, trace, hchain, hlen1, hlen2, -, -, -, hlast, -⟩ :=
    entitySet_createEntity_at_most_N Examples.simPlain Examples.rt 0 Examples.worldOfTwo
      Examples.setOfTwo 2 rfl rfl (by decide) rfl rfl
  exact ⟨trace, hchain 3 (by decide), hlen1, hlen2, hlast⟩

/-- C1 (counterexample): an entity set of cardinality 3 whose entity
definition has an attribute that cannot be sampled.  The first run of the
create-one-entity job increments the count, invokes entity creation, which
signals the sampling error, and hands one successor to the executor; the
signal being triggered, that successor is dropped.  Entity creation is invoked
once, not 3 times. -/
theorem entitySet_chain_ends_on_cancellation :
    Examples.setOfFlawed.numberOfEntities = 3 ∧
    entitySet.chain Examples.simFlawed Examples.rt 0 4 Examples.worldOfFlawed
      = Except.ok Examples.flawedTrace ∧
    Examples.flawedTrace.map (fun v =>
        (v.cancelled, v.created 0, (Examples.worldOfFlawed.newEntities v).length,
          entitySet.successors 0 Examples.worldOfFlawed v)) = [(true, 1, 1, 1)] := by
  refine ⟨rfl, rfl, ?_⟩
  rfl

theorem Examples.float64_quarter (pos : Nat) : Examples.rtQuarter.Float64 pos = 1 / 4 := by
  simp only [Runtime.Float64, Examples.rtQuarter]
  exact Int.fract_eq_self.mpr ⟨by norm_num, by norm_num⟩

/-- C2 (the code at the failing input): on a state with two transitions of
weight 1 and the draw U = 1/4, transition evaluation takes both transitions,
and schedules the entry of `left` and of `right`. -/
theorem runTransition_takes_every_later_transition :
    State.runTransition Examples.simFork Examples.rtQuarter
        { State := Examples.fork, Attributes := some 0 } Examples.worldOneBag =
      Except.ok { Examples.worldOneBag with
        heap := [[], [], []], pos := 1,
        jobs := [(0, Job.run { State := Examples.terminal, Attributes := some 1 }),
                 (0, Job.run { State := Examples.terminal, Attributes := some 2 })] } := by
  simp [State.runTransition, State.generateAttributes, sampleInto, Examples.fork,
    State.sumLoop, State.selectLoop, State.resolve, Examples.float64_quarter, isEmptyCall,
    Examples.noCall, config.find, Examples.simFork]
  norm_num
  rfl

/-- C3 (the code at the failing input): when the backend returns an error
together with the nil map, the write of the `error` key panics; no state is
entered, neither the on-failure state nor the configured target. -/
theorem runTransition_panics_on_nil_bag :
    State.runTransition Examples.simFailing Examples.rtQuarter
        { State := Examples.calling, Attributes := some 0 } Examples.worldOneBag =
      Except.error "assignment to entry in nil map" := by
  simp [State.runTransition, State.generateAttributes, sampleInto, Examples.calling,
    State.sumLoop, State.selectLoop, State.resolve, Examples.float64_quarter, isEmptyCall,
    Examples.getCall, Examples.simFailing, State.doCall, State.returned, State.called,
    Examples.failing, World.write]
  norm_num

/-! ### The weighted choice -/

theorem State.psum_zero (ts : List config.Transition) : State.psum ts 0 = 0 := by
  simp [State.psum]

theorem State.psum_nil (k : Nat) : State.psum [] k = 0 := by
  simp [State.psum]

theorem State.psum_cons (t : config.Transition) (ts : List config.Transition) (k : Nat) :
    State.psum (t :: ts) (k + 1) = t.Probability + State.psum ts k := by
  simp [State.psum]

theorem State.psum_succ (ts : List config.Transition) (k : Nat) :
    State.psum ts (k + 1) = State.psum ts k + State.weight ts k := by
  induction ts generalizing k with
  | nil => simp [State.psum, State.weight]
  | cons t rest ih =>
    cases k with
    | zero => simp [State.psum, State.weight]
    | succ j =>
      rw [State.psum_cons, State.psum_cons, ih j]
      simp [State.weight, add_assoc]

/-- The first loop succeeds exactly on non-negative weights, with their sum. -/
theorem State.sumLoop_ok_iff (ts : List config.Transition) :
    ∀ (acc S : ℚ), State.sumLoop ts acc = Except.ok S ↔
      (∀ t ∈ ts, 0 ≤ t.Probability) ∧ S = acc + State.psum ts ts.length := by
  induction ts with
  | nil =>
    intro acc S
    simp [State.sumLoop, State.psum]
    exact eq_comm
  | cons t rest ih =>
    intro acc S
    by_cases hneg : t.Probability < 0
    · simp only [State.sumLoop, hneg, if_true, List.mem_cons, forall_eq_or_imp]
      constructor
      · intro h; cases h
      · intro h; exact absurd h.1.1 (not_le.mpr hneg)
    · simp only [State.sumLoop, hneg, if_false, List.mem_cons, forall_eq_or_imp, ih,
        List.length_cons, State.psum_cons]
      constructor
      · rintro ⟨h1, h2⟩
        exact ⟨⟨not_lt.mp hneg, h1⟩, by rw [h2]; ring⟩
      · rintro ⟨⟨-, h1⟩, h2⟩
        exact ⟨h1, by rw [h2]; ring⟩

/-- Characterisation of the first selected position by the prefix sums. -/
theorem State.firstSelected_eq_some_iff (ts : List config.Transition) :
    ∀ (r : ℚ) (i : Nat), State.firstSelected ts r = some i ↔
      i < ts.length ∧ r ≤ State.psum ts (i + 1) ∧ ∀ j < i, State.psum ts (j + 1) < r := by
  induction ts with
  | nil => intro r i; simp [State.firstSelected]
  | cons t rest ih =>
    intro r i
    by_cases h : r - t.Probability ≤ 0
    · simp only [State.firstSelected, h, if_true, Option.some.injEq, List.length_cons]
      constructor
      · intro hi
        subst hi
        refine ⟨Nat.succ_pos _, ?_, fun j hj => absurd hj (Nat.not_lt_zero j)⟩
        rw [State.psum_cons, State.psum_zero]; linarith
      · rintro ⟨-, -, hall⟩
        by_contra hne
        have := hall 0 (Nat.pos_of_ne_zero (Ne.symm hne))
        rw [State.psum_cons, State.psum_zero] at this
        linarith
    · simp only [State.firstSelected, h, if_false, Option.map_eq_some', List.length_cons]
      constructor
      · rintro ⟨i', hi', rfl⟩
        obtain ⟨h1, h2, h3⟩ := (ih _ _).mp hi'
        refine ⟨Nat.succ_lt_succ h1, ?_, ?_⟩
        · rw [State.psum_cons]; linarith
        · intro j hj
          cases j with
          | zero => rw [State.psum_cons, State.psum_zero]; linarith
          | succ j' =>
            have := h3 j' (by omega)
            rw [State.psum_cons]; linarith
      · rintro ⟨h1, h2, h3⟩
        cases i with
        | zero =>
          rw [State.psum_cons, State.psum_zero] at h2
          exact absurd (by linarith) h
        | succ i' =>
          refine ⟨i', (ih _ _).mpr ⟨by omega, ?_, ?_⟩, rfl⟩
          · rw [State.psum_cons] at h2; linarith
          · intro j hj
            have := h3 (j + 1) (by omega)
            rw [State.psum_cons] at this; linarith

/-- Prefix sums of non-negative weights do not decrease. -/
theorem State.psum_mono (ts : List config.Transition) (hnn : ∀ t ∈ ts, 0 ≤ t.Probability)
    {j k : Nat} (hjk : j ≤ k) : State.psum ts j ≤ State.psum ts k := by
  induction k with
  | zero =>
    have : j = 0 := by omega
    subst this; exact le_refl _
  | succ k ih =>
    by_cases hj : j = k + 1
    · subst hj; exact le_refl _
    · have h1 := ih (by omega)
      have h2 : 0 ≤ State.weight ts k := by
        unfold State.weight
        cases hg : ts.get? k with
        | none => exact le_refl _
        | some t => exact hnn t (List.get?_mem hg)
      rw [State.psum_succ]; linarith

theorem State.psum_of_length_le (ts : List config.Transition) {k : Nat} (hk : ts.length ≤ k) :
    State.psum ts k = State.psum ts ts.length := by
  simp [State.psum, List.take_of_length_le hk]

/-- A positive running value not above the total is reached by some prefix sum. -/
theorem State.firstSelected_isSome (ts : List config.Transition) :
    ∀ r : ℚ, 0 < r → r ≤ State.psum ts ts.length → ∃ i, State.firstSelected ts r = some i := by
  induction ts with
  | nil => intro r h0 h1; rw [State.psum_nil] at h1; linarith
  | cons t rest ih =>
    intro r h0 h1
    by_cases h : r - t.Probability ≤ 0
    · exact ⟨0, by simp [State.firstSelected, h]⟩
    · rw [List.length_cons, State.psum_cons] at h1
      obtain ⟨i, hi⟩ := ih (r - t.Probability) (by linarith) (by linarith)
      exact ⟨i + 1, by simp [State.firstSelected, h, hi]⟩

/-- For a positive draw below the total of non-negative weights, position `i`
is the first selected one exactly when the running value lies in
`(P_{i-1}, P_i]`. -/
theorem State.firstSelected_iff_between (ts : List config.Transition)
    (hnn : ∀ t ∈ ts, 0 ≤ t.Probability) (r : ℚ) (h0 : 0 < r)
    (h1 : r < State.psum ts ts.length) (i : Nat) :
    State.firstSelected ts r = some i ↔ State.psum ts i < r ∧ r ≤ State.psum ts (i + 1) := by
  rw [State.firstSelected_eq_some_iff]
  constructor
  · rintro ⟨-, h2, h3⟩
    refine ⟨?_, h2⟩
    cases i with
    | zero => rw [State.psum_zero]; exact h0
    | succ j => exact h3 j (Nat.lt_succ_self j)
  · rintro ⟨h2, h3⟩
    refine ⟨?_, h3, ?_⟩
    · by_contra hge
      rw [State.psum_of_length_le ts (not_lt.mp hge)] at h2
      linarith
    · intro j hj
      exact lt_of_le_of_lt (State.psum_mono ts hnn (by omega)) h2

theorem Examples.float64_zero (pos : Nat) : Examples.rt.Float64 pos = 0 := by
  simp [Runtime.Float64, Examples.rt]

/-- C5 as stated fails: on a state whose transitions have the weights 0 (to
`never`) and 1 (to `left`), total 1, and with the draw U = 0, transition
evaluation starts its scan from the random number 0; the running value after
the first subtraction is 0 - 0 = 0, so the transition of weight 0 is the one
picked first: the entry of `never` is the first job scheduled. -/
theorem runTransition_picks_zero_weight_at_zero_draw :
    Examples.zeroFork.Transitions.map (fun t => t.Probability) = [0, 1] ∧
    Examples.rt.Float64 Examples.worldOneBag.pos = 0 ∧
    State.runTransition Examples.simNever Examples.rt
        { State := Examples.zeroFork, Attributes := some 0 } Examples.worldOneBag =
      Except.ok { Examples.worldOneBag with
        heap := [[], [], []], pos := 1,
        jobs := [(0, Job.run { State := Examples.dormant, Attributes := some 1 }),
                 (0, Job.run { State := Examples.terminal, Attributes := some 2 })] } := by
  refine ⟨by simp [Examples.zeroFork, Examples.zeroFirst], Examples.float64_zero _, ?_⟩
  simp [State.runTransition, State.generateAttributes, sampleInto, Examples.zeroFork,
    Examples.zeroFirst, State.sumLoop, State.selectLoop, State.resolve, Examples.float64_zero,
    isEmptyCall, Examples.noCall, config.find, Examples.simNever]
  rfl

/-- C5, amended: let the second loop of `runTransition` start from the random
number `r`, and let the transition `t` at position `i` be the first at which
the running value is at most 0 (the test fails at every position before `i`
and holds at `i`).  Then the loop passes over the transitions before `i`
without any effect and takes `t`; and if `t` has weight 0, then `i = 0` and
`r ≤ 0`.  So the transition picked first has a non-zero weight whenever
`r > 0`, and always when it is not the first in configured order; a leading
transition of weight 0 is picked exactly when `r ≤ 0`, as at the draw 0. -/
theorem selectLoop_zero_weight_only_at_front (sim : Simulation) (s : State)
    (ts : List config.Transition) :
    ∀ (r : ℚ) (w : World) (i : Nat) (t : config.Transition),
      ts.get? i = some t →
      (∀ j, j < i → ¬ State.runningValue ts r (j + 1) ≤ 0) →
      State.runningValue ts r (i + 1) ≤ 0 →
      State.selectLoop sim s ts r w =
        (match State.resolve sim s t w with
          | .error p => Except.error p
          | .ok (a, name, w1) =>
            if (State.enter sim a name w1).2 then
              State.selectLoop sim s (ts.drop (i + 1)) (State.runningValue ts r (i + 1))
                (State.enter sim a name w1).1
            else Except.ok (State.enter sim a name w1).1) ∧
      (t.Probability = 0 → i = 0 ∧ r ≤ 0) ∧
      (0 < r → t.Probability ≠ 0) ∧
      (0 < i → t.Probability ≠ 0) := by
  induction ts with
  | nil => intro r w i t h; simp at h
  | cons t0 rest ih =>
    intro r w i t hget hbefore hat
    cases i with
    | zero =>
      simp only [List.get?_cons_zero, Option.some.injEq] at hget
      subst hget
      simp only [State.runningValue] at hat
      refine ⟨?_, ?_, ?_, ?_⟩
      · simp only [State.selectLoop, hat, if_true, State.runningValue, zero_add,
          List.drop_succ_cons, List.drop_zero]
        rcases hres : State.resolve sim s t0 w with p | ⟨a, name, w1⟩
        · rfl
        · simp only [State.enter]
          cases hfind : config.find sim.Config.States name with
          | none => simp
          | some cfg => simp [copyAttributes]
      · intro hw
        rw [hw, sub_zero] at hat
        exact ⟨rfl, hat⟩
      · intro hr hw
        rw [hw, sub_zero] at hat
        exact absurd hat (not_le.mpr hr)
      · intro h; exact absurd h (Nat.lt_irrefl 0)
    | succ j =>
      simp only [List.get?_cons_succ] at hget
      have h0 : ¬ r - t0.Probability ≤ 0 := by
        have := hbefore 0 (Nat.succ_pos j)
        simpa [State.runningValue] using this
      have hb : ∀ k, k < j → ¬ State.runningValue rest (r - t0.Probability) (k + 1) ≤ 0 := by
        intro k hk
        have := hbefore (k + 1) (Nat.succ_lt_succ hk)
        simpa [State.runningValue] using this
      have ha : State.runningValue rest (r - t0.Probability) (j + 1) ≤ 0 := by
        simpa [State.runningValue] using hat
      obtain ⟨h1, h2, -, -⟩ := ih (r - t0.Probability) w j t hget hb ha
      have hne : t.Probability ≠ 0 := by
        intro hw
        exact h0 (h2 hw).2
      refine ⟨?_, fun hw => absurd hw hne, fun _ => hne, fun _ => hne⟩
      simp only [State.selectLoop, h0, if_false, List.drop_succ_cons]
      rw [h1]
      rfl

/-- Witness for C5, amended: the weights 1, 0, 3 and the random number 2; the
transition picked first is the third one, of weight 3. -/
theorem selectLoop_zero_weight_only_at_front_witness :
    State.runningValue Examples.threeWeights 2 3 ≤ 0 ∧
    State.weight Examples.threeWeights 2 ≠ 0 := by
  have h := selectLoop_zero_weight_only_at_front Examples.simFork
    { State := Examples.fork, Attributes := some 0 } Examples.threeWeights 2
    Examples.worldOneBag 2
    { Probability := 3, State := "right", Call := Examples.noCall, OnFailure := "" } rfl
    (by
      intro j hj
      interval_cases j <;> norm_num [State.runningValue, Examples.threeWeights])
    (by norm_num [State.runningValue, Examples.threeWeights])
  exact ⟨by norm_num [State.runningValue, Examples.threeWeights], h.2.2.1 (by norm_num)⟩

/-! ### Frame properties of transition evaluation -/

/-- Sampling, whatever the bag, changes neither the entity sets nor any
record of effects, and allocates nothing. -/
theorem sampleInto_frame (rt : Runtime) (a : Attributes)
    (attrs : List (String × config.Attribute)) :
    ∀ (w w' : World) (oe : Option Err), sampleInto rt a attrs w = Except.ok (oe, w') →
      w'.sets = w.sets ∧ w'.jobs = w.jobs ∧ w'.calls = w.calls ∧ w'.entities = w.entities ∧
      w'.errors = w.errors ∧ w'.cancelled = w.cancelled ∧ w'.heap.length = w.heap.length := by
  induction attrs with
  | nil =>
    intro w w' oe h
    simp only [sampleInto, Except.ok.injEq, Prod.mk.injEq] at h
    obtain ⟨-, rfl⟩ := h
    exact ⟨rfl, rfl, rfl, rfl, rfl, rfl, rfl⟩
  | cons kv rest ih =>
    intro w w' oe h
    obtain ⟨key, attr⟩ := kv
    rcases hS : AttributeDistribution.Sample rt attr w.pos with ⟨⟨value, oerr⟩, pos'⟩
    cases oerr with
    | some err =>
      simp only [sampleInto, hS, Except.ok.injEq, Prod.mk.injEq] at h
      obtain ⟨-, rfl⟩ := h
      exact ⟨rfl, rfl, rfl, rfl, rfl, rfl, rfl⟩
    | none =>
      cases a with
      | none => simp [sampleInto, hS, World.write] at h
      | some r =>
        simp only [sampleInto, hS, World.write] at h
        obtain ⟨h1, h2, h3, h4, h5, h6, h7⟩ := ih _ _ _ h
        refine ⟨h1, h2, h3, h4, h5, h6, ?_⟩
        rw [h7]; simp

theorem World.sameEffects_refl (w : World) : World.sameEffects w w :=
  ⟨rfl, rfl, rfl, rfl, rfl, rfl⟩

theorem World.sameEffects_trans {w1 w2 w3 : World} (h12 : World.sameEffects w1 w2)
    (h23 : World.sameEffects w2 w3) : World.sameEffects w1 w3 := by
  obtain ⟨a1, a2, a3, a4, a5, a6⟩ := h12
  obtain ⟨b1, b2, b3, b4, b5, b6⟩ := h23
  exact ⟨b1.trans a1, b2.trans a2, b3.trans a3, b4.trans a4, b5.trans a5, b6.trans a6⟩

theorem State.called_frame (s : Sisyphus.State) (call : config.Call) (arg : Bag)
    (res : CallResult) (w : World) :
    World.sameEffects w (State.called s call arg res w) ∧
      (State.called s call arg res w).calls = w.calls ++ [(call, arg)] ∧
      (State.called s call arg res w).heap.length = w.heap.length := by
  unfold State.called
  cases s.Attributes with
  | none => exact ⟨⟨rfl, rfl, rfl, rfl, rfl, rfl⟩, rfl, rfl⟩
  | some r => exact ⟨⟨rfl, rfl, rfl, rfl, rfl, rfl⟩, rfl, by simp⟩

theorem State.returned_frame (s : Sisyphus.State) (res : CallResult) (w : World) :
    World.sameEffects w (State.returned s res w).2 ∧
      (State.returned s res w).2.calls = w.calls ∧
      w.heap.length ≤ (State.returned s res w).2.heap.length := by
  unfold State.returned
  cases res.ret with
  | nilMap => exact ⟨⟨rfl, rfl, rfl, rfl, rfl, rfl⟩, rfl, le_refl _⟩
  | sameMap => exact ⟨⟨rfl, rfl, rfl, rfl, rfl, rfl⟩, rfl, le_refl _⟩
  | freshMap b => exact ⟨⟨rfl, rfl, rfl, rfl, rfl, rfl⟩, rfl, by simp [World.alloc]⟩

theorem World.write_frame (w w' : World) (a : Attributes) (k : String) (v : Val)
    (h : World.write w a k v = Except.ok w') :
    World.sameEffects w w' ∧ w'.calls = w.calls ∧ w'.heap.length = w.heap.length ∧
      ∃ r, a = some r ∧ w'.heap = w.heap.set r ((w.heap.getD r []).set k v) := by
  cases a with
  | none => simp [World.write] at h
  | some r =>
    simp only [World.write, Except.ok.injEq] at h
    subst h
    exact ⟨⟨rfl, rfl, rfl, rfl, rfl, rfl⟩, rfl, by simp, r, rfl, rfl⟩

/-- The call step of a taken transition schedules nothing and signals no
error; without a call it changes nothing, with a call it records that call. -/
theorem State.resolve_frame (sim : Simulation) (s : Sisyphus.State) (t : config.Transition)
    (w w1 : World) (a : Sisyphus.Attributes) (name : String)
    (h : State.resolve sim s t w = Except.ok (a, name, w1)) :
    World.sameEffects w w1 ∧ w.heap.length ≤ w1.heap.length ∧
    (isEmptyCall t.Call = true → w1 = w ∧ a = s.Attributes ∧ name = t.State) ∧
    (isEmptyCall t.Call = false → w1.calls = w.calls ++ [(t.Call, w.read s.Attributes)]) := by
  unfold State.resolve at h
  by_cases hc : isEmptyCall t.Call = true
  · simp only [hc, if_true, Except.ok.injEq, Prod.mk.injEq] at h
    obtain ⟨rfl, rfl, rfl⟩ := h
    exact ⟨World.sameEffects_refl _, le_refl _, fun _ => ⟨rfl, rfl, rfl⟩,
      fun h' => by simp [hc] at h'⟩
  · rw [if_neg hc] at h
    obtain ⟨c1, c2, c3⟩ := State.called_frame s t.Call (w.read s.Attributes)
      (sim.Do w.calls t.Call (w.read s.Attributes)) w
    obtain ⟨r1, r2, r3⟩ := State.returned_frame s (sim.Do w.calls t.Call (w.read s.Attributes))
      (State.called s t.Call (w.read s.Attributes) (sim.Do w.calls t.Call (w.read s.Attributes)) w)
    unfold State.doCall at h
    simp only at h
    cases he : (sim.Do w.calls t.Call (w.read s.Attributes)).err with
    | none =>
      simp only [he, Except.ok.injEq, Prod.mk.injEq] at h
      obtain ⟨-, -, rfl⟩ := h
      exact ⟨World.sameEffects_trans c1 r1, by omega, fun h' => absurd h' hc,
        fun _ => by rw [r2, c2]⟩
    | some err =>
      simp only [he] at h
      split at h
      · exact absurd h (by simp)
      · rename_i w4 hw4
        simp only [Except.ok.injEq, Prod.mk.injEq] at h
        obtain ⟨-, -, rfl⟩ := h
        obtain ⟨q1, q2, q3, -⟩ := World.write_frame _ _ _ _ _ hw4
        exact ⟨World.sameEffects_trans (World.sameEffects_trans c1 r1) q1, by omega,
          fun h' => absurd h' hc, fun _ => by rw [q2, r2, c2]⟩

/-- Without a selected position the second loop does nothing. -/
theorem State.selectLoop_none (sim : Simulation) (s : Sisyphus.State)
    (ts : List config.Transition) :
    ∀ (r : ℚ) (w : World), State.firstSelected ts r = none →
      State.selectLoop sim s ts r w = Except.ok w := by
  induction ts with
  | nil => intro r w _; rfl
  | cons t rest ih =>
    intro r w h
    by_cases hr : r - t.Probability ≤ 0
    · simp [State.firstSelected, hr] at h
    · simp only [State.firstSelected, hr, if_false, Option.map_eq_none'] at h
      simp only [State.selectLoop, hr, if_false]
      exact ih _ _ h

/-- The second loop up to and including the first selected transition: the
transitions before it are passed over; it is taken (call step, then entry of
the next state), and the loop goes on behind it unless the state is missing. -/
theorem State.selectLoop_first (sim : Simulation) (s : Sisyphus.State)
    (ts : List config.Transition) :
    ∀ (r : ℚ) (w : World) (i : Nat) (t : config.Transition),
      State.firstSelected ts r = some i → ts.get? i = some t →
      State.selectLoop sim s ts r w =
        match State.resolve sim s t w with
        | .error p => Except.error p
        | .ok (a, name, w1) =>
          if (State.enter sim a name w1).2 then
            State.selectLoop sim s (ts.drop (i + 1)) (r - State.psum ts (i + 1))
              (State.enter sim a name w1).1
          else Except.ok (State.enter sim a name w1).1 := by
  induction ts with
  | nil => intro r w i t h; simp [State.firstSelected] at h
  | cons t0 rest ih =>
    intro r w i t h hget
    by_cases hr : r - t0.Probability ≤ 0
    · simp only [State.firstSelected, hr, if_true, Option.some.injEq] at h
      subst h
      simp only [List.get?_cons_zero, Option.some.injEq] at hget
      subst hget
      simp only [State.selectLoop, hr, if_true, State.psum_cons, State.psum_zero, add_zero,
        zero_add, List.drop_succ_cons, List.drop_zero]
      cases hres : State.resolve sim s t0 w with
      | error p => rfl
      | ok x =>
        obtain ⟨a, name, w1⟩ := x
        simp only [State.enter]
        cases hf : config.find sim.Config.States name with
        | none => simp
        | some cfg => simp [copyAttributes]
    · simp only [State.firstSelected, hr, if_false, Option.map_eq_some'] at h
      obtain ⟨i', hi', rfl⟩ := h
      simp only [List.get?_cons_succ] at hget
      simp only [State.selectLoop, hr, if_false, List.drop_succ_cons, State.psum_cons]
      rw [ih _ w i' t hi' hget]
      have : r - t0.Probability - State.psum rest (i' + 1)
          = r - (t0.Probability + State.psum rest (i' + 1)) := by ring
      rw [this]

/-- The second loop only adds to the records: state entries to the jobs,
calls to the calls, not-found errors to the errors. -/
theorem State.selectLoop_grows (sim : Simulation) (s : Sisyphus.State)
    (ts : List config.Transition) :
    ∀ (r : ℚ) (w w' : World), State.selectLoop sim s ts r w = Except.ok w' →
      (∃ j, w'.jobs = w.jobs ++ j ∧ ∀ x ∈ j, x.2.isRun = true) ∧
      (∃ c, w'.calls = w.calls ++ c) ∧
      (∃ er, w'.errors = w.errors ++ er ∧ ∀ e ∈ er, ∃ n, e = Err.notFound "state" n) ∧
      w'.sets = w.sets ∧ w'.entities = w.entities ∧ w.heap.length ≤ w'.heap.length := by
  induction ts with
  | nil =>
    intro r w w' h
    simp only [State.selectLoop, Except.ok.injEq] at h
    subst h
    exact ⟨⟨[], by simp, by simp⟩, ⟨[], by simp⟩, ⟨[], by simp, by simp⟩, rfl, rfl, le_refl _⟩
  | cons t rest ih =>
    intro r w w' h
    by_cases hr : r - t.Probability ≤ 0
    · simp only [State.selectLoop, hr, if_true] at h
      cases hres : State.resolve sim s t w with
      | error p => simp [hres] at h
      | ok x =>
        obtain ⟨a, name, w1⟩ := x
        obtain ⟨⟨f1, f2, f3, f4, f5, f6⟩, fh, fe, fc⟩ := State.resolve_frame sim s t w w1 a name hres
        have hcalls : ∃ c, w1.calls = w.calls ++ c := by
          by_cases hc : isEmptyCall t.Call = true
          · exact ⟨[], by rw [(fe hc).1]; simp⟩
          · exact ⟨_, fc (by simpa using hc)⟩
        obtain ⟨c1, hc1⟩ := hcalls
        simp only [hres] at h
        cases hf : config.find sim.Config.States name with
        | none =>
          simp only [hf, Except.ok.injEq] at h
          subst h
          exact ⟨⟨[], by simp [Simulation.error, f2], by simp⟩, ⟨c1, by simp [Simulation.error, hc1]⟩,
            ⟨[Err.notFound "state" name], by simp [Simulation.error, f4], by simp⟩,
            by simp [Simulation.error, f1], by simp [Simulation.error, f3],
            by simp [Simulation.error, fh]⟩
        | some cfg =>
          simp only [hf] at h
          obtain ⟨⟨j, hj, hj'⟩, ⟨c, hc⟩, ⟨er, her, her'⟩, hs, he, hh⟩ := ih _ _ _ h
          simp only [copyAttributes, World.alloc, addJob] at hj hc her hs he hh
          refine ⟨⟨((0 : Int), Job.run { State := cfg, Attributes := some w1.heap.length }) :: j,
            ?_, ?_⟩, ⟨c1 ++ c, ?_⟩, ⟨er, ?_, her'⟩, ?_, ?_, ?_⟩
          · rw [hj, f2]; simp
          · intro x hx
            rcases List.mem_cons.mp hx with rfl | hx
            · rfl
            · exact hj' x hx
          · rw [hc, hc1]; simp
          · rw [her, f4]
          · rw [hs, f1]
          · rw [he, f3]
          · simp at hh; omega
    · simp only [State.selectLoop, hr, if_false] at h
      exact ih _ _ _ h

theorem World.newJobs_append (w w' : World) (j : List (Int × Job)) (h : w'.jobs = w.jobs ++ j) :
    w.newJobs w' = j := by
  simp [World.newJobs, h]

theorem World.newCalls_append (w w' : World) (c : List (config.Call × Bag))
    (h : w'.calls = w.calls ++ c) : w.newCalls w' = c := by
  simp [World.newCalls, h]

theorem World.newErrors_append (w w' : World) (er : List Err) (h : w'.errors = w.errors ++ er) :
    w.newErrors w' = er := by
  simp [World.newErrors, h]

/-- Transition evaluation after successful sampling: the weights are checked,
then the second loop runs on the product of the sum and the draw. -/
theorem State.runTransition_eq (sim : Simulation) (rt : Runtime) (s : Sisyphus.State)
    (w w1 : World) (hgen : State.generateAttributes rt s w = Except.ok (none, w1)) :
    State.runTransition sim rt s w =
      match State.sumLoop s.State.Transitions 0 with
      | .error err => Except.ok (Simulation.error w1 err)
      | .ok sum =>
        if sum = 0 then Except.ok (Simulation.error w1 Err.zeroProbabilitySum)
        else State.selectLoop sim s s.State.Transitions (sum * rt.Float64 w1.pos)
          { w1 with pos := w1.pos + 1 } := by
  simp only [State.runTransition, hgen]

/-- The first loop fails exactly on a negative weight, with that error. -/
theorem State.sumLoop_error_iff (ts : List config.Transition) :
    ∀ acc : ℚ, (∃ err, State.sumLoop ts acc = Except.error err) ↔ ∃ t ∈ ts, t.Probability < 0 := by
  induction ts with
  | nil => intro acc; simp [State.sumLoop]
  | cons t rest ih =>
    intro acc
    by_cases hneg : t.Probability < 0
    · simp only [State.sumLoop, hneg, if_true, List.mem_cons, exists_eq_or_imp]
      exact ⟨fun _ => Or.inl trivial, fun _ => ⟨_, rfl⟩⟩
    · simp only [State.sumLoop, hneg, if_false, List.mem_cons, exists_eq_or_imp, false_or]
      exact ih _

theorem State.sumLoop_error_kind (ts : List config.Transition) :
    ∀ (acc : ℚ) (err : Err), State.sumLoop ts acc = Except.error err →
      ∃ p, p < 0 ∧ err = Err.negativeProbability p := by
  induction ts with
  | nil => intro acc err h; simp [State.sumLoop] at h
  | cons t rest ih =>
    intro acc err h
    by_cases hneg : t.Probability < 0
    · simp only [State.sumLoop, hneg, if_true, Except.error.injEq] at h
      exact ⟨_, hneg, h.symm⟩
    · simp only [State.sumLoop, hneg, if_false] at h
      exact ih _ _ h

/-- With a negative weight or a zero sum, transition evaluation signals the
weight error right after sampling and does nothing else. -/
theorem State.runTransition_invalid (sim : Simulation) (rt : Runtime) (s : Sisyphus.State)
    (w w1 : World) (hgen : State.generateAttributes rt s w = Except.ok (none, w1))
    (hinv : (∃ t ∈ s.State.Transitions, t.Probability < 0) ∨
      State.psum s.State.Transitions s.State.Transitions.length = 0) :
    ∃ err, State.runTransition sim rt s w = Except.ok (Simulation.error w1 err) ∧
      (err = Err.zeroProbabilitySum ∨ ∃ p, p < 0 ∧ err = Err.negativeProbability p) := by
  rw [State.runTransition_eq sim rt s w w1 hgen]
  cases hsum : State.sumLoop s.State.Transitions 0 with
  | error err =>
    exact ⟨err, rfl, Or.inr (State.sumLoop_error_kind _ _ _ hsum)⟩
  | ok S =>
    obtain ⟨hnn, hS⟩ := (State.sumLoop_ok_iff _ 0 S).mp hsum
    rcases hinv with ⟨t, ht, hneg⟩ | hz
    · exact absurd (hnn t ht) (not_le.mpr hneg)
    · rw [hz, zero_add] at hS
      exact ⟨Err.zeroProbabilitySum, by simp [hS], Or.inl rfl⟩

/-- With non-negative weights of non-zero sum, transition evaluation is the
second loop run on the product of the sum and the draw. -/
theorem State.runTransition_valid (sim : Simulation) (rt : Runtime) (s : Sisyphus.State)
    (w w1 : World) (hgen : State.generateAttributes rt s w = Except.ok (none, w1))
    (hnn : ∀ t ∈ s.State.Transitions, 0 ≤ t.Probability)
    (hS : State.psum s.State.Transitions s.State.Transitions.length ≠ 0) :
    State.runTransition sim rt s w =
      State.selectLoop sim s s.State.Transitions
        (State.psum s.State.Transitions s.State.Transitions.length * rt.Float64 w1.pos)
        { w1 with pos := w1.pos + 1 } := by
  rw [State.runTransition_eq sim rt s w w1 hgen]
  have hsum : State.sumLoop s.State.Transitions 0 =
      Except.ok (State.psum s.State.Transitions s.State.Transitions.length) :=
    (State.sumLoop_ok_iff _ 0 _).mpr ⟨hnn, by rw [zero_add]⟩
  simp only [hsum, hS, if_false]

/-- The entry step keeps the calls; it either signals a not-found error and
schedules nothing, or schedules one state entry and signals nothing. -/
theorem State.enter_frame (sim : Simulation) (a : Sisyphus.Attributes) (name : String)
    (w : World) :
    (State.enter sim a name w).1.calls = w.calls ∧
    (State.enter sim a name w).1.sets = w.sets ∧
    (State.enter sim a name w).1.entities = w.entities ∧
    (config.find sim.Config.States name = none →
      State.enter sim a name w = (Simulation.error w (Err.notFound "state" name), false)) ∧
    (∀ cfg, config.find sim.Config.States name = some cfg →
      (State.enter sim a name w).2 = true ∧
      (State.enter sim a name w).1.errors = w.errors ∧
      (State.enter sim a name w).1.jobs =
        w.jobs ++ [(0, Job.run { State := cfg, Attributes := some w.heap.length })] ∧
      (State.enter sim a name w).1.heap = w.heap ++ [(w.read a).copy]) := by
  unfold State.enter
  cases hf : config.find sim.Config.States name with
  | none => simp [Simulation.error]
  | some cfg => simp [copyAttributes, World.alloc, addJob]

/-- The second loop ends with an error signalled, no call made and nothing
scheduled exactly when its first selected transition has an empty call and a
target state that is not configured. -/
theorem State.selectLoop_quiet_iff (sim : Simulation) (s : Sisyphus.State)
    (ts : List config.Transition) (r : ℚ) (w0 : World) (i : Nat) (t : config.Transition)
    (hfs : State.firstSelected ts r = some i) (hget : ts.get? i = some t) :
    (∃ w', State.selectLoop sim s ts r w0 = Except.ok w' ∧ w0.newErrors w' ≠ [] ∧
        w0.newCalls w' = [] ∧ w0.newJobs w' = []) ↔
      (isEmptyCall t.Call = true ∧ config.find sim.Config.States t.State = none) := by
  rw [State.selectLoop_first sim s ts r w0 i t hfs hget]
  cases hres : State.resolve sim s t w0 with
  | error p =>
    constructor
    · rintro ⟨w', h, -⟩
      exact absurd h (by simp)
    · rintro ⟨hc, -⟩
      simp [State.resolve, hc] at hres
  | ok x =>
    obtain ⟨a, name, w1⟩ := x
    obtain ⟨⟨f1, f2, f3, f4, f5, f6⟩, fh, fe, fc⟩ := State.resolve_frame sim s t w0 w1 a name hres
    obtain ⟨e1, e2, e3, e4, e5⟩ := State.enter_frame sim a name w1
    simp only
    by_cases hc : isEmptyCall t.Call = true
    · obtain ⟨rfl, rfl, rfl⟩ := fe hc
      cases hf : config.find sim.Config.States t.State with
      | none =>
        rw [e4 hf]
        simp only [Bool.false_eq_true, if_false, hc, and_self, iff_true]
        refine ⟨_, rfl, ?_, ?_, ?_⟩
        · rw [World.newErrors_append w1 _ [Err.notFound "state" t.State] rfl]; simp
        · exact World.newCalls_append w1 _ [] (by simp [Simulation.error])
        · exact World.newJobs_append w1 _ [] (by simp [Simulation.error])
      | some cfg =>
        obtain ⟨g1, g2, g3, g4⟩ := e5 cfg hf
        simp only [g1, if_true, hc, true_and, reduceCtorEq, iff_false, not_exists, not_and]
        intro w' hw' _ _ hj
        obtain ⟨⟨j, hj1, -⟩, -⟩ := State.selectLoop_grows sim s _ _ _ _ hw'
        rw [g3, List.append_assoc] at hj1
        rw [World.newJobs_append w1 w' _ hj1] at hj
        simp at hj
    · have hc' : isEmptyCall t.Call = false := by simpa using hc
      have hcalls := fc hc'
      simp only [hc', Bool.false_eq_true, false_and, iff_false, not_exists, not_and]
      intro w' hw' _ hcl
      have : ∃ c, w'.calls = w1.calls ++ c := by
        by_cases hen : (State.enter sim a name w1).2 = true
        · rw [if_pos hen] at hw'
          obtain ⟨-, ⟨c, hc1⟩, -⟩ := State.selectLoop_grows sim s _ _ _ _ hw'
          exact ⟨c, by rw [hc1, e1]⟩
        · rw [if_neg hen, Except.ok.injEq] at hw'
          exact ⟨[], by rw [← hw', e1]; simp⟩
      obtain ⟨c, hc1⟩ := this
      rw [hcalls, List.append_assoc] at hc1
      rw [World.newCalls_append w0 w' _ hc1] at hcl
      simp at hcl

/-- C6 as stated fails: the state `lost` has the single weight 1 (no negative
weight, sum not zero), yet transition evaluation triggers the cancellation
signal with an error, invokes no call and schedules nothing, because the
target state of the selected transition is not configured. -/
theorem runTransition_aborts_with_valid_weights :
    State.generateAttributes Examples.rtQuarter
        { State := Examples.lost, Attributes := some 0 } Examples.worldOneBag =
      Except.ok (none, Examples.worldOneBag) ∧
    State.runTransition Examples.simFork Examples.rtQuarter
        { State := Examples.lost, Attributes := some 0 } Examples.worldOneBag =
      Except.ok { Examples.worldOneBag with
        pos := 1, cancelled := true, errors := [Err.notFound "state" "gone"] } ∧
    ¬ ((∃ t ∈ Examples.lost.Transitions, t.Probability < 0) ∨
        State.psum Examples.lost.Transitions Examples.lost.Transitions.length = 0) := by
  refine ⟨rfl, ?_, ?_⟩
  · simp [State.runTransition, State.generateAttributes, sampleInto, Examples.lost,
      State.sumLoop, State.selectLoop, State.resolve, Examples.float64_quarter, isEmptyCall,
      Examples.noCall, config.find, Examples.simFork, Simulation.error, Examples.worldOneBag,
      World.init]
    norm_num
  · norm_num [Examples.lost, State.psum]

/-- C6, amended: given that sampling the state's attributes succeeded,
transition evaluation triggers the cancellation signal with an error, invokes
no call and schedules no next state if and only if some weight is negative,
or the weights sum to zero, or the first selected transition has an empty
call and a target state that is not configured.  The weights are checked over
the whole list before any transition is selected: with a negative weight
anywhere, or a zero sum, the result is the world as sampling left it with the
weight error signalled. -/
theorem runTransition_aborts_iff (sim : Simulation) (rt : Runtime) (s : State)
    (w w1 : World) (hgen : State.generateAttributes rt s w = Except.ok (none, w1)) :
    ((∃ w', State.runTransition sim rt s w = Except.ok w' ∧ w.newErrors w' ≠ [] ∧
        w.newCalls w' = [] ∧ w.newJobs w' = []) ↔
      ((∃ t ∈ s.State.Transitions, t.Probability < 0) ∨
        State.psum s.State.Transitions s.State.Transitions.length = 0 ∨
        ∃ i t, State.firstSelected s.State.Transitions
            (State.psum s.State.Transitions s.State.Transitions.length * rt.Float64 w1.pos)
              = some i ∧
          s.State.Transitions.get? i = some t ∧ isEmptyCall t.Call = true ∧
          config.find sim.Config.States t.State = none)) ∧
    ((∃ t ∈ s.State.Transitions, t.Probability < 0) ∨
        State.psum s.State.Transitions s.State.Transitions.length = 0 →
      ∃ err, State.runTransition sim rt s w = Except.ok (Simulation.error w1 err) ∧
        (err = Err.zeroProbabilitySum ∨ ∃ p, p < 0 ∧ err = Err.negativeProbability p)) := by
  obtain ⟨-, hj, hc, -, her, -, -⟩ :=
    sampleInto_frame rt s.Attributes s.State.Attributes w w1 none hgen
  refine ⟨?_, State.runTransition_invalid sim rt s w w1 hgen⟩
  by_cases hinv : (∃ t ∈ s.State.Transitions, t.Probability < 0) ∨
      State.psum s.State.Transitions s.State.Transitions.length = 0
  · obtain ⟨err, hR, -⟩ := State.runTransition_invalid sim rt s w w1 hgen hinv
    constructor
    · intro _
      rcases hinv with h | h
      · exact Or.inl h
      · exact Or.inr (Or.inl h)
    · intro _
      refine ⟨_, hR, ?_, ?_, ?_⟩
      · rw [World.newErrors_append w _ [err] (by simp [Simulation.error, her])]; simp
      · exact World.newCalls_append w _ [] (by simp [Simulation.error, hc])
      · exact World.newJobs_append w _ [] (by simp [Simulation.error, hj])
  · have hnn : ∀ t ∈ s.State.Transitions, 0 ≤ t.Probability := by
      intro t ht
      by_contra hlt
      exact hinv (Or.inl ⟨t, ht, not_le.mp hlt⟩)
    have hS : State.psum s.State.Transitions s.State.Transitions.length ≠ 0 :=
      fun h => hinv (Or.inr h)
    rw [State.runTransition_valid sim rt s w w1 hgen hnn hS]
    have hE : ∀ w', w.newErrors w' = World.newErrors { w1 with pos := w1.pos + 1 } w' := by
      intro w'; simp [World.newErrors, her]
    have hC : ∀ w', w.newCalls w' = World.newCalls { w1 with pos := w1.pos + 1 } w' := by
      intro w'; simp [World.newCalls, hc]
    have hJ : ∀ w', w.newJobs w' = World.newJobs { w1 with pos := w1.pos + 1 } w' := by
      intro w'; simp [World.newJobs, hj]
    simp only [hE, hC, hJ]
    cases hfs : State.firstSelected s.State.Transitions
        (State.psum s.State.Transitions s.State.Transitions.length * rt.Float64 w1.pos) with
    | none =>
      rw [State.selectLoop_none sim s _ _ _ hfs]
      constructor
      · rintro ⟨w', hw', hne, -⟩
        rw [Except.ok.injEq] at hw'
        subst hw'
        exact absurd (by simp [World.newErrors]) hne
      · rintro (h | h | ⟨i, t, h, -⟩)
        · exact absurd (Or.inl h) hinv
        · exact absurd h hS
        · exact absurd h (by simp)
    | some i =>
      have hi := ((State.firstSelected_eq_some_iff _ _ _).mp hfs).1
      have hget : s.State.Transitions.get? i = some (s.State.Transitions.get ⟨i, hi⟩) :=
        List.get?_eq_get hi
      rw [State.selectLoop_quiet_iff sim s _ _ _ i _ hfs hget]
      constructor
      · rintro ⟨h1, h2⟩
        exact Or.inr (Or.inr ⟨i, _, rfl, hget, h1, h2⟩)
      · rintro (h | h | ⟨i', t, h, hg, h1, h2⟩)
        · exact absurd (Or.inl h) hinv
        · exact absurd h hS
        · rw [Option.some.injEq] at h
          subst h
          rw [hget, Option.some.injEq] at hg
          subst hg
          exact ⟨h1, h2⟩

/-- Witness for C6, amended: the state `lost` on the sample world. -/
theorem runTransition_aborts_iff_witness :
    (∃ w', State.runTransition Examples.simFork Examples.rtQuarter
          { State := Examples.lost, Attributes := some 0 } Examples.worldOneBag = Except.ok w' ∧
        Examples.worldOneBag.newErrors w' ≠ [] ∧ Examples.worldOneBag.newCalls w' = [] ∧
        Examples.worldOneBag.newJobs w' = []) ↔
      ((∃ t ∈ Examples.lost.Transitions, t.Probability < 0) ∨
        State.psum Examples.lost.Transitions Examples.lost.Transitions.length = 0 ∨
        ∃ i t, State.firstSelected Examples.lost.Transitions
            (State.psum Examples.lost.Transitions Examples.lost.Transitions.length *
              Examples.rtQuarter.Float64 Examples.worldOneBag.pos) = some i ∧
          Examples.lost.Transitions.get? i = some t ∧ isEmptyCall t.Call = true ∧
          config.find Examples.simFork.Config.States t.State = none) :=
  (runTransition_aborts_iff Examples.simFork Examples.rtQuarter
    { State := Examples.lost, Attributes := some 0 } Examples.worldOneBag Examples.worldOneBag
    rfl).1

/-! ### Cardinality -/

/-- C7 as stated fails: for the empty cardinality expression and a bag
without an attribute of that name, the empty string is not a valid integer
literal (`strconv.Atoi` rejects it), yet `Value` succeeds, with 1. -/
theorem cardinality_empty_expression_succeeds :
    Bag.get [] "" = none ∧ (atoi "").2 = some (Err.atoiSyntax "") ∧
      cardinality.Value "" [] = (1, none) := by
  refine ⟨rfl, ?_, ?_⟩
  · decide
  · rfl

/-- C7, amended: `cardinality.Value` fails exactly when the bag has no
attribute named `c` and `c` is neither empty nor a valid integer literal, or
the bag has an attribute named `c` whose value is neither an integer nor a
string convertible to an integer.  Otherwise it succeeds: with 1 for the empty
expression that names no attribute, with the literal for a valid literal that
names no attribute, and with the attribute's integer value. -/
theorem cardinality_Value_fails_iff (c : String) (attributes : Bag) :
    ((cardinality.Value c attributes).2 ≠ none ↔
      (attributes.get c = none ∧ c ≠ "" ∧ (atoi c).2 ≠ none) ∨
      (∃ v, attributes.get c = some v ∧ (∀ n, v ≠ Val.int n) ∧
        ∀ str, v = Val.str str → (atoi str).2 ≠ none)) ∧
    (attributes.get c = none → c = "" → cardinality.Value c attributes = (1, none)) ∧
    (attributes.get c = none → c ≠ "" → (atoi c).2 = none →
      cardinality.Value c attributes = ((atoi c).1, none)) ∧
    (∀ n, attributes.get c = some (Val.int n) → cardinality.Value c attributes = (n, none)) ∧
    (∀ str, attributes.get c = some (Val.str str) → (atoi str).2 = none →
      cardinality.Value c attributes = ((atoi str).1, none)) := by
  refine ⟨?_, ?_, ?_, ?_, ?_⟩
  · unfold cardinality.Value
    cases hg : attributes.get c with
    | none =>
      by_cases hc : c = ""
      · simp [hc]
      · simp [hc]
    | some v =>
      cases v with
      | int n => simp
      | str str => simp
      | nil => simp
      | float q => simp
      | list xs => simp
      | map kvs => simp
  · intro hg hc
    subst hc
    simp [cardinality.Value, hg]
  · intro hg hc ha
    simp only [cardinality.Value, hg, hc, if_false]
    exact Prod.ext rfl ha
  · intro n hg
    simp [cardinality.Value, hg]
  · intro str hg ha
    simp only [cardinality.Value, hg]
    exact Prod.ext rfl ha

theorem atoi_samples :
    atoi "42" = (42, none) ∧ atoi "-7" = (-7, none) ∧ atoi "+3" = (3, none) ∧
      (atoi "4x").2 = some (Err.atoiSyntax "4x") ∧ (atoi "-").2 = some (Err.atoiSyntax "-") ∧
      atoi "9223372036854775808" = (9223372036854775807, some (Err.atoiRange "9223372036854775808"))
      := by
  refine ⟨?_, ?_, ?_, ?_, ?_, ?_⟩ <;> decide

/-! ### The attribute sampler -/

theorem Runtime.Intn_lt (rt : Runtime) (pos n : Nat) (hn : 0 < n) : rt.Intn pos n < n :=
  Nat.mod_lt _ hn

/-- The random-subset loop ends within `len - i` further iterations. -/
theorem AttributeDistribution.subsetLoop_terminates (rt : Runtime) (len : Nat) (hlen : 0 < len) :
    ∀ (fuel i pos : Nat) (marked : List Nat), len ≤ i + fuel →
      ∃ res, AttributeDistribution.subsetLoop rt len fuel i pos marked = some res := by
  intro fuel
  induction fuel with
  | zero =>
    intro i pos marked h
    have : ¬ i < rt.Intn pos len := by
      have := Runtime.Intn_lt rt pos len hlen
      omega
    exact ⟨(marked, pos + 1), by simp [AttributeDistribution.subsetLoop, this]⟩
  | succ fuel ih =>
    intro i pos marked h
    by_cases hi : i < rt.Intn pos len
    · obtain ⟨res, hres⟩ := ih (i + 1) (pos + 2)
        (if rt.Intn (pos + 1) len ∈ marked then marked else marked ++ [rt.Intn (pos + 1) len])
        (by omega)
      exact ⟨res, by simp only [AttributeDistribution.subsetLoop, hi, if_true]; exact hres⟩
    · exact ⟨(marked, pos + 1), by simp [AttributeDistribution.subsetLoop, hi]⟩

/-- C8: for the random-value and random-subset kinds, `Sample` returns an
error exactly when the list of values is empty, and then returns the nil value
with it; for a non-empty list and every random source it returns without
error, an element of the list for random-value and a list for random-subset
(whose loop ends). -/
theorem Sample_random_value_subset (rt : Runtime) (a : config.Attribute) (pos : Nat)
    (hk : a.Kind = config.AttributeType.RandomValue ∨
      a.Kind = config.AttributeType.RandomSubset) :
    ((AttributeDistribution.Sample rt a pos).1.2 ≠ none ↔ a.Values = []) ∧
    (a.Values = [] →
      (AttributeDistribution.Sample rt a pos).1 = (Val.nil, some Err.emptyValues)) ∧
    (a.Values ≠ [] → a.Kind = config.AttributeType.RandomValue →
      ∃ v ∈ a.Values, (AttributeDistribution.Sample rt a pos).1 = (v, none)) ∧
    (a.Values ≠ [] → a.Kind = config.AttributeType.RandomSubset →
      ∃ marked pos', AttributeDistribution.subsetLoop rt a.Values.length a.Values.length 0 pos []
          = some (marked, pos') ∧
        (AttributeDistribution.Sample rt a pos).1 =
          (Val.list (marked.map (fun k => a.Values.getD k Val.nil)), none)) := by
  have hval : a.Values ≠ [] → a.Kind = config.AttributeType.RandomValue →
      ∃ v ∈ a.Values, (AttributeDistribution.Sample rt a pos).1 = (v, none) := by
    intro hne hkind
    have hlen : 0 < a.Values.length := List.length_pos.mpr hne
    have hlt := Runtime.Intn_lt rt pos a.Values.length hlen
    refine ⟨a.Values.get ⟨rt.Intn pos a.Values.length, hlt⟩, List.get_mem _ _ _, ?_⟩
    simp only [AttributeDistribution.Sample, hkind, Nat.ne_of_gt hlen, if_false]
    rw [List.getD_eq_getElem?_getD, List.getElem?_eq_getElem hlt]
    rfl
  have hsub : a.Values ≠ [] → a.Kind = config.AttributeType.RandomSubset →
      ∃ marked pos', AttributeDistribution.subsetLoop rt a.Values.length a.Values.length 0 pos []
          = some (marked, pos') ∧
        (AttributeDistribution.Sample rt a pos).1 =
          (Val.list (marked.map (fun k => a.Values.getD k Val.nil)), none) := by
    intro hne hkind
    have hlen : 0 < a.Values.length := List.length_pos.mpr hne
    obtain ⟨⟨marked, pos'⟩, hres⟩ := AttributeDistribution.subsetLoop_terminates rt
      a.Values.length hlen a.Values.length 0 pos [] (by omega)
    refine ⟨marked, pos', hres, ?_⟩
    simp only [AttributeDistribution.Sample, hkind, Nat.ne_of_gt hlen, if_false, hres]
  have hempty : a.Values = [] →
      (AttributeDistribution.Sample rt a pos).1 = (Val.nil, some Err.emptyValues) := by
    intro he
    rcases hk with hkind | hkind <;> simp [AttributeDistribution.Sample, hkind, he]
  refine ⟨?_, hempty, hval, hsub⟩
  constructor
  · intro herr
    by_contra hne
    rcases hk with hkind | hkind
    · obtain ⟨v, -, hv⟩ := hval hne hkind
      rw [hv] at herr
      exact herr rfl
    · obtain ⟨m, p', -, hv⟩ := hsub hne hkind
      rw [hv] at herr
      exact herr rfl
  · intro he
    rw [hempty he]
    simp

/-- Witness for C8: a random-value distribution over three strings. -/
theorem Sample_random_value_subset_witness :
    ∃ v ∈ Examples.pickOne.Values,
      (AttributeDistribution.Sample Examples.rt Examples.pickOne 0).1 = (v, none) :=
  (Sample_random_value_subset Examples.rt Examples.pickOne 0 (Or.inl rfl)).2.2.1
    (by simp [Examples.pickOne]) rfl

/-! ### Missing names -/

/-- C9 as stated fails: entity creation with one subordinate entity set and an
initial state that is not configured signals the error after it has activated
the subordinate set (the set is allocated and its activation is scheduled). -/
theorem createEntity_activates_subordinates_before_lookup :
    config.find Examples.simFork.Config.States Examples.orphan.InitialState = none ∧
    createEntity Examples.simFork Examples.rt Examples.orphan (some 0) Examples.worldOneBag =
      Except.ok { Examples.worldOneBag with
        sets := [entitySet.fresh
          { Entity := "user", Cardinality := "2", Timer := Examples.noTimer } (some 0)],
        jobs := [(0, Job.create 0)],
        cancelled := true,
        errors := [Err.notFound "state" "gone"],
        entities := [(Examples.orphan, some 0, [])] } := by
  constructor
  · rfl
  · simp [createEntity, World.logEntity, sampleInto, Examples.orphan, newEntitySet, addJob,
      config.find, Examples.simFork, Simulation.error, Examples.worldOneBag, World.init,
      World.read]

/-- Entity creation with a missing initial state, in terms of the outcome of
sampling. -/
theorem createEntity_missing_state (sim : Simulation) (rt : Runtime) (cfg : config.Entity)
    (r : Nat) (w : World) (hI : cfg.InitialState ≠ "")
    (hf : config.find sim.Config.States cfg.InitialState = none) :
    ∃ w' oe w1, sampleInto rt (some r) cfg.Attributes (w.logEntity cfg (some r))
        = Except.ok (oe, w1) ∧
      createEntity sim rt cfg (some r) w = Except.ok w' ∧ w'.cancelled = true ∧
      (∀ x ∈ w.newJobs w', x.2.isRun = false) ∧
      (oe = none → w.newErrors w' = [Err.notFound "state" cfg.InitialState] ∧
        w.newJobs w' = activations w.sets.length cfg.Subordinates.length ∧
        w'.sets = w.sets ++ cfg.Subordinates.map (fun c => entitySet.fresh c (some r))) ∧
      (∀ err, oe = some err → w.newErrors w' = [err] ∧ w.newJobs w' = [] ∧
        w'.sets = w.sets) := by
  obtain ⟨oe, w1, h1, hs, hj, -, -, her, -, -, -⟩ := sampleInto_some rt r cfg.Attributes
    (w.logEntity cfg (some r))
  simp only [World.logEntity] at hs hj her
  cases oe with
  | some err =>
    refine ⟨Simulation.error w1 err, some err, w1, h1, ?_, rfl, ?_, ?_, ?_⟩
    · simp only [createEntity, h1]
    · rw [World.newJobs_append w _ [] (by simp [Simulation.error, hj])]; simp
    · intro h; cases h
    · intro err' h
      rw [Option.some.injEq] at h
      subst h
      exact ⟨World.newErrors_append w _ [err] (by simp [Simulation.error, her]),
        World.newJobs_append w _ [] (by simp [Simulation.error, hj]),
        by simp [Simulation.error, hs]⟩
  | none =>
    have hjobs : w.newJobs (Simulation.error
        { w1 with sets := w1.sets ++ cfg.Subordinates.map (fun c => entitySet.fresh c (some r)),
                  jobs := w1.jobs ++ (List.range' w1.sets.length cfg.Subordinates.length).map
                    (fun i => ((0 : Int), Job.create i)) }
        (Err.notFound "state" cfg.InitialState)) =
        activations w.sets.length cfg.Subordinates.length :=
      World.newJobs_append w _ _ (by simp [Simulation.error, hj, hs, activations])
    refine ⟨Simulation.error
        { w1 with sets := w1.sets ++ cfg.Subordinates.map (fun c => entitySet.fresh c (some r)),
                  jobs := w1.jobs ++ (List.range' w1.sets.length cfg.Subordinates.length).map
                    (fun i => ((0 : Int), Job.create i)) }
        (Err.notFound "state" cfg.InitialState), none, w1, h1, ?_, ?_, ?_, ?_, ?_⟩
    · simp only [createEntity, h1, subordinates_fold, ne_eq, hI, not_false_eq_true, if_true, hf]
    · rfl
    · rw [hjobs]
      intro x hx
      simp only [activations, List.mem_map] at hx
      obtain ⟨i, -, rfl⟩ := hx
      rfl
    · intro _
      exact ⟨World.newErrors_append w _ _ (by simp [Simulation.error, her]), hjobs,
        by simp [Simulation.error, hs]⟩
    · intro err h; cases h

/-- C9, amended: a step that looks up a missing name triggers the cancellation
signal and schedules nothing after the lookup.  Activation of an entity set
whose entity is not configured schedules no create-one-entity job.  Entity
creation with a non-empty initial state that is not configured schedules no
state entry; when sampling succeeded it has, before the lookup, activated
every subordinate entity set (when sampling failed, none).  Transition
evaluation whose first selected transition resolves to a state that is not
configured schedules no state entry. -/
theorem missing_name_cancels (sim : Simulation) (rt : Runtime) :
    (∀ (e : Nat) (w : World) (es : entitySet), w.sets.get? e = some es →
      config.find sim.Config.Entities es.EntitySet.Entity = none →
      ∃ w', entitySet.create sim rt e w = Except.ok w' ∧ w'.cancelled = true ∧
        w.newErrors w' = [Err.notFound "entity" es.EntitySet.Entity] ∧ w.newJobs w' = []) ∧
    (∀ (cfg : config.Entity) (r : Nat) (w : World), cfg.InitialState ≠ "" →
      config.find sim.Config.States cfg.InitialState = none →
      ∃ w' oe w1, sampleInto rt (some r) cfg.Attributes (w.logEntity cfg (some r))
          = Except.ok (oe, w1) ∧
        createEntity sim rt cfg (some r) w = Except.ok w' ∧ w'.cancelled = true ∧
        (∀ x ∈ w.newJobs w', x.2.isRun = false) ∧
        (oe = none → w.newErrors w' = [Err.notFound "state" cfg.InitialState] ∧
          w.newJobs w' = activations w.sets.length cfg.Subordinates.length ∧
          w'.sets = w.sets ++ cfg.Subordinates.map (fun c => entitySet.fresh c (some r))) ∧
        (∀ err, oe = some err → w.newErrors w' = [err] ∧ w.newJobs w' = [] ∧
          w'.sets = w.sets)) ∧
    (∀ (s : State) (w w1 w2 : World) (i : Nat) (t : config.Transition) (a : Attributes)
        (name : String),
      State.generateAttributes rt s w = Except.ok (none, w1) →
      (∀ t ∈ s.State.Transitions, 0 ≤ t.Probability) →
      State.psum s.State.Transitions s.State.Transitions.length ≠ 0 →
      State.firstSelected s.State.Transitions
        (State.psum s.State.Transitions s.State.Transitions.length * rt.Float64 w1.pos)
          = some i →
      s.State.Transitions.get? i = some t →
      State.resolve sim s t { w1 with pos := w1.pos + 1 } = Except.ok (a, name, w2) →
      config.find sim.Config.States name = none →
      ∃ w', State.runTransition sim rt s w = Except.ok w' ∧ w'.cancelled = true ∧
        w.newErrors w' = [Err.notFound "state" name] ∧ w.newJobs w' = []) := by
  refine ⟨?_, ?_, ?_⟩
  · intro e w es hes hf
    refine ⟨Simulation.error w (Err.notFound "entity" es.EntitySet.Entity), ?_, rfl, ?_, ?_⟩
    · simp only [entitySet.create, hes, hf]
    · exact World.newErrors_append w _ _ rfl
    · exact World.newJobs_append w _ [] (by simp [Simulation.error])
  · intro cfg r w hI hf
    exact createEntity_missing_state sim rt cfg r w hI hf
  · intro s w w1 w2 i t a name hgen hnn hS hfs hget hres hf
    obtain ⟨-, hj, -, -, her, -, -⟩ :=
      sampleInto_frame rt s.Attributes s.State.Attributes w w1 none hgen
    obtain ⟨⟨-, f2, -, f4, -, -⟩, -⟩ := State.resolve_frame sim s t _ w2 a name hres
    simp only at f2 f4
    refine ⟨Simulation.error w2 (Err.notFound "state" name), ?_, rfl, ?_, ?_⟩
    · rw [State.runTransition_valid sim rt s w w1 hgen hnn hS,
        State.selectLoop_first sim s _ _ _ i t hfs hget, hres]
      simp only [(State.enter_frame sim a name w2).2.2.2.1 hf, Bool.false_eq_true, if_false]
    · exact World.newErrors_append w _ _ (by simp [Simulation.error, f4, her])
    · exact World.newJobs_append w _ [] (by simp [Simulation.error, f2, hj])

/-- Witness for C9, amended: a set of ghosts, the orphan entity and the state
`lost`. -/
theorem missing_name_cancels_witness :
    (∃ w', entitySet.create Examples.simPlain Examples.rt 0 Examples.worldOfGhosts
        = Except.ok w' ∧ w'.cancelled = true ∧
      Examples.worldOfGhosts.newErrors w' = [Err.notFound "entity" "ghost"] ∧
      Examples.worldOfGhosts.newJobs w' = []) ∧
    (∃ w', createEntity Examples.simFork Examples.rt Examples.orphan (some 0)
        Examples.worldOneBag = Except.ok w' ∧ w'.cancelled = true ∧
      ∀ x ∈ Examples.worldOneBag.newJobs w', x.2.isRun = false) ∧
    (∃ w', State.runTransition Examples.simFork Examples.rtQuarter
        { State := Examples.lost, Attributes := some 0 } Examples.worldOneBag = Except.ok w' ∧
      w'.cancelled = true ∧
      Examples.worldOneBag.newErrors w' = [Err.notFound "state" "gone"] ∧
      Examples.worldOneBag.newJobs w' = []) := by
  obtain ⟨h1, h2, h3⟩ := missing_name_cancels Examples.simFork Examples.rtQuarter
  obtain ⟨g1, -, -⟩ := missing_name_cancels Examples.simPlain Examples.rt
  refine ⟨g1 0 Examples.worldOfGhosts Examples.setOfGhosts rfl rfl, ?_, ?_⟩
  · obtain ⟨-, k2, -⟩ := missing_name_cancels Examples.simFork Examples.rt
    obtain ⟨w', -, -, -, hc, hcan, hruns, -⟩ :=
      k2 Examples.orphan 0 Examples.worldOneBag (by decide) rfl
    exact ⟨w', hc, hcan, hruns⟩
  · exact h3 { State := Examples.lost, Attributes := some 0 } Examples.worldOneBag
      Examples.worldOneBag { Examples.worldOneBag with pos := 1 } 0
      { Probability := 1, State := "gone", Call := Examples.noCall, OnFailure := "" }
      (some 0) "gone" rfl (by simp [Examples.lost])
      (by norm_num [Examples.lost, State.psum])
      (by norm_num [Examples.lost, State.psum, State.firstSelected, Examples.float64_quarter])
      rfl rfl rfl

/-! ### Bags -/

theorem Bag.set_of_not_mem (b : Bag) (k : String) (v : Val) (h : k ∉ b.map Prod.fst) :
    Bag.set b k v = b ++ [(k, v)] := by
  induction b with
  | nil => rfl
  | cons kv rest ih =>
    obtain ⟨k', v'⟩ := kv
    simp only [List.map_cons, List.mem_cons, not_or] at h
    simp only [Bag.set, Ne.symm h.1, if_false, ih h.2, List.cons_append]

theorem Bag.set_keys_of_mem (b : Bag) (k : String) (v : Val) (h : k ∈ b.map Prod.fst) :
    (Bag.set b k v).map Prod.fst = b.map Prod.fst := by
  induction b with
  | nil => simp at h
  | cons kv rest ih =>
    obtain ⟨k', v'⟩ := kv
    by_cases hk : k' = k
    · simp [Bag.set, hk]
    · simp only [List.map_cons, List.mem_cons] at h
      rcases h with h | h
      · exact absurd h.symm hk
      · simp [Bag.set, hk, ih h]

/-- A write keeps a bag well-formed. -/
theorem Bag.set_wellFormed (b : Bag) (k : String) (v : Val) (h : b.wellFormed) :
    (Bag.set b k v).wellFormed := by
  unfold Bag.wellFormed at *
  by_cases hk : k ∈ b.map Prod.fst
  · rw [Bag.set_keys_of_mem b k v hk]; exact h
  · rw [Bag.set_of_not_mem b k v hk, List.map_append, List.nodup_append]
    refine ⟨h, by simp, ?_⟩
    intro x hx hx'
    simp only [List.map_cons, List.map_nil, List.mem_singleton] at hx'
    exact hk (hx' ▸ hx)

theorem Bag.foldl_set_wellFormed (b : Bag) :
    ∀ acc : Bag, acc.wellFormed → (b.foldl (fun m kv => Bag.set m kv.1 kv.2) acc).wellFormed := by
  induction b with
  | nil => intro acc h; exact h
  | cons kv rest ih =>
    intro acc h
    exact ih _ (Bag.set_wellFormed acc kv.1 kv.2 h)

/-- The copy of any bag is well-formed. -/
theorem Bag.copy_wellFormed (b : Bag) : b.copy.wellFormed :=
  Bag.foldl_set_wellFormed b [] (by simp [Bag.wellFormed])

theorem Bag.foldl_set_of_wellFormed (b : Bag) :
    ∀ acc : Bag, Bag.wellFormed (acc ++ b) →
      b.foldl (fun m kv => Bag.set m kv.1 kv.2) acc = acc ++ b := by
  induction b with
  | nil => intro acc _; simp
  | cons kv rest ih =>
    intro acc h
    obtain ⟨k, v⟩ := kv
    have hk : k ∉ acc.map Prod.fst := by
      unfold Bag.wellFormed at h
      rw [List.map_append, List.nodup_append] at h
      intro hmem
      exact h.2.2 hmem (by simp)
    rw [List.foldl_cons, Bag.set_of_not_mem acc k v hk, ih]
    · simp
    · simpa using h

/-- The copy of a well-formed bag is the bag, entry by entry. -/
theorem Bag.copy_of_wellFormed (b : Bag) (h : b.wellFormed) : b.copy = b := by
  have := Bag.foldl_set_of_wellFormed b [] (by simpa using h)
  simpa [Bag.copy] using this

/-! ### Footprints of the jobs -/

theorem sets_set_attributes (sets : List entitySet) :
    ∀ (e : Nat) (es x : entitySet), sets.get? e = some es → x.attributes = es.attributes →
      (sets.set e x).map (fun es => es.attributes) = sets.map (fun es => es.attributes) := by
  induction sets with
  | nil => intro e es x h; simp at h
  | cons hd tl ih =>
    intro e es x h hx
    cases e with
    | zero =>
      simp only [List.get?_cons_zero, Option.some.injEq] at h
      subst h
      simp [hx]
    | succ e' =>
      simp only [List.get?_cons_succ] at h
      simp [ih e' es x h hx]

theorem World.stepOk_refl (own : Attributes) (w : World) : World.stepOk own w w :=
  ⟨le_refl _, fun _ _ _ => rfl, ⟨[], by simp, by simp⟩, ⟨[], by simp, by simp⟩⟩

/-- A step that changes neither heap nor bags of entity sets and schedules only
jobs that are not state jobs. -/
theorem World.stepOk_of_quiet (own : Attributes) (w w' : World) (hh : w'.heap = w.heap)
    (hs : w'.sets.map (fun es => es.attributes) = w.sets.map (fun es => es.attributes))
    (j : List (Int × Job)) (hj : w'.jobs = w.jobs ++ j)
    (hj' : ∀ x ∈ j, ∀ s : State, ¬ (x.2 = Job.run s ∨ x.2 = Job.runTransition s)) :
    World.stepOk own w w' := by
  refine ⟨by rw [hh], fun i _ _ => by rw [hh], ⟨[], by simp [hs], by simp⟩, ⟨j, hj, ?_⟩⟩
  intro x hx s hor
  exact absurd hor (hj' x hx s)

/-- Footprint of the activation of an entity set. -/
theorem entitySet.create_stepOk (sim : Simulation) (rt : Runtime) (e : Nat) (w w' : World)
    (h : entitySet.create sim rt e w = Except.ok w') : World.stepOk none w w' := by
  unfold entitySet.create at h
  cases hes : w.sets.get? e with
  | none =>
    simp only [hes] at h
    exact absurd h (by simp)
  | some es =>
    simp only [hes] at h
    cases hf : config.find sim.Config.Entities es.EntitySet.Entity with
    | none =>
      simp only [hf, Except.ok.injEq] at h
      subst h
      exact World.stepOk_of_quiet none w _ rfl rfl [] (by simp [Simulation.error]) (by simp)
    | some cfg =>
      simp only [hf] at h
      rcases hcv : cardinality.Value es.EntitySet.Cardinality (w.read es.attributes)
        with ⟨n, oerr⟩
      have hread : World.read { w with sets := w.sets.set e { es with cfg := cfg } } es.attributes
          = w.read es.attributes := rfl
      rw [hread, hcv] at h
      cases oerr with
      | some err =>
        simp only [Except.ok.injEq] at h
        subst h
        exact World.stepOk_of_quiet none w _ rfl
          (sets_set_attributes w.sets e es _ hes rfl) [] (by simp [Simulation.error]) (by simp)
      | none =>
        simp only at h
        split at h
        · exact absurd h (by simp)
        · rename_i d pos' hd
          simp only [Except.ok.injEq] at h
          subst h
          refine World.stepOk_of_quiet none w _ rfl ?_ [(d, Job.createEntity e)]
            (by simp [addJob]) (by simp)
          simp only [addJob, List.set_set]
          exact sets_set_attributes w.sets e es _ hes rfl

/-- Sampling into an allocated bag keeps that bag well-formed. -/
theorem sampleInto_wellFormed (rt : Runtime) (r : Nat) (attrs : List (String × config.Attribute)) :
    ∀ (w w' : World) (oe : Option Err), Bag.wellFormed (w.heap.getD r []) →
      sampleInto rt (some r) attrs w = Except.ok (oe, w') →
      Bag.wellFormed (w'.heap.getD r []) := by
  induction attrs with
  | nil =>
    intro w w' oe hwf h
    simp only [sampleInto, Except.ok.injEq, Prod.mk.injEq] at h
    obtain ⟨-, rfl⟩ := h
    exact hwf
  | cons kv rest ih =>
    intro w w' oe hwf h
    obtain ⟨key, attr⟩ := kv
    rcases hS : AttributeDistribution.Sample rt attr w.pos with ⟨⟨value, oerr⟩, pos'⟩
    cases oerr with
    | some err =>
      simp only [sampleInto, hS, Except.ok.injEq, Prod.mk.injEq] at h
      obtain ⟨-, rfl⟩ := h
      exact hwf
    | none =>
      simp only [sampleInto, hS, World.write] at h
      refine ih _ _ _ ?_ h
      simp only
      by_cases hr : r < w.heap.length
      · rw [List.getD_eq_getElem?_getD, List.getElem?_set_self hr]
        exact Bag.set_wellFormed _ _ _ hwf
      · rw [List.getD_eq_getElem?_getD, List.getElem?_eq_none (by simpa using hr)]
        simp [Bag.wellFormed]

/-- Footprint of entity creation on an allocated, well-formed bag `r`: only
that bag is written and it stays well-formed; a new entity set holds `r`; a
new state job holds a bag allocated in this step. -/
theorem createEntity_footprint (sim : Simulation) (rt : Runtime) (cfg : config.Entity) (r : Nat)
    (w : World) (hr : r < w.heap.length) (hwf : Bag.wellFormed (w.heap.getD r [])) :
    ∃ w', createEntity sim rt cfg (some r) w = Except.ok w' ∧
      w.heap.length ≤ w'.heap.length ∧
      (∀ i, i < w.heap.length → i ≠ r → w'.heap.getD i [] = w.heap.getD i []) ∧
      Bag.wellFormed (w'.heap.getD r []) ∧
      w'.entities = w.entities ++ [(cfg, some r, w.read (some r))] ∧
      (∃ added, w'.sets = w.sets ++ added ∧ ∀ es ∈ added, es.attributes = some r) ∧
      (∃ j, w'.jobs = w.jobs ++ j ∧ ∀ x ∈ j, ∀ s : State,
        (x.2 = Job.run s ∨ x.2 = Job.runTransition s) →
          ∃ r', s.Attributes = some r' ∧ w.heap.length ≤ r' ∧ r' < w'.heap.length) := by
  obtain ⟨oe, w1, h1, hs, hj, -, he, -, -, hl, hh⟩ := sampleInto_some rt r cfg.Attributes
    (w.logEntity cfg (some r))
  have hwf1 := sampleInto_wellFormed rt r cfg.Attributes (w.logEntity cfg (some r)) w1 oe hwf h1
  simp only [World.logEntity] at hs hj he hl hh
  have hacts : ∀ x ∈ (List.range' w1.sets.length cfg.Subordinates.length).map
      (fun i => ((0 : Int), Job.create i)), ∀ s : State,
      ¬ (x.2 = Job.run s ∨ x.2 = Job.runTransition s) := by
    intro x hx s
    simp only [List.mem_map] at hx
    obtain ⟨i, -, rfl⟩ := hx
    simp
  have hadded : ∀ es ∈ cfg.Subordinates.map (fun c => entitySet.fresh c (some r)),
      es.attributes = some r := by
    intro es hes
    simp only [List.mem_map] at hes
    obtain ⟨c, -, rfl⟩ := hes
    rfl
  unfold createEntity
  simp only [h1]
  cases oe with
  | some err =>
    refine ⟨_, rfl, by simp [Simulation.error, hl], fun i _ hi => hh i hi, hwf1,
      by simp [Simulation.error, he],
      ⟨[], by simp [Simulation.error, hs], by simp⟩, ⟨[], by simp [Simulation.error, hj], by simp⟩⟩
  | none =>
    simp only [subordinates_fold]
    by_cases hI : cfg.InitialState = ""
    · simp only [hI, ne_eq, not_true_eq_false, if_false]
      refine ⟨_, rfl, by simp [hl], fun i _ hi => hh i hi, hwf1, by simp [he],
        ⟨_, by simp only [hs], hadded⟩,
        ⟨(List.range' w1.sets.length cfg.Subordinates.length).map
          (fun i => ((0 : Int), Job.create i)), by simp only [hj], ?_⟩⟩
      intro x hx s hor
      exact absurd hor (hacts x hx s)
    · simp only [ne_eq, hI, not_false_eq_true, if_true]
      cases hf : config.find sim.Config.States cfg.InitialState with
      | none =>
        refine ⟨_, rfl, by simp [Simulation.error, hl], fun i _ hi => hh i hi, hwf1,
          by simp [Simulation.error, he],
          ⟨_, by simp only [Simulation.error, hs], hadded⟩,
          ⟨(List.range' w1.sets.length cfg.Subordinates.length).map
          (fun i => ((0 : Int), Job.create i)), by simp only [Simulation.error, hj], ?_⟩⟩
        intro x hx s hor
        exact absurd hor (hacts x hx s)
      | some stateConfig =>
        refine ⟨_, rfl, by simp [copyAttributes, World.alloc, addJob, hl], ?_, ?_,
          by simp [copyAttributes, World.alloc, addJob, he],
          ⟨_, by simp only [copyAttributes, World.alloc, addJob, hs], hadded⟩,
          ⟨(List.range' w1.sets.length cfg.Subordinates.length).map
              (fun i => ((0 : Int), Job.create i)) ++
            [((0 : Int), Job.run { State := stateConfig, Attributes := some w1.heap.length })],
            by simp only [copyAttributes, World.alloc, addJob, hj, List.append_assoc], ?_⟩⟩
        · intro i hi hne
          simp only [copyAttributes, World.alloc, addJob]
          rw [List.getD_eq_getElem?_getD, List.getElem?_append_left (by omega),
            ← List.getD_eq_getElem?_getD]
          exact hh i hne
        · simp only [copyAttributes, World.alloc, addJob]
          rw [List.getD_eq_getElem?_getD, List.getElem?_append_left (by omega),
            ← List.getD_eq_getElem?_getD]
          exact hwf1
        · intro x hx s hor
          rcases List.mem_append.mp hx with hx | hx
          · exact absurd hor (hacts x hx s)
          · simp only [List.mem_singleton] at hx
            subst hx
            simp only [Job.run.injEq, reduceCtorEq, or_false] at hor
            subst hor
            exact ⟨w1.heap.length, rfl, by omega, by simp [copyAttributes, World.alloc, addJob]⟩

/-- Footprint of the create-one-entity job, and the entity it records: at
most one, created on a new bag that holds a copy of the set's bag. -/
theorem entitySet.createEntity_stepOk (sim : Simulation) (rt : Runtime) (e : Nat) (w w' : World)
    (h : entitySet.createEntity sim rt e w = Except.ok w') :
    World.stepOk none w w' ∧
    ∀ es, w.sets.get? e = some es →
      (es.numberOfCreatedEntities ≥ es.numberOfEntities → w.newEntities w' = []) ∧
      (es.numberOfCreatedEntities < es.numberOfEntities →
        w.newEntities w' = [(es.cfg, some w.heap.length, (w.read es.attributes).copy)]) := by
  unfold entitySet.createEntity at h
  cases hes : w.sets.get? e with
  | none =>
    simp only [hes] at h
    exact absurd h (by simp)
  | some es =>
    simp only [hes] at h
    by_cases hge : es.numberOfCreatedEntities ≥ es.numberOfEntities
    · simp only [hge, if_true, Except.ok.injEq] at h
      subst h
      refine ⟨World.stepOk_refl none w, fun es' hes' => ?_⟩
      rw [Option.some.injEq] at hes'
      subst hes'
      exact ⟨fun _ => World.newEntities_self w, fun hlt => absurd hge (not_le.mpr hlt)⟩
    · simp only [hge, if_false, copyAttributes, World.alloc] at h
      have hread : ∀ sets' : List entitySet,
          World.read { w with sets := sets' } es.attributes = w.read es.attributes :=
        fun _ => rfl
      simp only [hread] at h
      obtain ⟨w3, h3, hlen3, hh3, hwf3, he3, ⟨added, hs3, hadd3⟩, ⟨j3, hj3, hj3'⟩⟩ :=
        createEntity_footprint sim rt es.cfg w.heap.length
          { w with sets := w.sets.set e
                     { es with numberOfCreatedEntities := es.numberOfCreatedEntities + 1 },
                   heap := w.heap ++ [(w.read es.attributes).copy] }
          (by simp) (by simpa [List.getD_eq_getElem?_getD] using Bag.copy_wellFormed _)
      simp only at hlen3 hh3 hs3 hj3 he3
      rw [h3] at h
      simp only at h
      split at h
      · exact absurd h (by simp)
      · rename_i d pos' hd
        simp only [Except.ok.injEq] at h
        subst h
        simp only [List.length_append, List.length_singleton] at hlen3 hh3 hj3'
        constructor
        · refine ⟨by simp only [addJob]; omega, ?_, ⟨added.map (fun es => es.attributes), ?_, ?_⟩,
            ⟨j3 ++ [(d, Job.createEntity e)], by simp [addJob, hj3], ?_⟩⟩
          · intro i hi _
            simp only [addJob]
            rw [hh3 i (by omega) (by omega), List.getD_eq_getElem?_getD,
              List.getElem?_append_left hi, ← List.getD_eq_getElem?_getD]
          · simp only [addJob, hs3, List.map_append]
            rw [sets_set_attributes w.sets e es
              { es with numberOfCreatedEntities := es.numberOfCreatedEntities + 1 } hes rfl]
          · intro a ha
            simp only [List.mem_map] at ha
            obtain ⟨es', hes', rfl⟩ := ha
            refine ⟨w.heap.length, hadd3 es' hes', le_refl _, by simp only [addJob]; omega,
              by simpa [addJob] using hwf3, ?_⟩
            intro x hx s hor
            simp only [addJob, hj3, List.append_assoc, List.drop_left] at hx
            rcases List.mem_append.mp hx with hx | hx
            · obtain ⟨r', hr', hge', -⟩ := hj3' x hx s hor
              rw [hr']
              intro heq
              rw [Option.some.injEq] at heq
              omega
            · simp only [List.mem_singleton] at hx
              subst hx
              simp at hor
          · intro x hx s hor
            rcases List.mem_append.mp hx with hx | hx
            · obtain ⟨r', hr', hge', hlt'⟩ := hj3' x hx s hor
              exact Or.inr ⟨r', hr', by omega, by simp only [addJob]; omega⟩
            · simp only [List.mem_singleton] at hx
              subst hx
              simp at hor
        · intro es' hes'
          rw [Option.some.injEq] at hes'
          subst hes'
          refine ⟨fun hge' => absurd hge' hge, fun _ => ?_⟩
          simp only [World.newEntities, addJob, he3, List.drop_left]
          simp [World.read, List.getD_eq_getElem?_getD]

theorem State.called_heap (s : Sisyphus.State) (call : config.Call) (arg : Bag)
    (res : CallResult) (w : World) (i : Nat) (hi : some i ≠ s.Attributes) :
    (State.called s call arg res w).heap.getD i [] = w.heap.getD i [] := by
  unfold State.called
  cases hA : s.Attributes with
  | none => rfl
  | some r =>
    have hne : r ≠ i := by
      intro h
      rw [hA, h] at hi
      exact hi rfl
    simp [List.getD_eq_getElem?_getD, List.getElem?_set_ne hne]

theorem State.returned_heap (s : Sisyphus.State) (res : CallResult) (w : World) :
    (∀ i, i < w.heap.length → (State.returned s res w).2.heap.getD i [] = w.heap.getD i []) ∧
    ((State.returned s res w).1 = none ∨ (State.returned s res w).1 = s.Attributes ∨
      (State.returned s res w).1 = some w.heap.length) := by
  unfold State.returned
  cases res.ret with
  | nilMap => exact ⟨fun _ _ => rfl, Or.inl rfl⟩
  | sameMap => exact ⟨fun _ _ => rfl, Or.inr (Or.inl rfl)⟩
  | freshMap b =>
    refine ⟨fun i hi => ?_, Or.inr (Or.inr rfl)⟩
    simp only [World.alloc]
    rw [List.getD_eq_getElem?_getD, List.getElem?_append_left hi, ← List.getD_eq_getElem?_getD]

/-- The call step writes no allocated bag other than the bag of the state. -/
theorem State.resolve_heap (sim : Simulation) (s : Sisyphus.State) (t : config.Transition)
    (w w1 : World) (a : Sisyphus.Attributes) (name : String)
    (h : State.resolve sim s t w = Except.ok (a, name, w1)) :
    ∀ i, i < w.heap.length → some i ≠ s.Attributes → w1.heap.getD i [] = w.heap.getD i [] := by
  intro i hi hne
  unfold State.resolve at h
  by_cases hc : isEmptyCall t.Call = true
  · simp only [hc, if_true, Except.ok.injEq, Prod.mk.injEq] at h
    obtain ⟨-, -, rfl⟩ := h
    rfl
  · rw [if_neg hc] at h
    have c1 := State.called_heap s t.Call (w.read s.Attributes)
      (sim.Do w.calls t.Call (w.read s.Attributes)) w i hne
    obtain ⟨-, -, c3⟩ := State.called_frame s t.Call (w.read s.Attributes)
      (sim.Do w.calls t.Call (w.read s.Attributes)) w
    obtain ⟨r1, r2⟩ := State.returned_heap s (sim.Do w.calls t.Call (w.read s.Attributes))
      (State.called s t.Call (w.read s.Attributes) (sim.Do w.calls t.Call (w.read s.Attributes)) w)
    have r1i := r1 i (by omega)
    unfold State.doCall at h
    simp only at h
    cases he : (sim.Do w.calls t.Call (w.read s.Attributes)).err with
    | none =>
      simp only [he, Except.ok.injEq, Prod.mk.injEq] at h
      obtain ⟨-, -, rfl⟩ := h
      rw [r1i, c1]
    | some err =>
      simp only [he] at h
      split at h
      · exact absurd h (by simp)
      · rename_i w4 hw4
        simp only [Except.ok.injEq, Prod.mk.injEq] at h
        obtain ⟨-, -, rfl⟩ := h
        obtain ⟨-, -, -, r, hr, hheap⟩ := World.write_frame _ _ _ _ _ hw4
        have hri : r ≠ i := by
          rcases r2 with h0 | h0 | h0
          · rw [h0] at hr; cases hr
          · rw [h0] at hr
            intro h'
            rw [hr, h'] at hne
            exact hne rfl
          · rw [h0, Option.some.injEq] at hr
            omega
        rw [hheap, List.getD_eq_getElem?_getD, List.getElem?_set_ne hri,
          ← List.getD_eq_getElem?_getD, r1i, c1]

/-- Footprint of the second loop: it writes no allocated bag other than the
bag of the state, leaves the entity sets alone, and every job it schedules is
a state entry on a bag allocated by the loop. -/
theorem State.selectLoop_footprint (sim : Simulation) (s : Sisyphus.State)
    (ts : List config.Transition) :
    ∀ (r : ℚ) (w w' : World), State.selectLoop sim s ts r w = Except.ok w' →
      w.heap.length ≤ w'.heap.length ∧
      (∀ i, i < w.heap.length → some i ≠ s.Attributes →
        w'.heap.getD i [] = w.heap.getD i []) ∧
      w'.sets = w.sets ∧
      ∃ j, w'.jobs = w.jobs ++ j ∧ ∀ x ∈ j, ∀ s' : Sisyphus.State,
        (x.2 = Job.run s' ∨ x.2 = Job.runTransition s') →
          ∃ r', s'.Attributes = some r' ∧ w.heap.length ≤ r' ∧ r' < w'.heap.length := by
  induction ts with
  | nil =>
    intro r w w' h
    simp only [State.selectLoop, Except.ok.injEq] at h
    subst h
    exact ⟨le_refl _, fun _ _ _ => rfl, rfl, [], by simp, by simp⟩
  | cons t rest ih =>
    intro r w w' h
    by_cases hr : r - t.Probability ≤ 0
    · simp only [State.selectLoop, hr, if_true] at h
      cases hres : State.resolve sim s t w with
      | error p => simp [hres] at h
      | ok x =>
        obtain ⟨a, name, w1⟩ := x
        obtain ⟨⟨f1, f2, -, -, -, -⟩, fh, -, -⟩ := State.resolve_frame sim s t w w1 a name hres
        have fheap := State.resolve_heap sim s t w w1 a name hres
        simp only [hres] at h
        cases hf : config.find sim.Config.States name with
        | none =>
          simp only [hf, Except.ok.injEq] at h
          subst h
          exact ⟨by simpa [Simulation.error] using fh, fun i hi hne => fheap i hi hne,
            by simp [Simulation.error, f1], [], by simp [Simulation.error, f2], by simp⟩
        | some cfg =>
          simp only [hf] at h
          obtain ⟨hl, hh, hs, j, hj, hj'⟩ := ih _ _ _ h
          simp only [copyAttributes, World.alloc, addJob, List.length_append,
            List.length_singleton] at hl hh hs hj hj'
          refine ⟨by omega, ?_, by rw [hs, f1],
            ((0 : Int), Job.run { State := cfg, Attributes := some w1.heap.length }) :: j,
            by rw [hj, f2]; simp, ?_⟩
          · intro i hi hne
            rw [hh i (by omega) hne, List.getD_eq_getElem?_getD,
              List.getElem?_append_left (by omega), ← List.getD_eq_getElem?_getD]
            exact fheap i hi hne
          · intro x hx s' hor
            rcases List.mem_cons.mp hx with rfl | hx
            · simp only [Job.run.injEq, reduceCtorEq, or_false] at hor
              subst hor
              exact ⟨w1.heap.length, rfl, fh, by omega⟩
            · obtain ⟨r', h1, h2, h3⟩ := hj' x hx s' hor
              exact ⟨r', h1, by omega, h3⟩
    · simp only [State.selectLoop, hr, if_false] at h
      exact ih _ _ _ h

/-- Footprint of state entry. -/
theorem State.run_stepOk (rt : Runtime) (s : Sisyphus.State) (w w' : World) (r : Nat)
    (hA : s.Attributes = some r) (h : State.run rt s w = Except.ok w') :
    World.stepOk (some r) w w' := by
  unfold State.run at h
  by_cases h0 : s.State.Transitions.length = 0
  · simp only [h0, if_true, Except.ok.injEq] at h
    subst h
    exact World.stepOk_refl _ w
  · simp only [h0, if_false] at h
    split at h
    · exact absurd h (by simp)
    · rename_i d pos' hd
      simp only [Except.ok.injEq] at h
      subst h
      refine ⟨le_refl _, fun _ _ _ => rfl, ⟨[], by simp [addJob], by simp⟩,
        ⟨[(d, Job.runTransition s)], rfl, ?_⟩⟩
      intro x hx s' hor
      simp only [List.mem_singleton] at hx
      subst hx
      simp only [reduceCtorEq, Job.runTransition.injEq, false_or] at hor
      subst hor
      exact Or.inl ⟨r, hA, rfl⟩

/-- Footprint of transition evaluation. -/
theorem State.runTransition_stepOk (sim : Simulation) (rt : Runtime) (s : Sisyphus.State)
    (w w' : World) (r : Nat) (hA : s.Attributes = some r)
    (h : State.runTransition sim rt s w = Except.ok w') : World.stepOk (some r) w w' := by
  obtain ⟨oe, w1, h1, hs, hj, -, -, -, -, hl, hh⟩ := sampleInto_some rt r s.State.Attributes w
  have hgen : State.generateAttributes rt s w = Except.ok (oe, w1) := by
    simp only [State.generateAttributes, hA, h1]
  have herr : ∀ err, World.stepOk (some r) w (Simulation.error w1 err) := by
    intro err
    refine ⟨by simp [Simulation.error, hl], ?_, ⟨[], by simp [Simulation.error, hs], by simp⟩,
      ⟨[], by simp [Simulation.error, hj], by simp⟩⟩
    intro i _ hne
    exact hh i (fun h' => hne (by rw [h']))
  unfold State.runTransition at h
  simp only [hgen] at h
  cases oe with
  | some err =>
    simp only [Except.ok.injEq] at h
    subst h
    exact herr err
  | none =>
    simp only at h
    cases hsum : State.sumLoop s.State.Transitions 0 with
    | error err =>
      simp only [hsum, Except.ok.injEq] at h
      subst h
      exact herr err
    | ok sum =>
      simp only [hsum] at h
      by_cases hz : sum = 0
      · simp only [hz, if_true, Except.ok.injEq] at h
        subst h
        exact herr _
      · simp only [hz, if_false] at h
        obtain ⟨gl, gh, gs, j, gj, gj'⟩ := State.selectLoop_footprint sim s _ _ _ _ h
        simp only at gl gh gs gj gj'
        refine ⟨by omega, ?_, ⟨[], by simp [gs, hs], by simp⟩, ⟨j, by rw [gj, hj], ?_⟩⟩
        · intro i hi hne
          rw [gh i (by omega) (by rw [hA]; exact hne)]
          exact hh i (fun h' => hne (by rw [h']))
        · intro x hx s' hor
          obtain ⟨r', h1', h2', h3'⟩ := gj' x hx s' hor
          exact Or.inr ⟨r', h1', by omega, h3'⟩

/-- Footprint of any job whose state, if it has one, holds an allocated bag. -/
theorem Job.exec_stepOk (sim : Simulation) (rt : Runtime) (job : Job) (w w' : World)
    (hown : ∀ s : State, (job = Job.run s ∨ job = Job.runTransition s) →
      ∃ r, s.Attributes = some r)
    (h : job.exec sim rt w = Except.ok w') : World.stepOk job.own w w' := by
  cases job with
  | create e => exact entitySet.create_stepOk sim rt e w w' h
  | createEntity e => exact (entitySet.createEntity_stepOk sim rt e w w' h).1
  | run s =>
    obtain ⟨r, hr⟩ := hown s (Or.inl rfl)
    simp only [Job.own, hr]
    exact State.run_stepOk rt s w w' r hr h
  | runTransition s =>
    obtain ⟨r, hr⟩ := hown s (Or.inr rfl)
    simp only [Job.own, hr]
    exact State.runTransition_stepOk sim rt s w w' r hr h

/-! ### The bag of an entity set over a run -/

/-- A step with the footprint of a job, by a job whose own bag is allocated
and is not the bag of an entity set, keeps the world well-formed, keeps the
bag each entity set holds, and keeps the contents of that bag. -/
theorem World.wellFormed_step (own : Attributes) (w w' : World) (hwf : w.wellFormed)
    (hstep : World.stepOk own w w')
    (hown : ∀ r, own = some r → r < w.heap.length ∧ ∀ es ∈ w.sets, es.attributes ≠ some r) :
    w'.wellFormed ∧
    ∀ e es, w.sets.get? e = some es →
      (∃ es', w'.sets.get? e = some es' ∧ es'.attributes = es.attributes) ∧
      w'.read es.attributes = w.read es.attributes := by
  obtain ⟨hl, hh, ⟨added, hsets, hadded⟩, ⟨j, hjobs, hj⟩⟩ := hstep
  obtain ⟨ha, hb⟩ := hwf
  have F1 : ∀ es' ∈ w'.sets, (∃ es ∈ w.sets, es.attributes = es'.attributes) ∨
      es'.attributes ∈ added := by
    intro es' hes'
    have : es'.attributes ∈ w'.sets.map (fun es => es.attributes) :=
      List.mem_map.mpr ⟨es', hes', rfl⟩
    rw [hsets, List.mem_append] at this
    rcases this with h | h
    · obtain ⟨es, h1, h2⟩ := List.mem_map.mp h
      exact Or.inl ⟨es, h1, h2⟩
    · exact Or.inr h
  have F2 : ∀ es ∈ w.sets, ∃ r, es.attributes = some r ∧ r < w.heap.length ∧
      Bag.wellFormed (w.heap.getD r []) ∧ w'.heap.getD r [] = w.heap.getD r [] := by
    intro es hes
    obtain ⟨r, h1, h2, h3⟩ := ha es hes
    refine ⟨r, h1, h2, h3, hh r h2 ?_⟩
    intro heq
    exact (hown r heq.symm).2 es hes h1
  have F3 : ∀ r, r < w.heap.length → (∀ es ∈ w.sets, es.attributes ≠ some r) →
      ∀ es' ∈ w'.sets, es'.attributes ≠ some r := by
    intro r hr hne es' hes' heq
    rcases F1 es' hes' with ⟨es, h1, h2⟩ | h
    · exact hne es h1 (h2.trans heq)
    · obtain ⟨ra, h1, h2, -⟩ := hadded _ h
      rw [heq, Option.some.injEq] at h1
      omega
  refine ⟨⟨?_, ?_⟩, ?_⟩
  · intro es' hes'
    rcases F1 es' hes' with ⟨es, h1, h2⟩ | h
    · obtain ⟨r, g1, g2, g3, g4⟩ := F2 es h1
      exact ⟨r, h2 ▸ g1, by omega, by rw [g4]; exact g3⟩
    · obtain ⟨ra, h1, -, h3, h4, -⟩ := hadded _ h
      exact ⟨ra, h1, h3, h4⟩
  · intro x hx s hor
    rw [hjobs, List.mem_append] at hx
    rcases hx with hx | hx
    · obtain ⟨r, h1, h2, h3⟩ := hb x hx s hor
      exact ⟨r, h1, by omega, F3 r h2 h3⟩
    · rcases hj x hx s hor with ⟨r, h1, h2⟩ | ⟨r, h1, h2, h3⟩
      · obtain ⟨g1, g2⟩ := hown r h2
        exact ⟨r, h1, by omega, F3 r g1 g2⟩
      · refine ⟨r, h1, h3, ?_⟩
        intro es' hes' heq
        rcases F1 es' hes' with ⟨es, g1, g2⟩ | h
        · obtain ⟨r0, k1, k2, -⟩ := ha es g1
          rw [g2, heq, Option.some.injEq] at k1
          omega
        · obtain ⟨ra, k1, -, -, -, k5⟩ := hadded _ h
          have hx' : x ∈ w'.jobs.drop w.jobs.length := by
            rw [hjobs, List.drop_left]; exact hx
          have := k5 x hx' s hor
          rw [heq] at k1
          rw [h1, k1] at this
          exact this rfl
  · intro e es hes
    have hmem : es ∈ w.sets := List.get?_mem hes
    obtain ⟨r, g1, g2, -, g4⟩ := F2 es hmem
    constructor
    · have hlen : e < w.sets.length := by
        rw [List.get?_eq_getElem?] at hes
        exact (List.getElem?_eq_some_iff.mp hes).1
      have h1 : (w'.sets.map (fun es => es.attributes)).get? e = some es.attributes := by
        rw [hsets, List.get?_eq_getElem?, List.getElem?_append_left (by simpa using hlen),
          List.getElem?_map, ← List.get?_eq_getElem?, hes]
        rfl
      rw [List.get?_eq_getElem?, List.getElem?_map] at h1
      cases hg : w'.sets[e]? with
      | none => rw [hg] at h1; simp at h1
      | some es' =>
        rw [hg] at h1
        simp only [Option.map_some', Option.some.injEq] at h1
        exact ⟨es', by rw [List.get?_eq_getElem?]; exact hg, h1⟩
    · rw [g1]
      exact g4

/-- One scheduled job run from a well-formed world. -/
theorem Job.exec_wellFormed (sim : Simulation) (rt : Runtime) (d : Int) (job : Job)
    (w w' : World) (hwf : w.wellFormed) (hmem : (d, job) ∈ w.jobs)
    (h : job.exec sim rt w = Except.ok w') :
    w'.wellFormed ∧
    ∀ e es, w.sets.get? e = some es →
      (∃ es', w'.sets.get? e = some es' ∧ es'.attributes = es.attributes) ∧
      w'.read es.attributes = w.read es.attributes := by
  have hstate : ∀ s : State, (job = Job.run s ∨ job = Job.runTransition s) →
      ∃ r, s.Attributes = some r ∧ r < w.heap.length ∧ ∀ es ∈ w.sets, es.attributes ≠ some r :=
    fun s hor => hwf.2 (d, job) hmem s hor
  refine World.wellFormed_step job.own w w' hwf
    (Job.exec_stepOk sim rt job w w' (fun s hor => (hstate s hor).imp fun _ h => h.1) h) ?_
  intro r hr
  cases job with
  | create e => simp [Job.own] at hr
  | createEntity e => simp [Job.own] at hr
  | run s =>
    obtain ⟨r', h1, h2, h3⟩ := hstate s (Or.inl rfl)
    simp only [Job.own, h1, Option.some.injEq] at hr
    subst hr
    exact ⟨h2, h3⟩
  | runTransition s =>
    obtain ⟨r', h1, h2, h3⟩ := hstate s (Or.inr rfl)
    simp only [Job.own, h1, Option.some.injEq] at hr
    subst hr
    exact ⟨h2, h3⟩

/-- Whatever scheduled jobs run, in whatever order, a well-formed world stays
well-formed, and every entity set keeps its bag with its contents. -/
theorem runSchedule_wellFormed (sim : Simulation) (rt : Runtime) (sched : List Nat) :
    ∀ (w w' : World), w.wellFormed → runSchedule sim rt sched w = Except.ok w' →
      w'.wellFormed ∧
      ∀ e es, w.sets.get? e = some es →
        (∃ es', w'.sets.get? e = some es' ∧ es'.attributes = es.attributes) ∧
        w'.read es.attributes = w.read es.attributes := by
  induction sched with
  | nil =>
    intro w w' hwf h
    simp only [runSchedule, Except.ok.injEq] at h
    subst h
    exact ⟨hwf, fun e es hes => ⟨⟨es, hes, rfl⟩, rfl⟩⟩
  | cons k ks ih =>
    intro w w' hwf h
    unfold runSchedule at h
    cases hk : w.jobs.get? k with
    | none =>
      simp only [hk] at h
      exact ih w w' hwf h
    | some dj =>
      obtain ⟨d, job⟩ := dj
      simp only [hk] at h
      cases hex : job.exec sim rt w with
      | error p => simp [hex] at h
      | ok w1 =>
        simp only [hex] at h
        obtain ⟨hwf1, hfr1⟩ := Job.exec_wellFormed sim rt d job w w1 hwf (List.get?_mem hk) hex
        obtain ⟨hwf', hfr'⟩ := ih w1 w' hwf1 h
        refine ⟨hwf', fun e es hes => ?_⟩
        obtain ⟨⟨es1, h1, h2⟩, h3⟩ := hfr1 e es hes
        obtain ⟨⟨es', g1, g2⟩, g3⟩ := hfr' e es1 h1
        exact ⟨⟨es', g1, g2.trans h2⟩, by rw [← h3, ← h2]; exact g3⟩

/-- The world `New` builds is well-formed: each root entity set holds its own
copy of the constants. -/
theorem New_wellFormed (sim : Simulation) : (New sim).wellFormed := by
  unfold New
  have key : ∀ (l : List config.EntitySet) (w : World), w.wellFormed → 0 < w.heap.length →
      (l.foldl (fun w esConfig => newEntitySet (copyAttributes w (some 0)).2 esConfig
        (copyAttributes w (some 0)).1) w).wellFormed := by
    intro l
    induction l with
    | nil => intro w hwf _; exact hwf
    | cons c rest ih =>
      intro w hwf hpos
      rw [List.foldl_cons]
      refine ih _ ?_ (by simp [newEntitySet, addJob, copyAttributes, World.alloc])
      refine (World.wellFormed_step none w _ hwf ?_ (by simp)).1
      refine ⟨by simp [newEntitySet, addJob, copyAttributes, World.alloc], ?_,
        ⟨[some w.heap.length], by simp [newEntitySet, addJob, copyAttributes, World.alloc,
          entitySet.fresh], ?_⟩,
        ⟨[(0, Job.create w.sets.length)],
          by simp [newEntitySet, addJob, copyAttributes, World.alloc], by simp⟩⟩
      · intro i hi _
        simp only [newEntitySet, addJob, copyAttributes, World.alloc]
        rw [List.getD_eq_getElem?_getD, List.getElem?_append_left hi,
          ← List.getD_eq_getElem?_getD]
      · intro a ha
        simp only [List.mem_singleton] at ha
        subst ha
        refine ⟨w.heap.length, rfl, le_refl _,
          by simp [newEntitySet, addJob, copyAttributes, World.alloc], ?_, ?_⟩
        · simpa [newEntitySet, addJob, copyAttributes, World.alloc, List.getD_eq_getElem?_getD]
            using Bag.copy_wellFormed _
        · intro x hx s hor
          simp only [newEntitySet, addJob, copyAttributes, World.alloc, List.drop_left,
            List.mem_singleton] at hx
          subst hx
          simp at hor
  exact key _ _ ⟨by simp [World.init], by simp [World.init]⟩ (by simp)

/-- C10: the world `New` builds is well-formed, and from any well-formed world
`w` in which the entity set `e` holds the bag `es.attributes` (for one, the
world of its activation): whatever scheduled jobs run in between, in whatever
order, and through the run of the set's create-one-entity job itself, the
contents of the set's bag stay what they were in `w`; and the entity that a
run of that job creates starts from a new bag whose contents, before its
attributes are sampled, are exactly those of the set's bag in `w` (so nothing
sampled for an earlier entity is in it). -/
theorem createEntity_starts_from_activation_bag (sim : Simulation) (rt : Runtime)
    (sched : List Nat) (w w' w'' : World) (e : Nat) (es : entitySet)
    (hwf : w.wellFormed) (hes : w.sets.get? e = some es)
    (hrun : runSchedule sim rt sched w = Except.ok w')
    (hjob : entitySet.createEntity sim rt e w' = Except.ok w'') :
    (New sim).wellFormed ∧ w'.wellFormed ∧
    w'.read es.attributes = w.read es.attributes ∧
    w''.read es.attributes = w.read es.attributes ∧
    ∃ es', w'.sets.get? e = some es' ∧ es'.attributes = es.attributes ∧
      (es'.numberOfCreatedEntities ≥ es'.numberOfEntities → w'.newEntities w'' = []) ∧
      (es'.numberOfCreatedEntities < es'.numberOfEntities →
        w'.newEntities w'' = [(es'.cfg, some w'.heap.length, w.read es.attributes)]) := by
  obtain ⟨hwf', hfr⟩ := runSchedule_wellFormed sim rt sched w w' hwf hrun
  obtain ⟨⟨es', h1, h2⟩, h3⟩ := hfr e es hes
  obtain ⟨hstep, hent⟩ := entitySet.createEntity_stepOk sim rt e w' w'' hjob
  obtain ⟨-, hfr''⟩ := World.wellFormed_step none w' w'' hwf' hstep (by simp)
  obtain ⟨-, h4⟩ := hfr'' e es' h1
  obtain ⟨r, g1, -, g3⟩ := hwf.1 es (List.get?_mem hes)
  have hcopy : (w.read es.attributes).copy = w.read es.attributes := by
    apply Bag.copy_of_wellFormed
    rw [g1]
    exact g3
  refine ⟨New_wellFormed sim, hwf', h3, ?_, es', h1, h2, (hent es' h1).1, ?_⟩
  · rw [← h3, ← h2]; exact h4
  · intro hlt
    rw [(hent es' h1).2 hlt, h2, h3, hcopy]

/-- Witness for C10: the root entity set of `simRoot` is activated and creates
its first entity (which samples `name`); the second entity starts from the
constants alone. -/
theorem createEntity_starts_from_activation_bag_witness :
    runSchedule Examples.simRoot Examples.rt [0, 1] (New Examples.simRoot)
        = Except.ok Examples.afterFirst ∧
      entitySet.createEntity Examples.simRoot Examples.rt 0 Examples.afterFirst
        = Except.ok Examples.afterSecond ∧
      Examples.afterFirst.read (some 2) = [("region", Val.str "eu"), ("name", Val.str "ann")] ∧
      Examples.afterFirst.newEntities Examples.afterSecond
        = [(Examples.named, some 3, [("region", Val.str "eu")])] := by
  have hrun : runSchedule Examples.simRoot Examples.rt [0, 1] (New Examples.simRoot)
      = Except.ok Examples.afterFirst := rfl
  have hjob : entitySet.createEntity Examples.simRoot Examples.rt 0 Examples.afterFirst
      = Except.ok Examples.afterSecond := rfl
  obtain ⟨-, -, -, -, es', h1, -, -, h4⟩ :=
    createEntity_starts_from_activation_bag Examples.simRoot Examples.rt [0, 1]
      (New Examples.simRoot) Examples.afterFirst Examples.afterSecond 0
      (entitySet.fresh { Entity := "user", Cardinality := "2", Timer := Examples.noTimer }
        (some 1))
      (New_wellFormed _) rfl hrun hjob
  have hes' : es' = { EntitySet := { Entity := "user", Cardinality := "2",
                                     Timer := Examples.noTimer },
                      attributes := some 1, cfg := Examples.named,
                      numberOfEntities := 2, numberOfCreatedEntities := 1 } :=
    Option.some.inj (h1.symm.trans rfl)
  subst hes'
  exact ⟨hrun, hjob, rfl, h4 (by decide)⟩

/-! ### Random integers -/

theorem Runtime.Float64_range (rt : Runtime) (pos : Nat) :
    0 ≤ rt.Float64 pos ∧ rt.Float64 pos < 1 :=
  ⟨Int.fract_nonneg _, Int.fract_lt_one _⟩

/-- Every value of `[0,1)` is the draw of some random source. -/
theorem Runtime.Float64_surjective (pos : Nat) (U : ℚ) (h0 : 0 ≤ U) (h1 : U < 1) :
    ∃ rt : Runtime, rt.Float64 pos = U :=
  ⟨{ ints := fun _ => 0, floats := fun _ => U, norms := fun _ => 0,
     uuids := fun _ => Except.ok "", pow := fun _ _ => 0 },
   Int.fract_eq_self.mpr ⟨h0, h1⟩⟩

/-! ### Random subsets -/

/-- C12 (the code at the failing input): over the list a, b, c and the
integer draws 1, 0, 2, 1, 0 the first size value drawn is 1, yet the loop
tests its bound against a new draw each time round and makes two position
draws (positions 0 and 1): `Sample` returns the two elements a, b and has
consumed five draws, where one size draw followed by one position draw gives
the single element a. -/
theorem Sample_subset_redraws_bound :
    Examples.rtRedraw.Intn 0 Examples.pickSome.Values.length = 1 ∧
    AttributeDistribution.Sample Examples.rtRedraw Examples.pickSome 0 =
      ((Val.list [Val.str "a", Val.str "b"], none), 5) ∧
    AttributeDistribution.subsetDrawnOnce Examples.rtRedraw Examples.pickSome.Values 0 =
      [Val.str "a"] := by
  refine ⟨rfl, ?_, ?_⟩
  · rfl
  · rfl

/-- What the random-subset loop keeps true: the marked positions are distinct
positions of the list, and there are at most `len - 1` of them. -/
theorem AttributeDistribution.subsetLoop_invariant (rt : Runtime) (len : Nat) (hlen : 0 < len) :
    ∀ (fuel i pos : Nat) (marked : List Nat) (res : List Nat × Nat),
      AttributeDistribution.subsetLoop rt len fuel i pos marked = some res →
      marked.Nodup → (∀ k ∈ marked, k < len) → marked.length ≤ i → i ≤ len - 1 →
      res.1.Nodup ∧ (∀ k ∈ res.1, k < len) ∧ res.1.length ≤ len - 1 := by
  intro fuel
  induction fuel with
  | zero =>
    intro i pos marked res h hnd hall hl hi
    by_cases hc : i < rt.Intn pos len
    · simp [AttributeDistribution.subsetLoop, hc] at h
    · simp only [AttributeDistribution.subsetLoop, hc, if_false, Option.some.injEq] at h
      subst h
      exact ⟨hnd, hall, by simp only; omega⟩
  | succ fuel ih =>
    intro i pos marked res h hnd hall hl hi
    by_cases hc : i < rt.Intn pos len
    · simp only [AttributeDistribution.subsetLoop, hc, if_true] at h
      have hb := Runtime.Intn_lt rt pos len hlen
      have hk := Runtime.Intn_lt rt (pos + 1) len hlen
      refine ih (i + 1) (pos + 2) _ res h ?_ ?_ ?_ (by omega)
      · by_cases hm : rt.Intn (pos + 1) len ∈ marked
        · simp only [hm, if_true]; exact hnd
        · simp only [hm, if_false]
          rw [List.nodup_append]
          refine ⟨hnd, by simp, ?_⟩
          intro x hx hx'
          simp only [List.mem_singleton] at hx'
          exact hm (hx' ▸ hx)
      · intro k hk'
        by_cases hm : rt.Intn (pos + 1) len ∈ marked
        · simp only [hm, if_true] at hk'; exact hall k hk'
        · simp only [hm, if_false, List.mem_append, List.mem_singleton] at hk'
          rcases hk' with hk' | rfl
          · exact hall k hk'
          · exact hk
      · by_cases hm : rt.Intn (pos + 1) len ∈ marked
        · simp only [hm, if_true]; omega
        · simp only [hm, if_false, List.length_append, List.length_singleton]; omega
    · simp only [AttributeDistribution.subsetLoop, hc, if_false, Option.some.injEq] at h
      subst h
      exact ⟨hnd, hall, by simp only; omega⟩

/-- C18: for the random-subset kind over a non-empty list and every random
source, the loop ends and `Sample` returns, without error, the elements at the
marked positions; the marked positions are pairwise distinct positions of the
list and there are at most `len - 1` of them, so the result has at most
`len - 1` elements, is the empty list for a single-element list, and is never
the full list. -/
theorem Sample_subset_bounds (rt : Runtime) (a : config.Attribute) (pos : Nat)
    (hk : a.Kind = config.AttributeType.RandomSubset) (hne : a.Values ≠ []) :
    ∃ marked pos' result,
      AttributeDistribution.subsetLoop rt a.Values.length a.Values.length 0 pos []
        = some (marked, pos') ∧
      AttributeDistribution.Sample rt a pos = ((Val.list result, none), pos') ∧
      result = marked.map (fun k => a.Values.getD k Val.nil) ∧
      marked.Nodup ∧ (∀ k ∈ marked, k < a.Values.length) ∧
      (∀ k ∈ marked, a.Values.get? k = some (a.Values.getD k Val.nil)) ∧
      result.length ≤ a.Values.length - 1 ∧
      (a.Values.length = 1 → result = []) ∧
      result ≠ a.Values := by
  have hlen : 0 < a.Values.length := List.length_pos.mpr hne
  obtain ⟨⟨marked, pos'⟩, hres⟩ := AttributeDistribution.subsetLoop_terminates rt
    a.Values.length hlen a.Values.length 0 pos [] (by omega)
  obtain ⟨h1, h2, h3⟩ := AttributeDistribution.subsetLoop_invariant rt a.Values.length hlen
    a.Values.length 0 pos [] (marked, pos') hres (by simp) (by simp) (by simp) (by omega)
  simp only at h1 h2 h3
  refine ⟨marked, pos', marked.map (fun k => a.Values.getD k Val.nil), hres, ?_, rfl, h1, h2,
    ?_, by simpa using h3, ?_, ?_⟩
  · simp only [AttributeDistribution.Sample, hk, Nat.ne_of_gt hlen, if_false, hres]
  · intro k hk'
    have := h2 k hk'
    rw [List.get?_eq_getElem?, List.getD_eq_getElem?_getD, List.getElem?_eq_getElem this]
    rfl
  · intro h1len
    have : marked.length = 0 := by omega
    rw [List.length_eq_zero] at this
    rw [this]
    rfl
  · intro heq
    have := congrArg List.length heq
    simp only [List.length_map] at this
    omega

/-- Witness for C18: the list a, b, c with the draws 1, 0, 2, 1, 0. -/
theorem Sample_subset_bounds_witness :
    ∃ marked pos' result,
      AttributeDistribution.subsetLoop Examples.rtRedraw 3 3 0 0 [] = some (marked, pos') ∧
      AttributeDistribution.Sample Examples.rtRedraw Examples.pickSome 0
        = ((Val.list result, none), pos') ∧
      result.length ≤ 2 ∧ result ≠ Examples.pickSome.Values := by
  obtain ⟨marked, pos', result, h1, h2, -, -, -, -, h3, -, h4⟩ :=
    Sample_subset_bounds Examples.rtRedraw Examples.pickSome 0 rfl (by simp [Examples.pickSome])
  exact ⟨marked, pos', result, h1, h2, h3, h4⟩

/-! ### Empty calls -/

/-- The loop body at a taken transition with an empty call and a configured
target: no call is made, and the entry of the target is scheduled on a new bag
with the contents of the state's bag. -/
theorem State.selectLoop_empty_call (sim : Simulation) (s : Sisyphus.State)
    (t : config.Transition) (rest : List config.Transition) (r : ℚ) (w : World)
    (cfg : config.State) (hr : r - t.Probability ≤ 0) (hc : isEmptyCall t.Call = true)
    (hf : config.find sim.Config.States t.State = some cfg)
    (hwf : Bag.wellFormed (w.read s.Attributes)) :
    State.selectLoop sim s (t :: rest) r w =
      State.selectLoop sim s rest (r - t.Probability)
        { w with heap := w.heap ++ [w.read s.Attributes],
                 jobs := w.jobs ++ [(0, Job.run { State := cfg,
                                                  Attributes := some w.heap.length })] } := by
  simp only [State.selectLoop, hr, if_true, State.resolve, hc, hf, copyAttributes,
    World.alloc, addJob, Bag.copy_of_wellFormed _ hwf]

/-- The function `isEmptyCall` holds exactly of the calls whose method and URL
are empty strings and whose parameter and result lists are empty.  At a taken
transition with an empty call the call step makes no call and yields the
state's own bag and the configured target, leaving the world as it is; the
loop then schedules the target's entry on a new bag whose contents are those
of the state's bag, and goes on with the transitions behind it. -/
theorem isEmptyCall_skips_backend :
    (∀ c : config.Call, isEmptyCall c = true ↔
      c.Method = "" ∧ c.URL = "" ∧ c.Parameters = [] ∧ c.Results = []) ∧
    (∀ (sim : Simulation) (s : State) (t : config.Transition) (w : World),
      isEmptyCall t.Call = true →
      State.resolve sim s t w = Except.ok (s.Attributes, t.State, w)) ∧
    (∀ (sim : Simulation) (s : State) (t : config.Transition)
        (rest : List config.Transition) (r : ℚ) (w : World) (cfg : config.State),
      r - t.Probability ≤ 0 → isEmptyCall t.Call = true →
      config.find sim.Config.States t.State = some cfg →
      Bag.wellFormed (w.read s.Attributes) →
      State.selectLoop sim s (t :: rest) r w =
        State.selectLoop sim s rest (r - t.Probability)
          { w with heap := w.heap ++ [w.read s.Attributes],
                   jobs := w.jobs ++ [(0, Job.run { State := cfg,
                                                    Attributes := some w.heap.length })] }) ∧
    (∀ (sim : Simulation) (rt : Runtime) (s : State) (w w1 : World) (i : Nat)
        (t : config.Transition) (cfg : config.State),
      State.generateAttributes rt s w = Except.ok (none, w1) →
      (∀ t ∈ s.State.Transitions, 0 ≤ t.Probability) →
      State.psum s.State.Transitions s.State.Transitions.length ≠ 0 →
      State.firstSelected s.State.Transitions
        (State.psum s.State.Transitions s.State.Transitions.length * rt.Float64 w1.pos)
          = some i →
      s.State.Transitions.get? i = some t → isEmptyCall t.Call = true →
      config.find sim.Config.States t.State = some cfg →
      Bag.wellFormed (w1.read s.Attributes) →
      ∃ w2 : World,
        State.runTransition sim rt s w =
          State.selectLoop sim s (s.State.Transitions.drop (i + 1))
            (State.psum s.State.Transitions s.State.Transitions.length * rt.Float64 w1.pos
              - State.psum s.State.Transitions (i + 1)) w2 ∧
        w2.calls = w.calls ∧ w2.errors = w.errors ∧
        w2.jobs = w.jobs ++ [(0, Job.run { State := cfg, Attributes := some w1.heap.length })] ∧
        w2.read (some w1.heap.length) = w1.read s.Attributes) := by
  refine ⟨?_, ?_, ?_, ?_⟩
  · intro c
    simp [isEmptyCall, List.length_eq_zero]
    tauto
  · intro sim s t w hc
    simp only [State.resolve, hc, if_true]
  · intro sim s t rest r w cfg hr hc hf hwf
    exact State.selectLoop_empty_call sim s t rest r w cfg hr hc hf hwf
  · intro sim rt s w w1 i t cfg hgen hnn hS hfs hget hc hf hwf
    obtain ⟨-, hj, hcl, -, her, -, -⟩ :=
      sampleInto_frame rt s.Attributes s.State.Attributes w w1 none hgen
    refine ⟨{ w1 with pos := w1.pos + 1, heap := w1.heap ++ [w1.read s.Attributes],
                      jobs := w1.jobs ++ [(0, Job.run { State := cfg,
                                                        Attributes := some w1.heap.length })] },
      ?_, hcl, her, by rw [← hj], ?_⟩
    · rw [State.runTransition_valid sim rt s w w1 hgen hnn hS,
        State.selectLoop_first sim s _ _ _ i t hfs hget]
      have hwf' : Bag.wellFormed (World.read { w1 with pos := w1.pos + 1 } s.Attributes) := hwf
      simp only [State.resolve, hc, if_true, State.enter, hf, copyAttributes, World.alloc,
        addJob, Bag.copy_of_wellFormed _ hwf']
      rfl
    · simp [World.read, List.getD_eq_getElem?_getD]

/-- C13 (the code at the failing input): the state has two transitions of
weight 1, the first to `left` with an empty call, the second to `right` with a
call; the draw is U = 1/4.  The transition selected, the first at which the
running value is at most 0, is the one to `left`, whose call is empty; yet
transition evaluation goes on to the second transition, invokes the backend
once with its call, and schedules two state entries. -/
theorem runTransition_calls_backend_after_empty_call :
    Examples.forkCalling.Transitions.map (fun t => isEmptyCall t.Call) = [true, false] ∧
    State.firstSelected Examples.forkCalling.Transitions
        (2 * Examples.rtQuarter.Float64 Examples.worldOneBag.pos) = some 0 ∧
    State.runTransition Examples.simFork Examples.rtQuarter
        { State := Examples.forkCalling, Attributes := some 0 } Examples.worldOneBag =
      Except.ok { Examples.worldOneBag with
        heap := [[], [], []], pos := 1,
        calls := [(Examples.getCall, [])],
        jobs := [(0, Job.run { State := Examples.terminal, Attributes := some 1 }),
                 (0, Job.run { State := Examples.terminal, Attributes := some 2 })] } := by
  refine ⟨by decide, ?_, ?_⟩
  · norm_num [State.firstSelected, Examples.forkCalling, Examples.float64_quarter]
  · simp [State.runTransition, State.generateAttributes, sampleInto, Examples.forkCalling,
      State.sumLoop, State.selectLoop, State.resolve, State.doCall, State.called,
      State.returned, Examples.float64_quarter, isEmptyCall, Examples.noCall,
      Examples.getCall, config.find, Examples.simFork, Examples.echo]
    norm_num
    rfl

/-! ### State entry -/

/-- C14 as stated fails: the state has two transitions and a random dwell
timer with the bounds 5 and 5; state entry calls `newDelay`, which panics in
`rand.Int63n(0)`, so no job is scheduled. -/
theorem State_run_panics_on_empty_timer_range :
    Examples.forkStuck.Transitions.length = 2 ∧
    State.run Examples.rt { State := Examples.forkStuck, Attributes := some 0 }
        Examples.worldOneBag = Except.error "invalid argument to Int63n" := by
  constructor <;> rfl

/-- C14, amended: state entry on a state without transitions returns at once:
it schedules no job, draws nothing from the random source and signals no error
(the world is unchanged).  On a state with at least one transition, whose
dwell timer yields a delay (any timer but a random one with
`int64(Max - Min) ≤ 0`), it schedules exactly one job, the transition
evaluation of this state, delayed by what `newDelay` yields for the dwell
timer, and signals no error.  On a state with at least one transition whose
dwell timer is a random one with `int64(Max - Min) ≤ 0`, it panics. -/
theorem State_run_schedules_one_evaluation (rt : Runtime) (s : State) (w : World) :
    (s.State.Transitions = [] → State.run rt s w = Except.ok w) ∧
    (s.State.Transitions ≠ [] → s.State.Timer.wellFormed →
      ∃ d pos' w', newDelay rt s.State.Timer w.pos = Except.ok (d, pos') ∧
        State.run rt s w = Except.ok w' ∧
        w.newJobs w' = [(d, Job.runTransition s)] ∧
        w.newErrors w' = [] ∧ w'.cancelled = w.cancelled ∧ w.newCalls w' = [] ∧
        w'.heap = w.heap ∧ w'.pos = pos') ∧
    (s.State.Transitions ≠ [] → ¬ s.State.Timer.wellFormed →
      State.run rt s w = Except.error "invalid argument to Int63n") := by
  refine ⟨?_, ?_, ?_⟩
  · intro h0
    simp [State.run, h0]
  · intro hne hwf
    obtain ⟨d, pos', hd⟩ := newDelay_ok rt s.State.Timer hwf w.pos
    have hlen : s.State.Transitions.length ≠ 0 := by
      intro h
      exact hne (List.length_eq_zero.mp h)
    refine ⟨d, pos', addJob { w with pos := pos' } d (Job.runTransition s), hd, ?_, ?_, ?_, rfl,
      ?_, rfl, rfl⟩
    · simp only [State.run, hlen, if_false, hd]
    · exact World.newJobs_append w _ _ rfl
    · exact World.newErrors_append w _ [] (by simp [addJob])
    · exact World.newCalls_append w _ [] (by simp [addJob])
  · intro hne hwf
    have hlen : s.State.Transitions.length ≠ 0 := by
      intro h
      exact hne (List.length_eq_zero.mp h)
    simp only [config.Timer.wellFormed, Classical.not_imp, not_lt] at hwf
    obtain ⟨hk, hle⟩ := hwf
    simp only [State.run, hlen, if_false, newDelay, hk, hle, if_true]

/-- Witness for C14, amended: the state `fork` (two transitions, no timer). -/
theorem State_run_schedules_one_evaluation_witness :
    ∃ d pos' w', newDelay Examples.rt Examples.fork.Timer Examples.worldOneBag.pos
        = Except.ok (d, pos') ∧
      State.run Examples.rt { State := Examples.fork, Attributes := some 0 }
        Examples.worldOneBag = Except.ok w' ∧
      Examples.worldOneBag.newJobs w'
        = [(d, Job.runTransition { State := Examples.fork, Attributes := some 0 })] := by
  obtain ⟨d, pos', w', h1, h2, h3, -⟩ :=
    (State_run_schedules_one_evaluation Examples.rt
      { State := Examples.fork, Attributes := some 0 } Examples.worldOneBag).2.1
      (by simp [Examples.fork]) (by decide)
  exact ⟨d, pos', w', h1, h2, h3⟩

/-! ### Sampling failures -/

theorem Sample_empty_values (rt : Runtime) (a : config.Attribute) (pos : Nat)
    (hk : a.Kind = config.AttributeType.RandomValue ∨
      a.Kind = config.AttributeType.RandomSubset) (he : a.Values = []) :
    AttributeDistribution.Sample rt a pos = ((Val.nil, some Err.emptyValues), pos) := by
  rcases hk with hk | hk <;> simp [AttributeDistribution.Sample, hk, he]

/-- Sampling into an allocated bag fails when some configured distribution is
a random value or random subset over the empty list. -/
theorem sampleInto_fails_of_empty_values (rt : Runtime) (r : Nat)
    (attrs : List (String × config.Attribute)) :
    ∀ w : World,
      (∃ kv ∈ attrs, (kv.2.Kind = config.AttributeType.RandomValue ∨
        kv.2.Kind = config.AttributeType.RandomSubset) ∧ kv.2.Values = []) →
      ∃ err w1, sampleInto rt (some r) attrs w = Except.ok (some err, w1) := by
  induction attrs with
  | nil => intro w h; simp at h
  | cons kv rest ih =>
    intro w h
    obtain ⟨key, attr⟩ := kv
    rcases hS : AttributeDistribution.Sample rt attr w.pos with ⟨⟨value, oerr⟩, pos'⟩
    cases oerr with
    | some err => exact ⟨err, { w with pos := pos' }, by simp only [sampleInto, hS]⟩
    | none =>
      obtain ⟨kv', hmem, hk, he⟩ := h
      rcases List.mem_cons.mp hmem with rfl | hmem
      · rw [Sample_empty_values rt attr w.pos hk he] at hS
        simp at hS
      · obtain ⟨err, w1, h1⟩ := ih
          { w with pos := pos', heap := w.heap.set r ((w.heap.getD r []).set key value) }
          ⟨kv', hmem, hk, he⟩
        exact ⟨err, w1, by simp only [sampleInto, hS, World.write]; exact h1⟩

/-- C15: when sampling a configured attribute distribution fails, the step
signals that error and returns.  Entity creation ends in the world sampling
left with the error signalled: cancelled, no entity set added or activated, no
state entry scheduled.  Transition evaluation likewise: cancelled, no draw for
the choice of a transition, no call, nothing scheduled.  Sampling into an
allocated bag does fail whenever a random-value or random-subset distribution
has an empty list. -/
theorem sampling_failure_aborts (sim : Simulation) (rt : Runtime) :
    (∀ (cfg : config.Entity) (a : Attributes) (w w1 : World) (err : Err),
      sampleInto rt a cfg.Attributes (w.logEntity cfg a) = Except.ok (some err, w1) →
      createEntity sim rt cfg a w = Except.ok (Simulation.error w1 err) ∧
      (Simulation.error w1 err).cancelled = true ∧
      w.newErrors (Simulation.error w1 err) = [err] ∧
      w.newJobs (Simulation.error w1 err) = [] ∧
      (Simulation.error w1 err).sets = w.sets ∧
      w.newCalls (Simulation.error w1 err) = []) ∧
    (∀ (s : State) (w w1 : World) (err : Err),
      State.generateAttributes rt s w = Except.ok (some err, w1) →
      State.runTransition sim rt s w = Except.ok (Simulation.error w1 err) ∧
      (Simulation.error w1 err).cancelled = true ∧
      w.newErrors (Simulation.error w1 err) = [err] ∧
      w.newJobs (Simulation.error w1 err) = [] ∧
      w.newCalls (Simulation.error w1 err) = []) ∧
    (∀ (r : Nat) (attrs : List (String × config.Attribute)) (w : World),
      (∃ kv ∈ attrs, (kv.2.Kind = config.AttributeType.RandomValue ∨
        kv.2.Kind = config.AttributeType.RandomSubset) ∧ kv.2.Values = []) →
      ∃ err w1, sampleInto rt (some r) attrs w = Except.ok (some err, w1)) := by
  refine ⟨?_, ?_, fun r attrs w h => sampleInto_fails_of_empty_values rt r attrs w h⟩
  · intro cfg a w w1 err h
    obtain ⟨hs, hj, hc, -, her, -, -⟩ := sampleInto_frame rt a cfg.Attributes _ w1 _ h
    simp only [World.logEntity] at hs hj hc her
    refine ⟨by simp only [createEntity, h], rfl, ?_, ?_, by simp [Simulation.error, hs], ?_⟩
    · exact World.newErrors_append w _ _ (by simp [Simulation.error, her])
    · exact World.newJobs_append w _ [] (by simp [Simulation.error, hj])
    · exact World.newCalls_append w _ [] (by simp [Simulation.error, hc])
  · intro s w w1 err h
    obtain ⟨-, hj, hc, -, her, -, -⟩ :=
      sampleInto_frame rt s.Attributes s.State.Attributes w w1 _ h
    refine ⟨by simp only [State.runTransition, h], rfl, ?_, ?_, ?_⟩
    · exact World.newErrors_append w _ _ (by simp [Simulation.error, her])
    · exact World.newJobs_append w _ [] (by simp [Simulation.error, hj])
    · exact World.newCalls_append w _ [] (by simp [Simulation.error, hc])

/-- Witness for C15: the state `fork` with a random-value attribute over the
empty list. -/
theorem sampling_failure_aborts_witness :
    State.runTransition Examples.simFork Examples.rtQuarter
        { State := Examples.forkUnsampled, Attributes := some 0 } Examples.worldOneBag =
      Except.ok (Simulation.error Examples.worldOneBag Err.emptyValues) ∧
    Examples.worldOneBag.newJobs (Simulation.error Examples.worldOneBag Err.emptyValues) = [] ∧
    Examples.worldOneBag.newCalls (Simulation.error Examples.worldOneBag Err.emptyValues) = [] := by
  obtain ⟨h1, -, -, h4, h5⟩ :=
    (sampling_failure_aborts Examples.simFork Examples.rtQuarter).2.1
      { State := Examples.forkUnsampled, Attributes := some 0 } Examples.worldOneBag
      Examples.worldOneBag Err.emptyValues rfl
  exact ⟨h1, h4, h5⟩

/-! ### Delays -/

theorem wrap64_of_inInt64 (x : Int) (h : inInt64 x) : wrap64 x = x := by
  obtain ⟨h1, h2⟩ := h
  unfold wrap64
  omega

/-- C17 as stated fails, both ways, where the difference `Max - Min` leaves
the 64-bit range: with `Min = -2^62 < Max = 2^62` the difference wraps to
`-2^63` and `rand.Int63n` panics; with `Max = -2^62 - 1 ≤ Min = 2^62` the
difference wraps to `2^63 - 1` and `newDelay` returns a delay. -/
theorem newDelay_difference_overflows :
    (inInt64 (-(2 ^ 62)) ∧ inInt64 (2 ^ 62) ∧ (-(2 ^ 62) : Int) < 2 ^ 62 ∧
      newDelay Examples.rt (Examples.randomTimer (-(2 ^ 62)) (2 ^ 62)) 0 =
        Except.error "invalid argument to Int63n") ∧
    (inInt64 (-(2 ^ 62) - 1) ∧ (-(2 ^ 62) - 1 : Int) ≤ 2 ^ 62 ∧
      newDelay Examples.rt (Examples.randomTimer (2 ^ 62) (-(2 ^ 62) - 1)) 0 =
        Except.ok (2 ^ 62, 1)) := by
  refine ⟨⟨by decide, by decide, by decide, rfl⟩, by decide, by decide, rfl⟩

/-- C17, amended: on timers whose durations are 64-bit values, `newDelay`
returns the configured interval for a fixed timer and 0 for the empty timer
type; for a random timer with `Min < Max` whose difference does not overflow
(`Max - Min < 2^63`) it returns, for every random draw, a delay `d` with
`Min ≤ d < Max`; for a random timer with `Max ≤ Min` whose difference does not
overflow (`-2^63 ≤ Max - Min`) it panics.  Non-negative durations never
overflow. -/
theorem newDelay_total_iff_wellFormed (rt : Runtime) (c : config.Timer) (pos : Nat)
    (hmin : inInt64 c.Min) (hmax : inInt64 c.Max) :
    (c.Kind = config.TimerType.FixedTimer → newDelay rt c pos = Except.ok (c.Interval, pos)) ∧
    (c.Kind = config.TimerType.empty → newDelay rt c pos = Except.ok (0, pos)) ∧
    (c.Kind = config.TimerType.RandomTimer → c.Min < c.Max → c.Max - c.Min < 2 ^ 63 →
      ∃ d, newDelay rt c pos = Except.ok (d, pos + 1) ∧ c.Min ≤ d ∧ d < c.Max) ∧
    (c.Kind = config.TimerType.RandomTimer → c.Max ≤ c.Min → -(2 ^ 63) ≤ c.Max - c.Min →
      newDelay rt c pos = Except.error "invalid argument to Int63n") ∧
    (0 ≤ c.Min → 0 ≤ c.Max → -(2 ^ 63) ≤ c.Max - c.Min ∧ c.Max - c.Min < 2 ^ 63) := by
  obtain ⟨a1, a2⟩ := hmin
  obtain ⟨b1, b2⟩ := hmax
  refine ⟨?_, ?_, ?_, ?_, ?_⟩
  · intro hk
    simp only [newDelay, hk]
  · intro hk
    simp only [newDelay, hk]
  · intro hk hlt hov
    have hw : wrap64 (c.Max - c.Min) = c.Max - c.Min :=
      wrap64_of_inInt64 _ ⟨by omega, hov⟩
    have hpos : ¬ (c.Max - c.Min ≤ 0) := by omega
    have hx : (rt.Intn pos (c.Max - c.Min).toNat : Int) < c.Max - c.Min := by
      have h := Runtime.Intn_lt rt pos (c.Max - c.Min).toNat (by omega)
      omega
    have hx0 : (0 : Int) ≤ (rt.Intn pos (c.Max - c.Min).toNat : Int) := Int.ofNat_nonneg _
    refine ⟨c.Min + rt.Intn pos (c.Max - c.Min).toNat, ?_, by omega, by omega⟩
    simp only [newDelay, hk, hw, hpos, if_false]
    rw [wrap64_of_inInt64 _ ⟨by omega, by omega⟩]
  · intro hk hle hov
    have hw : wrap64 (c.Max - c.Min) = c.Max - c.Min :=
      wrap64_of_inInt64 _ ⟨hov, by omega⟩
    have hnp : c.Max - c.Min ≤ 0 := by omega
    simp only [newDelay, hk, hw, hnp, if_true]
  · intro h0 h1
    constructor <;> omega

/-- Witness for C17, amended: the random timer with bounds 5 and 10. -/
theorem newDelay_total_iff_wellFormed_witness :
    ∃ d, newDelay Examples.rt (Examples.randomTimer 5 10) 0 = Except.ok (d, 1) ∧
      (5 : Int) ≤ d ∧ d < 10 :=
  (newDelay_total_iff_wellFormed Examples.rt (Examples.randomTimer 5 10) 0
    (by decide) (by decide)).2.2.1 rfl (by decide) (by decide)

/-! ### Copies of bags -/

theorem Bag.get_set_self (b : Bag) (k : String) (v : Val) : (Bag.set b k v).get k = some v := by
  induction b with
  | nil => simp [Bag.set, Bag.get]
  | cons kv rest ih =>
    obtain ⟨k', v'⟩ := kv
    by_cases hk : k' = k
    · simp [Bag.set, Bag.get, hk]
    · simp [Bag.set, Bag.get, hk, ih]

theorem Bag.get_set_other (b : Bag) (k k' : String) (v : Val) (h : k' ≠ k) :
    (Bag.set b k v).get k' = b.get k' := by
  induction b with
  | nil => simp [Bag.set, Bag.get, Ne.symm h]
  | cons kv rest ih =>
    obtain ⟨k0, v0⟩ := kv
    by_cases hk : k0 = k
    · subst hk
      simp [Bag.set, Bag.get, Ne.symm h]
    · by_cases hk' : k0 = k'
      · subst hk'
        simp [Bag.set, Bag.get, h]
      · simp [Bag.set, Bag.get, hk, hk', ih]

/-- C16: `copyAttributes` of an allocated (or nil) bag `a`, holding each key
once as a Go map does, yields a new bag that has exactly the entries of `a`,
so every lookup agrees, and leaves `a` as it was.  A write to the copy
succeeds, is seen in the copy, and leaves `a` with the contents it had; a
write to `a` leaves the copy with the contents `a` had before. -/
theorem copyAttributes_isolates (w : World) (a : Attributes)
    (hwf : Bag.wellFormed (w.read a)) (halloc : ∀ r, a = some r → r < w.heap.length) :
    ∃ w1, copyAttributes w a = (some w.heap.length, w1) ∧
      w1.read (some w.heap.length) = w.read a ∧
      (∀ k, (w1.read (some w.heap.length)).get k = (w.read a).get k) ∧
      w1.read a = w.read a ∧
      (∀ k v, ∃ w2, World.write w1 (some w.heap.length) k v = Except.ok w2 ∧
        w2.read a = w.read a ∧
        (w2.read (some w.heap.length)).get k = some v ∧
        ∀ k', k' ≠ k → (w2.read (some w.heap.length)).get k' = (w.read a).get k') ∧
      (∀ k v w2, World.write w1 a k v = Except.ok w2 →
        w2.read (some w.heap.length) = w.read a ∧
        (w2.read a).get k = some v ∧
        ∀ k', k' ≠ k → (w2.read a).get k' = (w.read a).get k') := by
  have hcopy : (w.read a).copy = w.read a := Bag.copy_of_wellFormed _ hwf
  have hnew : World.read { w with heap := w.heap ++ [w.read a] } (some w.heap.length)
      = w.read a := by
    simp [World.read, List.getD_eq_getElem?_getD]
  have hold : World.read { w with heap := w.heap ++ [w.read a] } a = w.read a := by
    cases a with
    | none => rfl
    | some r =>
      have hr := halloc r rfl
      simp only [World.read]
      rw [List.getD_eq_getElem?_getD, List.getElem?_append_left hr,
        ← List.getD_eq_getElem?_getD]
  refine ⟨{ w with heap := w.heap ++ [w.read a] }, ?_, hnew, ?_, hold, ?_, ?_⟩
  · simp only [copyAttributes, World.alloc, hcopy]
  · intro k; rw [hnew]
  · intro k v
    refine ⟨_, rfl, ?_, ?_, ?_⟩
    · cases a with
      | none => rfl
      | some r =>
        have hr := halloc r rfl
        simp only [World.read]
        rw [List.getD_eq_getElem?_getD, List.getElem?_set_ne (by omega),
          List.getElem?_append_left hr, ← List.getD_eq_getElem?_getD]
    · simp [World.read, List.getD_eq_getElem?_getD, Bag.get_set_self]
    · intro k' hk'
      simp only [World.read, List.getD_eq_getElem?_getD]
      rw [List.getElem?_set_self (by simp)]
      simp only [Option.getD_some, List.getElem?_append_right (le_refl _), Nat.sub_self,
        List.getElem?_cons_zero]
      exact Bag.get_set_other _ k k' v hk'
  · intro k v w2 h
    cases a with
    | none => simp [World.write] at h
    | some r =>
      have hr := halloc r rfl
      simp only [World.write, Except.ok.injEq] at h
      subst h
      have hcell : (w.heap ++ [w.heap.getD r []]).getD r [] = w.heap.getD r [] := by
        rw [List.getD_eq_getElem?_getD, List.getElem?_append_left hr,
          ← List.getD_eq_getElem?_getD]
      refine ⟨?_, ?_, ?_⟩
      · simp only [World.read]
        rw [List.getD_eq_getElem?_getD, List.getElem?_set_ne (by omega)]
        simp [List.getD_eq_getElem?_getD]
      · simp only [World.read]
        rw [List.getD_eq_getElem?_getD,
          List.getElem?_set_self (by simp only [List.length_append]; omega),
          Option.getD_some, hcell]
        exact Bag.get_set_self _ k v
      · intro k' hk'
        simp only [World.read]
        rw [List.getD_eq_getElem?_getD,
          List.getElem?_set_self (by simp only [List.length_append]; omega),
          Option.getD_some, hcell]
        exact Bag.get_set_other _ k k' v hk'

/-- Witness for C16: a bag with two attributes. -/
theorem copyAttributes_isolates_witness :
    ∃ w1, copyAttributes Examples.worldTwoKeys (some 0) = (some 1, w1) ∧
      w1.read (some 1) = [("region", Val.str "eu"), ("tier", Val.int 2)] ∧
      ∀ k v, ∃ w2, World.write w1 (some 1) k v = Except.ok w2 ∧
        w2.read (some 0) = [("region", Val.str "eu"), ("tier", Val.int 2)] := by
  obtain ⟨w1, h1, h2, -, -, h5, -⟩ :=
    copyAttributes_isolates Examples.worldTwoKeys (some 0)
      (by simp [Bag.wellFormed, Examples.worldTwoKeys, World.read, World.init])
      (by intro r hr; cases hr; decide)
  refine ⟨w1, h1, h2, fun k v => ?_⟩
  obtain ⟨w2, g1, g2, -⟩ := h5 k v
  exact ⟨w2, g1, g2⟩

/-! ### Negative cardinality -/

/-- C19: `cardinality.Value` returns a negative attribute value or a negative
literal without error (for one, the literal `-3`), and 1 for the empty
expression that names no attribute.  When the cardinality of an entity set
resolves to a negative integer (its entity being configured and its timer
yielding a delay), activation signals no error and schedules the
create-one-entity job, and that job returns at once: it creates no entity and
schedules no successor (the world is unchanged). -/
theorem negative_cardinality_creates_nothing (sim : Simulation) (rt : Runtime) :
    (∀ (c : String) (bag : Bag) (n : Int), bag.get c = some (Val.int n) →
      cardinality.Value c bag = (n, none)) ∧
    (∀ (c : String) (bag : Bag) (n : Int), bag.get c = none → c ≠ "" → atoi c = (n, none) →
      cardinality.Value c bag = (n, none)) ∧
    atoi "-3" = (-3, none) ∧
    (∀ bag : Bag, bag.get "" = none → cardinality.Value "" bag = (1, none)) ∧
    (∀ (e : Nat) (w : World) (es : entitySet) (cfg : config.Entity) (n : Int),
      w.sets.get? e = some es →
      config.find sim.Config.Entities es.EntitySet.Entity = some cfg →
      cardinality.Value es.EntitySet.Cardinality (w.read es.attributes) = (n, none) →
      n < 0 → es.EntitySet.Timer.wellFormed →
      ∃ w1 d, entitySet.create sim rt e w = Except.ok w1 ∧
        w.newErrors w1 = [] ∧ w1.cancelled = w.cancelled ∧
        w.newJobs w1 = [(d, Job.createEntity e)] ∧
        (∃ es1, w1.sets.get? e = some es1 ∧ es1.numberOfEntities = n ∧
          es1.numberOfCreatedEntities = 0) ∧
        entitySet.createEntity sim rt e w1 = Except.ok w1) := by
  refine ⟨?_, ?_, by decide, ?_, ?_⟩
  · intro c bag n hg
    simp only [cardinality.Value, hg]
  · intro c bag n hg hc ha
    simp only [cardinality.Value, hg, hc, if_false, ha]
  · intro bag hg
    simp [cardinality.Value, hg]
  · intro e w es cfg n hes hf hcv hn ht
    have hlen : e < w.sets.length := by
      rw [List.get?_eq_getElem?] at hes
      exact (List.getElem?_eq_some_iff.mp hes).1
    obtain ⟨d, pos', hd⟩ := newDelay_ok rt es.EntitySet.Timer ht w.pos
    have hread : World.read { w with sets := w.sets.set e { es with cfg := cfg } } es.attributes
        = w.read es.attributes := rfl
    have hget : (addJob
        { w with sets := (w.sets.set e { es with cfg := cfg }).set e
                   { es with cfg := cfg, numberOfEntities := n, numberOfCreatedEntities := 0 },
                 pos := pos' } d (Job.createEntity e)).sets.get? e =
        some { es with cfg := cfg, numberOfEntities := n, numberOfCreatedEntities := 0 } := by
      simp only [addJob, List.get?_eq_getElem?]
      rw [List.getElem?_set_self (by simpa using hlen)]
    refine ⟨_, d, ?_, ?_, ?_, ?_, ⟨_, hget, rfl, rfl⟩, ?_⟩
    · simp only [entitySet.create, hes, hf, hread, hcv, hd]
    · exact World.newErrors_append w _ [] (by simp [addJob])
    · rfl
    · exact World.newJobs_append w _ _ rfl
    · exact createEntity_run_done sim rt e _ _ hget (by simp only [ge_iff_le]; omega)

/-- Witness for C19: an entity set of users with the cardinality `-3`. -/
theorem negative_cardinality_creates_nothing_witness :
    ∃ w1 d, entitySet.create Examples.simPlain Examples.rt 0 Examples.worldOfMinusThree
        = Except.ok w1 ∧
      Examples.worldOfMinusThree.newErrors w1 = [] ∧
      Examples.worldOfMinusThree.newJobs w1 = [(d, Job.createEntity 0)] ∧
      entitySet.createEntity Examples.simPlain Examples.rt 0 w1 = Except.ok w1 := by
  obtain ⟨w1, d, h1, h2, -, h4, -, h6⟩ :=
    (negative_cardinality_creates_nothing Examples.simPlain Examples.rt).2.2.2.2 0
      Examples.worldOfMinusThree
      (entitySet.fresh { Entity := "user", Cardinality := "-3", Timer := Examples.noTimer }
        (some 0))
      Examples.plainEntity (-3) rfl rfl (by decide) (by decide) (by decide)
  exact ⟨w1, d, h1, h2, h4, h6⟩

end Sisyphus
